import Mathlib

/-!
# SAM-BA monitor (`bootloaders/d21g/sam_ba_monitor.c`)

A shallow embedding of the command interpreter, the flash programming engine
and the network image installer of the bootloader monitor.

Conventions of the embedding.

* Machine integers are natural numbers reduced explicitly (`u8`, `u16`, `u32`).
* Addressable memory is a byte store `Mem := Nat → Nat`; every read reduces the
  cell modulo 256.  The monitor's own variables (`command`, `current_number`,
  `data`, ...) are fields of the state records and are not part of that store.
* Everything the monitor does to the outside (transport calls, flash controller
  commands, control transfers) is appended, in program order, to a trace of
  `Event`s.  Indicator LEDs are not modelled.
* A C loop that need not terminate is modelled with fuel and an `Option`
  result; `none` stands for a call that does not return.
-/

namespace SamBa

/-! ## Machine words and memory -/

/-- Truncation to `uint8_t`. -/
def u8 (x : Nat) : Nat := x % 256

/-- Truncation to `uint16_t`. -/
def u16 (x : Nat) : Nat := x % 65536

/-- Truncation to `uint32_t`. -/
def u32 (x : Nat) : Nat := x % 4294967296

/-- Subtraction of `uint32_t` values, wrapping. -/
def sub32 (a b : Nat) : Nat := (u32 a + 4294967296 - u32 b) % 4294967296

/-- Byte-addressed memory. -/
abbrev Mem := Nat → Nat

/-- Load of a `uint8_t`. -/
def read8 (m : Mem) (a : Nat) : Nat := m a % 256

/-- Little-endian load of a `uint16_t`. -/
def read16 (m : Mem) (a : Nat) : Nat := read8 m a + 256 * read8 m (a + 1)

/-- Little-endian load of a `uint32_t`. -/
def read32 (m : Mem) (a : Nat) : Nat :=
  read8 m a + 256 * read8 m (a + 1) + 65536 * read8 m (a + 2) + 16777216 * read8 m (a + 3)

/-- Store of a `uint8_t` (the value is truncated). -/
def write8 (m : Mem) (a v : Nat) : Mem := fun x => if x = a then v % 256 else m x

/-- Little-endian store of a `uint16_t`. -/
def write16 (m : Mem) (a v : Nat) : Mem := write8 (write8 m a v) (a + 1) (v / 256)

/-- Little-endian store of a `uint32_t`. -/
def write32 (m : Mem) (a v : Nat) : Mem :=
  write8 (write8 (write8 (write8 m a v) (a + 1) (v / 256)) (a + 2) (v / 65536)) (a + 3)
    (v / 16777216)

/-- The `n` bytes found at `a`, `a+1`, ... -/
def readBytes (m : Mem) (a n : Nat) : List Nat := (List.range n).map fun k => read8 m (a + k)

/-- Block store (`memcpy` into memory, or a block receive). -/
def writeBytes (m : Mem) (a : Nat) (bs : List Nat) : Mem :=
  fun x => if a ≤ x ∧ x < a + bs.length then bs.getD (x - a) 0 % 256 else m x

/-- The four little-endian bytes of a `uint32_t` object. -/
def bytes32 (v : Nat) : List Nat :=
  [v % 256, v / 256 % 256, v / 65536 % 256, v / 16777216 % 256]

/-- Little-endian value of the first two bytes of an object. -/
def le16 (d : List Nat) : Nat := d.getD 0 0 % 256 + 256 * (d.getD 1 0 % 256)

/-- Little-endian value of the first four bytes of an object. -/
def le32 (d : List Nat) : Nat :=
  d.getD 0 0 % 256 + 256 * (d.getD 1 0 % 256) + 65536 * (d.getD 2 0 % 256)
    + 16777216 * (d.getD 3 0 % 256)

/-- Result of `strlen`: the number of bytes before the first NUL. -/
def strlen (s : List Nat) : Nat := (s.takeWhile fun c => c != 0).length

/-! ## Trace of externally visible actions -/

/-- One externally visible action of the monitor. -/
inductive Event where
  /-- Call `putdata(data, length)` of the bound transport, with the bytes sent. -/
  | putdata (bytes : List Nat)
  /-- Call `putdata_xmd(data, length)` of the bound transport. -/
  | putdata_xmd (bytes : List Nat)
  /-- Call `getdata_xmd(dst, length)` of the bound transport. -/
  | getdata_xmd (dst len : Nat)
  /-- Call `put_c(value)` of the bound transport. -/
  | put_c (value : Nat)
  /-- Flash controller command PBC (page buffer clear). -/
  | pageBufferClear
  /-- Store of one word into the flash page buffer, `dst_addr[i] = src_addr[i]`. -/
  | storeWord (addr val : Nat)
  /-- Flash controller command WP (write page). -/
  | writePage
  /-- Flash controller command ER (erase row) with the byte address it is issued for. -/
  | eraseRow (addr : Nat)
  /-- Control transfer of `call_applet`: stack pointer and entry point loaded from `address`. -/
  | call_applet (address msp entry : Nat)
  /-- Call `tftpSendResponse(status)`. -/
  | tftpSendResponse (status : Int)
  /-- Call `tftpEnd()`. -/
  | tftpEnd
  /-- Call `NVIC_SystemReset()`. -/
  | systemReset
  /-- Call `startApplication()`. -/
  | startApplication
  deriving DecidableEq, Repr

/-- Memory together with the trace of actions performed so far. -/
structure World where
  mem : Mem
  trace : List Event

/-- Append one action to the trace. -/
def World.log (w : World) (e : Event) : World := { w with trace := w.trace ++ [e] }

/-- The bytes sent with `putdata`, in order. -/
def output : List Event → List Nat
  | [] => []
  | Event.putdata bs :: t => bs ++ output t
  | _ :: t => output t

/-! ## Flash geometry and build constants -/

/-- The globals `PAGE_SIZE`, `PAGE_SIZE_IN_WORDS`, `PAGES`, `MAX_FLASH`. -/
structure Geometry where
  PAGE_SIZE : Nat
  PAGE_SIZE_IN_WORDS : Nat
  PAGES : Nat
  MAX_FLASH : Nat
  deriving DecidableEq, Repr

/-- The table `pageSizes` of `sam_ba_monitor_run`. -/
def pageSizes : List Nat := [8, 16, 32, 64, 128, 256, 512, 1024]

/-- Geometry set up by `sam_ba_monitor_run` from the controller's parameter register
(fields `PSZ`, three bits, and `NVMP`, sixteen bits). -/
def sam_ba_monitor_run_geometry (psz nvmp : Nat) : Geometry :=
  let ps := pageSizes.getD (psz % 8) 0
  { PAGE_SIZE := ps
    PAGE_SIZE_IN_WORDS := ps >>> 2
    PAGES := nvmp % 65536
    MAX_FLASH := u32 (ps * (nvmp % 65536)) }

/-- Constants fixed when the bootloader is built; none of them is defined in
`sam_ba_monitor.c`. -/
structure Build where
  /-- The string `SAM_BA_VERSION` (`RomBOOT_Version`). -/
  RomBOOT_Version : List Nat
  /-- The string literal `__DATE__`. -/
  DATE : List Nat
  /-- The string literal `__TIME__`. -/
  TIME : List Nat
  /-- The bytes stored behind the terminating NUL of the `__TIME__` literal. -/
  rodata : Nat → Nat
  /-- The combining step `serial_add_crc(byte, crc)`. -/
  serial_add_crc : Nat → Nat → Nat

/-- The string `RomBOOT_ExtendedCapabilities`, "[Arduino:XYZ]". -/
def RomBOOT_ExtendedCapabilities : List Nat :=
  [91, 65, 114, 100, 117, 105, 110, 111, 58, 88, 89, 90, 93]

/-! ## Flash programming engine -/

/-- Effect of the ER command on memory: the whole row (four pages) that contains
`addr` reads back as `0xFF`. -/
def eraseRowMem (g : Geometry) (m : Mem) (addr : Nat) : Mem :=
  fun x => if x / (g.PAGE_SIZE * 4) = addr / (g.PAGE_SIZE * 4) then 255 else m x

/-- The loop of `sam_ba_eraseflash`. -/
def eraseLoop (g : Geometry) : Nat → Nat → World → Option World
  | 0, dst_addr, w => if dst_addr < g.MAX_FLASH then none else some w
  | fuel + 1, dst_addr, w =>
    if dst_addr < g.MAX_FLASH then
      eraseLoop g fuel (u32 (dst_addr + u32 (g.PAGE_SIZE * 4)))
        { mem := eraseRowMem g w.mem dst_addr, trace := w.trace ++ [Event.eraseRow dst_addr] }
    else some w

/-- Model of `sam_ba_eraseflash(dst_addr)`.  The address runs through at most `2^32` values
before it repeats, so this amount of fuel is exhausted only by a loop that never ends. -/
def sam_ba_eraseflash (g : Geometry) (dst_addr : Nat) (w : World) : Option World :=
  eraseLoop g 4294967296 dst_addr w

/-- The page buffer fill of `sam_ba_writetoflash`: `n` further iterations of
`dst_addr[i] = src_addr[i]` from index `i` on.  `src` reads word `i` of the source from the
current memory. -/
def fillPage (src : Mem → Nat → Nat) (dst_addr : Nat) : Nat → Nat → World → World
  | 0, _, w => w
  | n + 1, i, w =>
    fillPage src dst_addr n (i + 1)
      { mem := write32 w.mem (u32 (dst_addr + 4 * i)) (src w.mem i)
        trace := w.trace ++ [Event.storeWord (u32 (dst_addr + 4 * i)) (src w.mem i)] }

/-- The page loop of `sam_ba_writetoflash`; `off` is the number of source words already
consumed (`src_addr += i`). -/
def writeLoop (g : Geometry) (src : Mem → Nat → Nat) :
    Nat → Nat → Nat → Nat → World → Option World
  | 0, _, _, size, w => if size = 0 then some w else none
  | fuel + 1, off, dst_addr, size, w =>
    if size = 0 then some w
    else
      let i := min (g.PAGE_SIZE / 4) size
      let w1 := fillPage (fun m k => src m (off + k)) dst_addr i 0 (w.log Event.pageBufferClear)
      writeLoop g src fuel (off + i) (u32 (dst_addr + 4 * i)) (size - i) (w1.log Event.writePage)

/-- Model of `sam_ba_writetoflash(src_addr, dst_addr, size)`, `size` in words.  Every round
that makes progress consumes at least one word, so `size` rounds of fuel are exhausted only
by a loop that never ends (`PAGE_SIZE / 4 = 0`). -/
def sam_ba_writetoflash (g : Geometry) (src : Mem → Nat → Nat) (dst_addr size : Nat)
    (w : World) : Option World :=
  writeLoop g src size 0 dst_addr size w

/-- Word `i` of a source buffer that lives in memory at `src_addr`. -/
def memWords (src_addr : Nat) : Mem → Nat → Nat :=
  fun m i => read32 m (u32 (src_addr + 4 * i))

/-- Word `i` of a source buffer held in a local array. -/
def bufWords (buf : List Nat) : Mem → Nat → Nat :=
  fun _ i => le32 (buf.drop (4 * i))

/-- Model of `sam_ba_calc_crc16(data, size)` over the bytes at `data`. -/
def sam_ba_calc_crc16 (b : Build) (m : Mem) (data size : Nat) : Nat :=
  (List.range size).foldl (fun crc k => u16 (b.serial_add_crc (read8 m (u32 (data + k))) crc)) 0

/-! ## Command protocol interpreter -/

/-- The values the global `ptr` takes: a position in the receive buffer `data`, or a
position relative to the `__TIME__` literal (where the `V` command leaves it). -/
inductive Ptr where
  | data (k : Nat)
  | time (k : Nat)
  deriving DecidableEq, Repr

/-- Pointer arithmetic `ptr + n`. -/
def Ptr.add : Ptr → Nat → Ptr
  | Ptr.data k, n => Ptr.data (k + n)
  | Ptr.time k, n => Ptr.time (k + n)

/-- Pointer arithmetic `ptr - 1`. -/
def Ptr.pred : Ptr → Ptr
  | Ptr.data k => Ptr.data (k - 1)
  | Ptr.time k => Ptr.time (k - 1)

/-- The byte `*ptr`; `data` is the content of the receive buffer. -/
def deref (b : Build) (data : List Nat) : Ptr → Nat
  | Ptr.data k => data.getD k 0 % 256
  | Ptr.time k =>
    if k < b.TIME.length then b.TIME.getD k 0 % 256
    else if k = b.TIME.length then 0
    else b.rodata (k - (b.TIME.length + 1)) % 256

/-- The globals of the interpreter, the memory it acts on, the trace, and the bytes the
transport's streaming receive (`getdata_xmd`) is going to deliver. -/
structure Monitor where
  command : Nat
  current_number : Nat
  ptr_data : Nat
  b_terminal_mode : Bool
  b_sam_ba_interface_usart : Bool
  i : Nat
  length : Nat
  ptr : Ptr
  j : Nat
  u32tmp : Nat
  src_buff_addr : Nat
  hw : World
  rx : List Nat

/-- Model of `sam_ba_putdata(ptr_monitor_if, data, length)`. -/
def sam_ba_putdata (s : Monitor) (bytes : List Nat) : Monitor :=
  { s with hw := s.hw.log (Event.putdata bytes) }

/-- The character for one nibble in `sam_ba_putdata_term`. -/
def termChar (temp : Nat) : Nat := if temp ≤ 9 then temp ||| 48 else temp + 55

/-- The digit loop of `sam_ba_putdata_term`: `n` further iterations, writing at index `pos`
of `buf` and moving down. -/
def termLoop : Nat → Nat → Nat → List Nat → List Nat
  | 0, _, _, buf => buf
  | n + 1, int_value, pos, buf =>
    termLoop n (int_value >>> 4) (pos - 1) (buf.set pos (u8 (termChar (int_value &&& 15))))

/-- The buffer `buf[12]` of `sam_ba_putdata_term` before the call of `sam_ba_putdata`;
`data` holds the bytes of the object pointed to. -/
def termBuf (data : List Nat) (length : Nat) : List Nat :=
  let int_value :=
    if length = 4 then le32 data else if length = 2 then le16 data else data.getD 0 0 % 256
  let buf := termLoop (length * 2) int_value (2 + (length * 2 - 1)) (List.replicate 12 0)
  (((buf.set 0 48).set 1 120).set (length * 2 + 2) 10).set (length * 2 + 3) 13

/-- Model of `sam_ba_putdata_term(data, length)`. -/
def sam_ba_putdata_term (s : Monitor) (data : List Nat) (length : Nat) : Monitor :=
  if s.b_terminal_mode then sam_ba_putdata s ((termBuf data length).take (length * 2 + 4))
  else sam_ba_putdata s (data.take length)

/-- The digit loop of `put_uint32`: iterations `i`, `i+1`, ... of `n` further ones. -/
def putLoop : Nat → Nat → Nat → List Nat → List Nat
  | 0, _, _, buff => buff
  | k + 1, i, n, buff =>
    let d := n &&& 15
    putLoop k (i + 1) (n >>> 4) (buff.set (7 - i) (u8 (if d > 9 then 65 + d - 10 else 48 + d)))

/-- Model of `put_uint32(n)`. -/
def put_uint32 (s : Monitor) (n : Nat) : Monitor :=
  sam_ba_putdata s ((putLoop 8 0 n (List.replicate 8 0)).take 8)

/-- Model of `call_applet(address)`, followed by the statements behind the call in the `G`
branch (reached when the applet returns; the applet itself is not modelled). -/
def call_applet (s : Monitor) (address : Nat) : Monitor :=
  let msp := read32 s.hw.mem address
  let app_start_address := read32 s.hw.mem (u32 (address + 4))
  { s with hw := s.hw.log (Event.call_applet address msp app_start_address) }

/-- The line break string "\n\r" of the source. -/
def lineBreak : List Nat := [10, 13]

/-- Branch `command == 'S'`. -/
def cmdS (b : Build) (data : List Nat) (s : Monitor) : Monitor :=
  let s1 : Monitor :=
    if s.length > s.i then
      let ptr := s.ptr.add 1
      let i := u32 (s.i + 1)
      let u32tmp := if sub32 s.length i < s.current_number then sub32 s.length i
        else s.current_number
      let bytes := (List.range u32tmp).map fun k => deref b data (ptr.add k)
      { s with
        hw := { s.hw with mem := writeBytes s.hw.mem s.ptr_data bytes }
        i := u32 (i + u32tmp)
        ptr := ptr.add u32tmp
        u32tmp := u32tmp
        j := u8 u32tmp }
    else s
  let s2 : Monitor := { s1 with i := sub32 s1.i 1, ptr := s1.ptr.pred }
  if s2.j < s2.current_number then
    let n := s2.current_number - s2.j
    { s2 with
      hw := { mem := writeBytes s2.hw.mem s2.ptr_data (s2.rx.take n)
              trace := s2.hw.trace ++ [Event.getdata_xmd s2.ptr_data n] }
      rx := s2.rx.drop n }
  else s2

/-- Branch `command == 'V'`. -/
def cmdV (b : Build) (s : Monitor) : Monitor :=
  let s := sam_ba_putdata s [118]
  let s := sam_ba_putdata s (b.RomBOOT_Version.take (strlen b.RomBOOT_Version))
  let s := sam_ba_putdata s [32]
  let s := sam_ba_putdata s
    (RomBOOT_ExtendedCapabilities.take (strlen RomBOOT_ExtendedCapabilities))
  let s := sam_ba_putdata s [32]
  let s := sam_ba_putdata s (b.DATE.take (strlen b.DATE))
  let s := sam_ba_putdata s [32]
  let s := { s with i := strlen b.TIME, ptr := Ptr.time (strlen b.TIME + 1) }
  let s := sam_ba_putdata s (b.TIME.take (strlen b.TIME))
  sam_ba_putdata s lineBreak

/-- Branch `command == 'Y'`. -/
def cmdY (g : Geometry) (s : Monitor) : Option Monitor :=
  let r : Option Monitor :=
    if s.current_number = 0 then some { s with src_buff_addr := s.ptr_data }
    else
      (sam_ba_writetoflash g (memWords s.src_buff_addr) s.ptr_data (s.current_number / 4)
        s.hw).map fun w => { s with hw := w }
  r.map fun s => sam_ba_putdata s [89, 10, 13]

/-- Branch `command == 'Z'`. -/
def cmdZ (b : Build) (s : Monitor) : Monitor :=
  let crc := sam_ba_calc_crc16 b s.hw.mem s.ptr_data s.current_number
  let s := sam_ba_putdata s [90]
  let s := put_uint32 s crc
  sam_ba_putdata s [35, 10, 13]

/-- The chain of `if (command == ...)` run when the terminator is read. -/
def dispatch (b : Build) (g : Geometry) (data : List Nat) (s : Monitor) : Option Monitor :=
  if s.command = 83 then some (cmdS b data s)
  else if s.command = 82 then
    let bytes := readBytes s.hw.mem s.ptr_data s.current_number
    some { s with hw := s.hw.log (Event.putdata_xmd bytes) }
  else if s.command = 79 then
    some { s with hw := { s.hw with mem := write8 s.hw.mem s.ptr_data s.current_number } }
  else if s.command = 72 then
    some { s with hw := { s.hw with mem := write16 s.hw.mem s.ptr_data s.current_number } }
  else if s.command = 87 then
    some { s with hw := { s.hw with mem := write32 s.hw.mem s.ptr_data s.current_number } }
  else if s.command = 111 then
    some (sam_ba_putdata_term s (readBytes s.hw.mem s.ptr_data 1) 1)
  else if s.command = 104 then
    let s := { s with current_number := read16 s.hw.mem s.ptr_data }
    some (sam_ba_putdata_term s (bytes32 s.current_number) 2)
  else if s.command = 119 then
    let s := { s with current_number := read32 s.hw.mem s.ptr_data }
    some (sam_ba_putdata_term s (bytes32 s.current_number) 4)
  else if s.command = 71 then
    let s := call_applet s s.current_number
    some (if s.b_sam_ba_interface_usart then { s with hw := s.hw.log (Event.put_c 6) } else s)
  else if s.command = 84 then
    some (sam_ba_putdata { s with b_terminal_mode := true } lineBreak)
  else if s.command = 78 then
    let s := if s.b_terminal_mode = false then sam_ba_putdata s lineBreak else s
    some { s with b_terminal_mode := false }
  else if s.command = 86 then some (cmdV b s)
  else if s.command = 88 then
    (sam_ba_eraseflash g s.current_number s.hw).map fun w =>
      sam_ba_putdata { s with hw := w } [88, 10, 13]
  else if s.command = 89 then cmdY g s
  else if s.command = 90 then some (cmdZ b s)
  else some s

/-- The branch `*ptr == '#'` of the loop body. -/
def terminator (b : Build) (g : Geometry) (data : List Nat) (s : Monitor) : Option Monitor :=
  let s := if s.b_terminal_mode then sam_ba_putdata s lineBreak else s
  (dispatch b g data s).map fun s =>
    let s := { s with command := 122, current_number := 0 }
    if s.b_terminal_mode then sam_ba_putdata s [62] else s

/-- The branch of the loop body for a byte other than `0xff` and `#`. -/
def accumulate (c : Nat) (s : Monitor) : Monitor :=
  if 48 ≤ c ∧ c ≤ 57 then
    { s with current_number := u32 ((s.current_number <<< 4) ||| (c - 48)) }
  else if 65 ≤ c ∧ c ≤ 70 then
    { s with current_number := u32 ((s.current_number <<< 4) ||| (c - 65 + 10)) }
  else if 97 ≤ c ∧ c ≤ 102 then
    { s with current_number := u32 ((s.current_number <<< 4) ||| (c - 97 + 10)) }
  else if c = 44 then { s with ptr_data := s.current_number, current_number := 0 }
  else { s with command := c, current_number := 0 }

/-- One execution of the body of the `for` loop of `sam_ba_monitor_loop`, on the byte `*ptr`. -/
def body (b : Build) (g : Geometry) (data : List Nat) (s : Monitor) : Option Monitor :=
  let c := deref b data s.ptr
  if c = 255 then some s
  else if c = 35 then terminator b g data s
  else some (accumulate c s)

/-- The `for` loop of `sam_ba_monitor_loop`: test `i < length`, body, then `i++, ptr++`. -/
def forLoop (b : Build) (g : Geometry) (data : List Nat) : Nat → Monitor → Option Monitor
  | 0, s => if s.i < s.length then none else some s
  | fuel + 1, s =>
    if s.i < s.length then
      match body b g data s with
      | none => none
      | some s1 => forLoop b g data fuel { s1 with i := u32 (s1.i + 1), ptr := s1.ptr.add 1 }
    else some s

/-- Model of `sam_ba_monitor_loop()`; `data` is what `sam_ba_getdata` put into the receive
buffer (its length is the value returned).  The result carries `dataReceived`. -/
def sam_ba_monitor_loop (b : Build) (g : Geometry) (fuel : Nat) (data : List Nat)
    (s : Monitor) : Option (Bool × Monitor) :=
  (forLoop b g data fuel { s with length := data.length, ptr := Ptr.data 0, i := 0 }).map
    fun s1 => (decide (data.length ≠ 0), s1)

/-! ## Network image installer -/

/-- Constants and macros of `tftp.h`, `netcfg.h` and `utils.h` used by
`sam_ba_monitor_loop_tftp`; none of them is defined in `sam_ba_monitor.c`. -/
structure NetCfg where
  TFTP_STATUS_NO_TRAFFIC : Int
  TFTP_STATUS_ERROR_PASSWORD : Int
  TFTP_STATUS_ERROR_BAD_IMAGE : Int
  TFTP_STATUS_ERROR_FULL : Int
  TFTP_STATUS_ERROR_CRC : Int
  /-- The macro `TFTP_IS_ERROR_STATUS`. -/
  TFTP_IS_ERROR_STATUS : Int → Bool
  /-- The macro `TFTP_IS_RX_COMPLETED`. -/
  TFTP_IS_RX_COMPLETED : Int → Bool
  TFTP_RXRQ_WRQ : Nat
  NETCFG_PASSWORD_SIZE : Nat
  /-- The configured credential `netcfgData.password`. -/
  password : List Nat
  /-- The address `APP_FLASH_MEMORY_START_PTR` (a `uint32_t *`). -/
  APP_FLASH_MEMORY_START_PTR : Nat
  /-- The address `APP_FLASH_MEMORY_START_ADDR`. -/
  APP_FLASH_MEMORY_START_ADDR : Nat

/-- The external transfer service, over its own state `σ`.  A read function returns the
bytes it stored into the caller's buffer, or `none` when it returns false. -/
structure Tftp (σ : Type) where
  tftpRun : σ → Int × σ
  tftpReceivedRequest : σ → Nat × σ
  tftpGetReceivedBytes : Nat → σ → Option (List Nat) × σ
  tftpGetReceivedWords : Nat → σ → Option (List Nat) × σ
  tftpReceivedBytesCount : σ → Nat × σ
  tftpSendResponse : Int → σ → Bool × σ
  tftpEnd : σ → σ

/-- The file-scope variables of the installer, the memory, the trace and the state of the
transfer service. -/
structure Installer (σ : Type) where
  flashProgrammingPtr : Nat
  waitingForPassword : Bool
  waitingForCrc : Bool
  receivedCrc16 : Nat
  imageSize : Nat
  hw : World
  svc : σ

/-- How a call of `sam_ba_monitor_loop_tftp` ends: it returns `dataReceived`, or it resets
the device (`NVIC_SystemReset` does not return), or it starts the application. -/
inductive Outcome where
  | returned (dataReceived : Bool)
  | reset
  | started
  deriving DecidableEq, Repr

/-- Bytes stored at the start of a local buffer. -/
def overlay (bytes buf : List Nat) : List Nat := bytes ++ buf.drop bytes.length

/-- The value of `flashProgrammingPtr - APP_FLASH_MEMORY_START_PTR` converted to `uint32_t`
for the comparison with `MAX_FLASH`: a difference of two `uint32_t *`, counted in words. -/
def ptrDiff (p q : Nat) : Nat :=
  if q ≤ p then (p - q) / 4 else 4294967296 - (q - p + 3) / 4

/-- The page drain loop, `while (tftpGetReceivedWords(pageBuffer, PAGE_SIZE_IN_WORDS))`.
The result carries `pageBuffer` and `dataReceived`. -/
def drainLoop {σ : Type} (g : Geometry) (T : Tftp σ) :
    Nat → List Nat → Bool → Installer σ → Option (List Nat × Bool × Installer σ)
  | 0, pageBuffer, dataReceived, s =>
    match T.tftpGetReceivedWords g.PAGE_SIZE_IN_WORDS s.svc with
    | (none, v) => some (pageBuffer, dataReceived, { s with svc := v })
    | (some _, _) => none
  | fuel + 1, pageBuffer, dataReceived, s =>
    match T.tftpGetReceivedWords g.PAGE_SIZE_IN_WORDS s.svc with
    | (none, v) => some (pageBuffer, dataReceived, { s with svc := v })
    | (some ws, v) =>
      let pageBuffer := overlay ws pageBuffer
      match sam_ba_writetoflash g (bufWords pageBuffer) s.flashProgrammingPtr
          g.PAGE_SIZE_IN_WORDS s.hw with
      | none => none
      | some w =>
        drainLoop g T fuel pageBuffer true
          { s with
            svc := v
            hw := w
            flashProgrammingPtr := u32 (s.flashProgrammingPtr + 4 * g.PAGE_SIZE_IN_WORDS)
            imageSize := u32 (s.imageSize + g.PAGE_SIZE) }

/-- The padding loop `for (idx = lastWordsCount << 2; idx < PAGE_SIZE; ++idx)`: `n` further
iterations from `idx` on. -/
def padLoop : Nat → Nat → List Nat → List Nat
  | 0, _, pageBuffer => pageBuffer
  | n + 1, idx, pageBuffer => padLoop n (idx + 1) (pageBuffer.set idx 255)

/-- The block `if (TFTP_IS_RX_COMPLETED(tftpStatus))`. -/
def completion {σ : Type} (b : Build) (g : Geometry) (c : NetCfg) (T : Tftp σ)
    (pageBuffer : List Nat) (tftpStatus : Int) (dataReceived : Bool) (s : Installer σ) :
    Option (Int × Bool × Installer σ) :=
  let (count, v) := T.tftpReceivedBytesCount s.svc
  let lastWordsCount := u16 (count >>> 2)
  let s : Installer σ := { s with svc := v }
  let r : Option (Int × Bool × Installer σ) :=
    if lastWordsCount ≠ 0 then
      let (got, v) := T.tftpGetReceivedWords lastWordsCount s.svc
      let pageBuffer := match got with
        | some ws => overlay ws pageBuffer
        | none => pageBuffer
      let imageSize := u32 (s.imageSize + (lastWordsCount <<< 2))
      let idx := u16 (lastWordsCount <<< 2)
      if 65536 ≤ g.PAGE_SIZE then none
      else
        let pageBuffer := padLoop (g.PAGE_SIZE - idx) idx pageBuffer
        match sam_ba_writetoflash g (bufWords pageBuffer) s.flashProgrammingPtr
            g.PAGE_SIZE_IN_WORDS s.hw with
        | none => none
        | some w =>
          let fp := u32 (s.flashProgrammingPtr + 4 * g.PAGE_SIZE_IN_WORDS)
          let st := if ptrDiff fp c.APP_FLASH_MEMORY_START_PTR ≥ g.MAX_FLASH
            then c.TFTP_STATUS_ERROR_FULL else tftpStatus
          some (st, true,
            { s with svc := v, hw := w, flashProgrammingPtr := fp, imageSize := imageSize })
    else some (tftpStatus, dataReceived, s)
  r.map fun (tftpStatus, dataReceived, s) =>
    let (left, v) := T.tftpReceivedBytesCount s.svc
    let s : Installer σ := { s with svc := v }
    if left ≠ 0 then (c.TFTP_STATUS_ERROR_BAD_IMAGE, dataReceived, s)
    else if s.receivedCrc16 ≠
        sam_ba_calc_crc16 b s.hw.mem c.APP_FLASH_MEMORY_START_PTR s.imageSize
      then (c.TFTP_STATUS_ERROR_CRC, dataReceived, s)
    else (tftpStatus, dataReceived, s)

/-- The block `if (waitingForPassword)`. -/
def credentialPhase {σ : Type} (c : NetCfg) (T : Tftp σ) (tftpStatus : Int)
    (s : Installer σ) : Int × Installer σ :=
  if s.waitingForPassword then
    match T.tftpGetReceivedBytes c.NETCFG_PASSWORD_SIZE s.svc with
    | (some receivedPassword, v) =>
      if receivedPassword.take c.NETCFG_PASSWORD_SIZE
          ≠ c.password.take c.NETCFG_PASSWORD_SIZE
        then (c.TFTP_STATUS_ERROR_PASSWORD, { s with svc := v })
      else (tftpStatus, { s with svc := v, waitingForPassword := false })
    | (none, v) => (c.TFTP_STATUS_ERROR_BAD_IMAGE, { s with svc := v })
  else (tftpStatus, s)

/-- The block `if (!TFTP_IS_ERROR_STATUS(tftpStatus) && waitingForCrc)`. -/
def crcPhase {σ : Type} (c : NetCfg) (T : Tftp σ) (tftpStatus : Int)
    (s : Installer σ) : Int × Installer σ :=
  if !c.TFTP_IS_ERROR_STATUS tftpStatus && s.waitingForCrc then
    match T.tftpGetReceivedBytes 1 s.svc with
    | (some hi, v) =>
      let s : Installer σ := { s with svc := v, receivedCrc16 := u16 ((hi.getD 0 0 % 256) <<< 8) }
      match T.tftpGetReceivedBytes 1 s.svc with
      | (some lo, v) =>
        (tftpStatus,
          { s with
            svc := v
            receivedCrc16 := s.receivedCrc16 ||| (lo.getD 0 0 % 256)
            waitingForCrc := false })
      | (none, v) => (c.TFTP_STATUS_ERROR_BAD_IMAGE, { s with svc := v })
    | (none, v) => (c.TFTP_STATUS_ERROR_BAD_IMAGE, { s with svc := v })
  else (tftpStatus, s)

/-- The block `if (!TFTP_IS_ERROR_STATUS(tftpStatus))` with the page loop, the capacity test
and the completion block. -/
def streamPhase {σ : Type} (b : Build) (g : Geometry) (c : NetCfg) (T : Tftp σ) (fuel : Nat)
    (pageBuffer : List Nat) (tftpStatus : Int) (s : Installer σ) :
    Option (Int × Bool × Installer σ) :=
  if !c.TFTP_IS_ERROR_STATUS tftpStatus then
    match drainLoop g T fuel pageBuffer false s with
    | none => none
    | some (pageBuffer, dataReceived, s) =>
      let tftpStatus :=
        if ptrDiff s.flashProgrammingPtr c.APP_FLASH_MEMORY_START_PTR ≥ g.MAX_FLASH
        then c.TFTP_STATUS_ERROR_FULL else tftpStatus
      if c.TFTP_IS_RX_COMPLETED tftpStatus then
        completion b g c T pageBuffer tftpStatus dataReceived s
      else some (tftpStatus, dataReceived, s)
  else some (tftpStatus, false, s)

/-- The first part of `sam_ba_monitor_loop_tftp`, from behind the no-traffic test up to the
call of `tftpSendResponse`: it computes `tftpStatus` and `dataReceived`.  `pageBuffer` is the
indeterminate initial content of the local array. -/
def tftpProcess {σ : Type} (b : Build) (g : Geometry) (c : NetCfg) (T : Tftp σ) (fuel : Nat)
    (pageBuffer : List Nat) (tftpStatus : Int) (s : Installer σ) :
    Option (Int × Bool × Installer σ) :=
  if c.TFTP_IS_ERROR_STATUS tftpStatus then some (tftpStatus, false, s)
  else
    let (rq, v) := T.tftpReceivedRequest s.svc
    let s : Installer σ := { s with svc := v }
    if rq = c.TFTP_RXRQ_WRQ then
      let (tftpStatus, s) := credentialPhase c T tftpStatus s
      let (tftpStatus, s) := crcPhase c T tftpStatus s
      streamPhase b g c T fuel pageBuffer tftpStatus s
    else some (tftpStatus, false, s)

/-- The second part of `sam_ba_monitor_loop_tftp`, from the call of `tftpSendResponse` on. -/
def tftpRespond {σ : Type} (g : Geometry) (c : NetCfg) (T : Tftp σ) (tftpStatus : Int)
    (dataReceived : Bool) (s : Installer σ) : Option (Outcome × Installer σ) :=
  let (again, v) := T.tftpSendResponse tftpStatus s.svc
  let s : Installer σ := { s with svc := v, hw := s.hw.log (Event.tftpSendResponse tftpStatus) }
  if again then some (Outcome.returned dataReceived, s)
  else
    let s : Installer σ := { s with svc := T.tftpEnd s.svc, hw := s.hw.log Event.tftpEnd }
    if c.TFTP_IS_ERROR_STATUS tftpStatus then
      let r : Option World :=
        if s.flashProgrammingPtr ≠ c.APP_FLASH_MEMORY_START_PTR
        then sam_ba_eraseflash g c.APP_FLASH_MEMORY_START_ADDR s.hw else some s.hw
      r.map fun w => (Outcome.reset, { s with hw := w.log Event.systemReset })
    else some (Outcome.started, { s with hw := s.hw.log Event.startApplication })

/-- Model of `sam_ba_monitor_loop_tftp()`. -/
def sam_ba_monitor_loop_tftp {σ : Type} (b : Build) (g : Geometry) (c : NetCfg) (T : Tftp σ)
    (fuel : Nat) (pageBuffer : List Nat) (s : Installer σ) : Option (Outcome × Installer σ) :=
  let (tftpStatus, v) := T.tftpRun s.svc
  let s : Installer σ := { s with svc := v }
  if tftpStatus = c.TFTP_STATUS_NO_TRAFFIC then some (Outcome.returned false, s)
  else
    match tftpProcess b g c T fuel pageBuffer tftpStatus s with
    | none => none
    | some (tftpStatus, dataReceived, s) => tftpRespond g c T tftpStatus dataReceived s

/-! ## The completion block in two parts, and the polls that end in a checksum mismatch -/

/-- The first part of the block `if (TFTP_IS_RX_COMPLETED(tftpStatus))`: the trailing words,
`if (lastWordsCount) { ... }`. -/
def completionWrite {σ : Type} (g : Geometry) (c : NetCfg) (T : Tftp σ)
    (pageBuffer : List Nat) (tftpStatus : Int) (dataReceived : Bool) (s : Installer σ) :
    Option (Int × Bool × Installer σ) :=
  let (count, v) := T.tftpReceivedBytesCount s.svc
  let lastWordsCount := u16 (count >>> 2)
  let s : Installer σ := { s with svc := v }
  if lastWordsCount ≠ 0 then
    let (got, v) := T.tftpGetReceivedWords lastWordsCount s.svc
    let pageBuffer := match got with
      | some ws => overlay ws pageBuffer
      | none => pageBuffer
    let imageSize := u32 (s.imageSize + (lastWordsCount <<< 2))
    let idx := u16 (lastWordsCount <<< 2)
    if 65536 ≤ g.PAGE_SIZE then none
    else
      let pageBuffer := padLoop (g.PAGE_SIZE - idx) idx pageBuffer
      match sam_ba_writetoflash g (bufWords pageBuffer) s.flashProgrammingPtr
          g.PAGE_SIZE_IN_WORDS s.hw with
      | none => none
      | some w =>
        let fp := u32 (s.flashProgrammingPtr + 4 * g.PAGE_SIZE_IN_WORDS)
        let st := if ptrDiff fp c.APP_FLASH_MEMORY_START_PTR ≥ g.MAX_FLASH
          then c.TFTP_STATUS_ERROR_FULL else tftpStatus
        some (st, true,
          { s with svc := v, hw := w, flashProgrammingPtr := fp, imageSize := imageSize })
  else some (tftpStatus, dataReceived, s)

/-- The last part of that block: the test for left-over bytes and the comparison of the
expected checksum with the checksum of the programmed image. -/
def completionCheck {σ : Type} (b : Build) (c : NetCfg) (T : Tftp σ) :
    Int × Bool × Installer σ → Int × Bool × Installer σ :=
  fun (tftpStatus, dataReceived, s) =>
    let (left, v) := T.tftpReceivedBytesCount s.svc
    let s : Installer σ := { s with svc := v }
    if left ≠ 0 then (c.TFTP_STATUS_ERROR_BAD_IMAGE, dataReceived, s)
    else if s.receivedCrc16 ≠
        sam_ba_calc_crc16 b s.hw.mem c.APP_FLASH_MEMORY_START_PTR s.imageSize
      then (c.TFTP_STATUS_ERROR_CRC, dataReceived, s)
    else (tftpStatus, dataReceived, s)

/-- Whether the poll from state `s` is one in which a completed, capacity-compliant transfer
with at least one page written yields a checksum mismatch: there is traffic without an error
status, the request is a write, the credential and checksum phases end without an error status
and with the transfer reported complete, the page loop ends with the cursor within the
capacity, and behind the trailing words no byte is left, the cursor is off the start of the
application region, and the expected checksum differs from the checksum of the image. -/
def checksumMismatchPoll {σ : Type} (b : Build) (g : Geometry) (c : NetCfg) (T : Tftp σ)
    (fuel : Nat) (pageBuffer : List Nat) (s : Installer σ) : Bool :=
  let run := T.tftpRun s.svc
  let rq := T.tftpReceivedRequest run.2
  let p1 := credentialPhase c T run.1 { s with svc := rq.2 }
  let p2 := crcPhase c T p1.1 p1.2
  decide (run.1 ≠ c.TFTP_STATUS_NO_TRAFFIC) && !c.TFTP_IS_ERROR_STATUS run.1
    && decide (rq.1 = c.TFTP_RXRQ_WRQ)
    && !c.TFTP_IS_ERROR_STATUS p2.1 && c.TFTP_IS_RX_COMPLETED p2.1
    && match drainLoop g T fuel pageBuffer false p2.2 with
      | none => false
      | some (pb, dr, sE) =>
        decide (ptrDiff sE.flashProgrammingPtr c.APP_FLASH_MEMORY_START_PTR < g.MAX_FLASH)
          && match completionWrite g c T pb p2.1 dr sE with
            | none => false
            | some (_, _, sF) =>
              decide ((T.tftpReceivedBytesCount sF.svc).1 = 0)
                && decide (sF.flashProgrammingPtr ≠ c.APP_FLASH_MEMORY_START_PTR)
                && decide (sF.receivedCrc16 ≠
                    sam_ba_calc_crc16 b sF.hw.mem c.APP_FLASH_MEMORY_START_PTR sF.imageSize)

/-! ## Reference renderings used in the statements -/

/-- The ASCII code of an uppercase hexadecimal digit. -/
def hexDigit (d : Nat) : Nat := if d < 10 then 48 + d else 55 + d

/-- The `n` uppercase hexadecimal digits of `v`, most significant first. -/
def hexBE (n v : Nat) : List Nat :=
  (List.range n).map fun k => hexDigit (v / 16 ^ (n - 1 - k) % 16)

/-- The `k` little-endian bytes of `v`. -/
def leBytes (k v : Nat) : List Nat := (List.range k).map fun i => v / 256 ^ i % 256

/-- The text of a `k`-byte value in terminal mode: "0x", `2k` digits, line feed, carriage
return. -/
def hexText (k v : Nat) : List Nat := [48, 120] ++ hexBE (2 * k) v ++ [10, 13]

/-- The write command of width `k`: `W`, `H` or `O`. -/
def wrCmd (k : Nat) : Nat := if k = 4 then 87 else if k = 2 then 72 else 79

/-- The read command of width `k`: `w`, `h` or `o`. -/
def rdCmd (k : Nat) : Nat := if k = 4 then 119 else if k = 2 then 104 else 111

/-- The erase-row commands of a sweep of `n` rows that starts at `dst_addr`. -/
def eraseEvents (g : Geometry) (dst_addr n : Nat) : List Event :=
  (List.range n).map fun k => Event.eraseRow (dst_addr + k * (g.PAGE_SIZE * 4))

/-- Number of rows a sweep from `dst_addr` to the end of flash visits. -/
def rowsFrom (g : Geometry) (dst_addr : Nat) : Nat :=
  (g.MAX_FLASH - dst_addr + (g.PAGE_SIZE * 4 - 1)) / (g.PAGE_SIZE * 4)

/-- Memory after the rows at `dst_addr`, `dst_addr + row`, ... (`n` of them) were erased. -/
def eraseRowsMem (g : Geometry) : Nat → Nat → Mem → Mem
  | 0, _, m => m
  | n + 1, dst_addr, m =>
    eraseRowsMem g n (dst_addr + g.PAGE_SIZE * 4) (eraseRowMem g m dst_addr)

/-- Whether an action is part of a flash page write (PBC, page buffer store, WP). -/
def isFlashWrite : Event → Bool
  | Event.pageBufferClear => true
  | Event.storeWord _ _ => true
  | Event.writePage => true
  | _ => false

/-- Whether an action is an erase-row command or a device reset. -/
def isEraseOrReset : Event → Bool
  | Event.eraseRow _ => true
  | Event.systemReset => true
  | _ => false

/-! ## Sample configuration used to evaluate the model -/

/-- A sample build: version "v2.0", date "Jan  1 2020", time "12:00:00", a byte sum in place
of the CRC step. -/
def demoBuild : Build :=
  { RomBOOT_Version := [118, 50, 46, 48]
    DATE := [74, 97, 110, 32, 32, 49, 32, 50, 48, 50, 48]
    TIME := [49, 50, 58, 48, 48, 58, 48, 48]
    rodata := fun _ => 0
    serial_add_crc := fun x crc => x + crc }

/-- The geometry of a device with 4096 pages of 64 bytes (256 KiB). -/
def demoGeometry : Geometry := sam_ba_monitor_run_geometry 3 4096

/-- The interpreter state set up by `sam_ba_monitor_run`, with memory holding the byte
`a % 251` at every address `a`. -/
def demoMonitor : Monitor :=
  { command := 122
    current_number := 0
    ptr_data := 0
    b_terminal_mode := false
    b_sam_ba_interface_usart := false
    i := 0
    length := 0
    ptr := Ptr.data 0
    j := 0
    u32tmp := 0
    src_buff_addr := 0
    hw := { mem := fun a => a % 251, trace := [] }
    rx := [] }

/-- The geometry of a small sample device with 144 pages of 64 bytes (9 KiB), used where a
whole erase sweep is evaluated. -/
def smallGeometry : Geometry := sam_ba_monitor_run_geometry 3 144

/-- Sample values for the constants of `tftp.h`, `netcfg.h` and `utils.h`: status 0 is
no-traffic, 1 is transfer in progress, 2 is transfer completed, negative values are errors;
the credential is "secret!!"; the application region starts at `0x2000`. -/
def demoNet : NetCfg :=
  { TFTP_STATUS_NO_TRAFFIC := 0
    TFTP_STATUS_ERROR_PASSWORD := -1
    TFTP_STATUS_ERROR_BAD_IMAGE := -2
    TFTP_STATUS_ERROR_FULL := -3
    TFTP_STATUS_ERROR_CRC := -4
    TFTP_IS_ERROR_STATUS := fun st => decide (st < 0)
    TFTP_IS_RX_COMPLETED := fun st => decide (st = 2)
    TFTP_RXRQ_WRQ := 2
    NETCFG_PASSWORD_SIZE := 8
    password := [115, 101, 99, 114, 101, 116, 33, 33]
    APP_FLASH_MEMORY_START_PTR := 8192
    APP_FLASH_MEMORY_START_ADDR := 8192 }

/-- State of a sample transfer service: the status `tftpRun` reports, the request type, the
received bytes not yet handed out, and whether `tftpSendResponse` asks to be called again. -/
structure Transfer where
  status : Int
  request : Nat
  pending : List Nat
  again : Bool

/-- A sample transfer service: reads hand out the oldest pending bytes when enough of them
are pending and fail otherwise. -/
def demoTftp : Tftp Transfer :=
  { tftpRun := fun t => (t.status, t)
    tftpReceivedRequest := fun t => (t.request, t)
    tftpGetReceivedBytes := fun n t =>
      if n ≤ t.pending.length then
        (some (t.pending.take n), { t with pending := t.pending.drop n })
      else (none, t)
    tftpGetReceivedWords := fun n t =>
      if 4 * n ≤ t.pending.length then
        (some (t.pending.take (4 * n)), { t with pending := t.pending.drop (4 * n) })
      else (none, t)
    tftpReceivedBytesCount := fun t => (t.pending.length, t)
    tftpSendResponse := fun _ t => (t.again, t)
    tftpEnd := fun t => t }

/-- A sample completed transfer: eight image bytes pending, response reported sent. -/
def demoTransfer : Transfer :=
  { status := 2, request := 2, pending := [1, 2, 3, 4, 5, 6, 7, 8], again := false }

/-- A sample installer state in the streaming phase (credential and checksum already read),
with the write cursor `off` bytes into the application region. -/
def demoInstaller (off : Nat) (t : Transfer) : Installer Transfer :=
  { flashProgrammingPtr := 8192 + off
    waitingForPassword := false
    waitingForCrc := false
    receivedCrc16 := 0
    imageSize := off
    hw := { mem := fun _ => 255, trace := [] }
    svc := t }

/-- The indeterminate initial content of the local array `pageBuffer` in the evaluations. -/
def demoPageBuffer : List Nat := List.replicate 64 0

/-- The sample installer state of a completing poll: streaming phase, cursor at the start of
the application region, eight image bytes pending. -/
def demoCompleting : Installer Transfer := demoInstaller 0 demoTransfer

/-- A geometry outside the page-size table, whose capacity of 357913941 rows of 12 bytes ends
four bytes below 2^32: an address near the end plus one row does not fit 32 bits. -/
def wrapGeometry : Geometry :=
  { PAGE_SIZE := 3, PAGE_SIZE_IN_WORDS := 0, PAGES := 1431655764, MAX_FLASH := 4294967292 }

/-! ## In-order word copy, used to state what the page writer stores -/

/-- Memory after the word copies `dst[i] = src[i]`, `dst[i+1] = src[i+1]`, ... (`n` of them, in
this order), each source word read when its turn comes. -/
def storeMem (src : Mem → Nat → Nat) (dst_addr : Nat) : Nat → Nat → Mem → Mem
  | 0, _, m => m
  | n + 1, i, m => storeMem src dst_addr n (i + 1) (write32 m (u32 (dst_addr + 4 * i)) (src m i))

/-- The word stores of those `n` copies, in order. -/
def storeList (src : Mem → Nat → Nat) (dst_addr : Nat) : Nat → Nat → Mem → List Event
  | 0, _, _ => []
  | n + 1, i, m =>
    Event.storeWord (u32 (dst_addr + 4 * i)) (src m i)
      :: storeList src dst_addr n (i + 1) (write32 m (u32 (dst_addr + 4 * i)) (src m i))

/-- One round of the page writer around the word stores `r`. -/
def writeRound (r : List Event) : List Event := Event.pageBufferClear :: r ++ [Event.writePage]

/-! ## A sample combining step for the checksum -/

/-- A sample build whose combining step is order sensitive and returns 16-bit values, as the
`unsigned short` result of `serial_add_crc` does. -/
def crcBuild : Build :=
  { demoBuild with serial_add_crc := fun x crc => (31 * crc + x) % 65536 }

/-! ## Hexadecimal text: the number a digit string denotes, and the stores of the formatter -/

/-- The value of a hexadecimal digit character, in either case (0 for any other byte). -/
def hexDigitValue (c : Nat) : Nat :=
  if 48 ≤ c ∧ c ≤ 57 then c - 48
  else if 65 ≤ c ∧ c ≤ 70 then c - 55
  else if 97 ≤ c ∧ c ≤ 102 then c - 87
  else 0

/-- The number a string of hexadecimal digits denotes, most significant digit first. -/
def hexValue (cs : List Nat) : Nat := cs.foldl (fun acc c => 16 * acc + hexDigitValue c) 0

/-- Whether a byte is one of the characters `0`-`9`, `A`-`F`. -/
def isUpperHex (c : Nat) : Prop := (48 ≤ c ∧ c ≤ 57) ∨ (65 ≤ c ∧ c ≤ 70)

/-- The stores `*data_ascii = ...` of the digit loop of `sam_ba_putdata_term`, as pairs of
buffer index and byte, in program order. -/
def termLoopStores : Nat → Nat → Nat → List (Nat × Nat)
  | 0, _, _ => []
  | n + 1, int_value, pos =>
    (pos, u8 (termChar (int_value &&& 15))) :: termLoopStores n (int_value >>> 4) (pos - 1)

/-- All stores into `buf` made by `sam_ba_putdata_term` in terminal mode, in program order. -/
def termStores (data : List Nat) (length : Nat) : List (Nat × Nat) :=
  let int_value :=
    if length = 4 then le32 data
    else if length = 2 then le16 data
    else data.getD 0 0 % 256
  termLoopStores (length * 2) int_value (2 + (length * 2 - 1))
    ++ [(0, 48), (1, 120), (length * 2 + 2, 10), (length * 2 + 3, 13)]

/-! ## The interpreter on bytes other than the terminator -/

/-- Whether a byte is a hexadecimal digit character, in either case. -/
def isHexByte (c : Nat) : Prop := (48 ≤ c ∧ c ≤ 57) ∨ (65 ≤ c ∧ c ≤ 70) ∨ (97 ≤ c ∧ c ≤ 102)

instance (c : Nat) : Decidable (isHexByte c) := by unfold isHexByte; infer_instance

/-- Whether a byte becomes the pending command when the loop meets it: any byte that is not
skipped (`0xFF`), not the terminator, not a digit and not the comma. -/
def isCommandByte (c : Nat) : Prop :=
  c < 256 ∧ c ≠ 255 ∧ c ≠ 35 ∧ c ≠ 44 ∧ ¬ isHexByte c

instance (c : Nat) : Decidable (isCommandByte c) := by unfold isCommandByte; infer_instance

/-- One pass of the `for` loop of `sam_ba_monitor_loop` over a received byte `c` other than
`#`: the body (skip `0xFF`, else accumulate), then `i++, ptr++`. -/
def stepLoop (c : Nat) (s : Monitor) : Monitor :=
  let s1 := if c % 256 = 255 then s else accumulate (c % 256) s
  { s1 with i := u32 (s1.i + 1), ptr := s1.ptr.add 1 }

/-- The passes of the loop over the bytes `cs`, none of which is `#`. -/
def feedLoop (cs : List Nat) (s : Monitor) : Monitor := cs.foldl (fun s c => stepLoop c s) s

/-- The state in which `sam_ba_monitor_loop` enters its `for` loop on the received `data`. -/
def loopEntry (s : Monitor) (data : List Nat) : Monitor :=
  { s with length := data.length, ptr := Ptr.data 0, i := 0 }

/-- Reads in state `t` answer in text: for each width `k` and pointer `p` the read command of
width `k` sends the hex text of the `k`-byte value found at `p`, and keeps the mode. -/
def readsFormatted (b : Build) (g : Geometry) (data : List Nat) (t : Monitor) : Prop :=
  ∀ k p : Nat, k = 1 ∨ k = 2 ∨ k = 4 →
    ∃ (r : Monitor) (v : Nat),
      dispatch b g data { t with command := rdCmd k, ptr_data := p } = some r
      ∧ v < 256 ^ k ∧ leBytes k v = readBytes t.hw.mem p k
      ∧ r.hw.trace = t.hw.trace ++ [Event.putdata (hexText k v)]
      ∧ r.b_terminal_mode = t.b_terminal_mode

/-- Reads in state `t` answer raw: the read command of width `k` sends the `k` bytes found at
the pointer, and keeps the mode. -/
def readsRaw (b : Build) (g : Geometry) (data : List Nat) (t : Monitor) : Prop :=
  ∀ k p : Nat, k = 1 ∨ k = 2 ∨ k = 4 →
    ∃ r : Monitor,
      dispatch b g data { t with command := rdCmd k, ptr_data := p } = some r
      ∧ r.hw.trace = t.hw.trace ++ [Event.putdata (readBytes t.hw.mem p k)]
      ∧ r.b_terminal_mode = t.b_terminal_mode

/-! ## Choice of the transport: `sam_ba_monitor_init` -/

/-- The macros that `sam_ba_monitor_init` reads and this file does not define: the build
configuration and the identities of the interfaces. -/
structure InitCfg where
  SAM_BA_INTERFACE : Nat
  SAM_BA_UART_ONLY : Nat
  SAM_BA_USBCDC_ONLY : Nat
  SAM_BA_BOTH_INTERFACES : Nat
  SAM_BA_INTERFACE_USART : Nat
  SAM_BA_INTERFACE_USBCDC : Nat
  SAM_BA_NET_INTERFACE : Nat
  SAM_BA_NET_TFTP : Nat

/-- The two capability tables `uart_if` and `usbcdc_if`. -/
inductive MonitorIf where
  | uart_if
  | usbcdc_if
  deriving DecidableEq, Repr

/-- The globals `sam_ba_monitor_init` assigns; `ptr_monitor_if` is `none` while it holds the
null pointer of a zero-initialised global. -/
structure Binding where
  com_interface : Nat
  ptr_monitor_if : Option MonitorIf
  b_sam_ba_interface_usart : Bool
  deriving DecidableEq, Repr

/-- The initial values: `com_interface = 0xFF`, no table, `b_sam_ba_interface_usart = false`. -/
def Binding.startup : Binding :=
  { com_interface := 255, ptr_monitor_if := none, b_sam_ba_interface_usart := false }

/-- The condition of the first `#if` of `sam_ba_monitor_init`: the UART block is compiled. -/
def InitCfg.uartBlock (c : InitCfg) : Prop :=
  c.SAM_BA_INTERFACE = c.SAM_BA_UART_ONLY ∨ c.SAM_BA_INTERFACE = c.SAM_BA_BOTH_INTERFACES

/-- The condition of the second `#if`: the USB CDC block is compiled. -/
def InitCfg.usbBlock (c : InitCfg) : Prop :=
  c.SAM_BA_INTERFACE = c.SAM_BA_USBCDC_ONLY ∨ c.SAM_BA_INTERFACE = c.SAM_BA_BOTH_INTERFACES

/-- The condition of the third `#if`: the network block is compiled. -/
def InitCfg.netBlock (c : InitCfg) : Prop := c.SAM_BA_NET_INTERFACE = c.SAM_BA_NET_TFTP

instance (c : InitCfg) : Decidable c.uartBlock := by unfold InitCfg.uartBlock; infer_instance

instance (c : InitCfg) : Decidable c.usbBlock := by unfold InitCfg.usbBlock; infer_instance

instance (c : InitCfg) : Decidable c.netBlock := by unfold InitCfg.netBlock; infer_instance

/-- Model of `sam_ba_monitor_init(ci)`: the three guarded assignments, in order. -/
def sam_ba_monitor_init (c : InitCfg) (ci : Nat) (s : Binding) : Binding :=
  let s : Binding :=
    if c.uartBlock ∧ ci = c.SAM_BA_INTERFACE_USART then
      { com_interface := ci, ptr_monitor_if := some MonitorIf.uart_if,
        b_sam_ba_interface_usart := true }
    else s
  let s : Binding :=
    if c.usbBlock ∧ ci = c.SAM_BA_INTERFACE_USBCDC then
      { s with com_interface := ci, ptr_monitor_if := some MonitorIf.usbcdc_if }
    else s
  if c.netBlock ∧ ci = c.SAM_BA_NET_TFTP then { s with com_interface := ci } else s

/-- Whether some guard of `sam_ba_monitor_init` accepts the identity `ci`. -/
def InitCfg.recognises (c : InitCfg) (ci : Nat) : Prop :=
  (c.uartBlock ∧ ci = c.SAM_BA_INTERFACE_USART) ∨ (c.usbBlock ∧ ci = c.SAM_BA_INTERFACE_USBCDC)
    ∨ (c.netBlock ∧ ci = c.SAM_BA_NET_TFTP)

/-- A sample configuration with both serial interfaces and the network interface compiled in:
USB CDC has identity 0, the UART identity 1, the network loader identity 2. -/
def demoInit : InitCfg :=
  { SAM_BA_INTERFACE := 2, SAM_BA_UART_ONLY := 0, SAM_BA_USBCDC_ONLY := 1,
    SAM_BA_BOTH_INTERFACES := 2, SAM_BA_INTERFACE_USART := 1, SAM_BA_INTERFACE_USBCDC := 0,
    SAM_BA_NET_INTERFACE := 2, SAM_BA_NET_TFTP := 2 }

/-! ## Polls and the session they act on -/

/-- A state with the loop's own globals `i`, `length` and `ptr` set to the given values. -/
def setLocals (a l : Nat) (p : Ptr) (s : Monitor) : Monitor :=
  { s with i := a, length := l, ptr := p }

/-- The session a poll leaves behind: the state apart from `i`, `length` and `ptr`, which
`sam_ba_monitor_loop` assigns afresh when it is entered. -/
def sessionOf (s : Monitor) : Monitor := setLocals 0 0 (Ptr.data 0) s

/-- What the loop body does with a received byte `c`, the buffer put aside: skip `0xFF`, run
the terminator branch on `#`, accumulate any other byte. -/
def byteStep (b : Build) (g : Geometry) (c : Nat) (s : Monitor) : Option Monitor :=
  if c % 256 = 255 then some s
  else if c % 256 = 35 then terminator b g [] s
  else some (accumulate (c % 256) s)

/-- The byte-stream interpreter: `byteStep` over the bytes in order, whatever the polls they
arrive in. -/
def interp (b : Build) (g : Geometry) : List Nat → Monitor → Option Monitor
  | [], s => some s
  | c :: cs, s => (byteStep b g c s).bind (interp b g cs)

/-- Whether a byte is neither `S` nor `V`, the two commands whose branches assign the loop's
index and pointer. -/
def notSV (c : Nat) : Prop := c % 256 ≠ 83 ∧ c % 256 ≠ 86

instance (c : Nat) : Decidable (notSV c) := by unfold notSV; infer_instance

/-- Two polls in a row, the first receiving `a` and the second `c`. -/
def twoPolls (b : Build) (g : Geometry) (fuel : Nat) (a c : List Nat) (s : Monitor) :
    Option (Bool × Monitor) :=
  (sam_ba_monitor_loop b g fuel a s).bind fun r => sam_ba_monitor_loop b g fuel c r.2

/-- The reply of the sample build to `V#` in raw mode: "v", "v2.0", " ", "[Arduino:XYZ]", " ",
"Jan  1 2020", " ", "12:00:00", line feed, carriage return. -/
def demoVersionReply : List Nat :=
  [118, 118, 50, 46, 48, 32, 91, 65, 114, 100, 117, 105, 110, 111, 58, 88, 89, 90, 93, 32,
    74, 97, 110, 32, 32, 49, 32, 50, 48, 50, 48, 32, 49, 50, 58, 48, 48, 58, 48, 48, 10, 13]

/-! ## Properties -/

/-! ### Arithmetic and memory lemmas -/

theorem and15 (x : Nat) : x &&& 15 = x % 16 := by
  have := Nat.and_pow_two_sub_one_eq_mod x 4
  simpa using this

theorem shr4 (x : Nat) : x >>> 4 = x / 16 := by
  simp [Nat.shiftRight_eq_div_pow]

theorem read8_write8 (m : Mem) (p v : Nat) : read8 (write8 m p v) p = v % 256 := by
  simp [write8, read8]

theorem read16_write16 (m : Mem) (p v : Nat) : read16 (write16 m p v) p = v % 65536 := by
  simp [read16, write16, write8, read8]
  omega

theorem read32_write32 (m : Mem) (p v : Nat) :
    read32 (write32 m p v) p = v % 4294967296 := by
  simp [read32, write32, write8, read8]
  omega

theorem le32_bytes32 (x : Nat) : le32 (bytes32 x) = x % 4294967296 := by
  simp [le32, bytes32]; omega

theorem le16_bytes32 (x : Nat) : le16 (bytes32 x) = x % 65536 := by
  simp [le16, bytes32]; omega

theorem termChar_eq (x : Nat) : u8 (termChar (x % 16)) = hexDigit (x % 16) := by
  have h : x % 16 < 16 := Nat.mod_lt _ (by norm_num)
  generalize x % 16 = t at h
  interval_cases t <;> decide

theorem termBuf4 (x : Nat) :
    (termBuf (bytes32 x) 4).take 12 = hexText 4 (x % 4294967296) := by
  simp [termBuf, termLoop, le32_bytes32, and15, shr4, termChar_eq, hexText, hexBE,
    List.range_succ, Nat.div_div_eq_div_mul]

theorem termBuf2 (x : Nat) : (termBuf (bytes32 x) 2).take 8 = hexText 2 (x % 65536) := by
  simp [termBuf, termLoop, le16_bytes32, and15, shr4, termChar_eq, hexText, hexBE,
    List.range_succ, Nat.div_div_eq_div_mul]

theorem termBuf1 (d : List Nat) : (termBuf d 1).take 6 = hexText 1 (d.getD 0 0 % 256) := by
  simp [termBuf, termLoop, and15, shr4, termChar_eq, hexText, hexBE, List.range_succ,
    Nat.div_div_eq_div_mul]

/-! ### The erase sweep -/

theorem rowsFrom_done (g : Geometry) (dst : Nat) (hps : 0 < g.PAGE_SIZE)
    (h : g.MAX_FLASH ≤ dst) : rowsFrom g dst = 0 := by
  unfold rowsFrom
  have h0 : g.MAX_FLASH - dst = 0 := by omega
  rw [h0, Nat.zero_add]
  exact Nat.div_eq_of_lt (by omega)

theorem rowsFrom_step (g : Geometry) (dst : Nat) (hps : 0 < g.PAGE_SIZE)
    (h : dst < g.MAX_FLASH) : rowsFrom g dst = rowsFrom g (dst + g.PAGE_SIZE * 4) + 1 := by
  unfold rowsFrom
  generalize hR : g.PAGE_SIZE * 4 = R
  have hRpos : 0 < R := by omega
  by_cases hc : dst + R ≤ g.MAX_FLASH
  · have e : g.MAX_FLASH - dst + (R - 1) = (g.MAX_FLASH - (dst + R) + (R - 1)) + R := by omega
    rw [e, Nat.add_div_right _ hRpos]
  · have h0 : g.MAX_FLASH - (dst + R) = 0 := by omega
    rw [h0, Nat.zero_add, Nat.div_eq_of_lt (by omega : R - 1 < R)]
    have e : g.MAX_FLASH - dst + (R - 1) = (g.MAX_FLASH - dst - 1) + R := by omega
    rw [e, Nat.add_div_right _ hRpos, Nat.div_eq_of_lt (by omega)]

theorem eraseEvents_succ (g : Geometry) (dst n : Nat) :
    eraseEvents g dst (n + 1) = Event.eraseRow dst :: eraseEvents g (dst + g.PAGE_SIZE * 4) n := by
  unfold eraseEvents
  rw [List.range_succ_eq_map]
  simp only [List.map_cons, List.map_map, Nat.zero_mul, Nat.add_zero]
  congr 1
  apply List.map_congr_left
  intro k _
  simp only [Function.comp, Nat.succ_eq_add_one]
  congr 1
  ring

/-- With a positive page size and no wrap-around below the capacity, the erase loop ends as
soon as the fuel covers the rows left, having erased exactly the rows `dst`, `dst + row`, ... -/
theorem eraseLoop_eq (g : Geometry) (hps : 0 < g.PAGE_SIZE)
    (hmax : g.MAX_FLASH + g.PAGE_SIZE * 4 ≤ 4294967296) :
    ∀ (fuel dst : Nat) (w : World), rowsFrom g dst ≤ fuel →
      eraseLoop g fuel dst w = some
        { mem := eraseRowsMem g (rowsFrom g dst) dst w.mem
          trace := w.trace ++ eraseEvents g dst (rowsFrom g dst) } := by
  intro fuel
  induction fuel with
  | zero =>
    intro dst w hf
    have hz : rowsFrom g dst = 0 := by omega
    by_cases hd : dst < g.MAX_FLASH
    · rw [rowsFrom_step g dst hps hd] at hz
      omega
    · simp [eraseLoop, hd, hz, eraseRowsMem, eraseEvents]
  | succ fuel ih =>
    intro dst w hf
    by_cases hd : dst < g.MAX_FLASH
    · have hs := rowsFrom_step g dst hps hd
      have hnext : u32 (dst + u32 (g.PAGE_SIZE * 4)) = dst + g.PAGE_SIZE * 4 := by
        unfold u32
        rw [Nat.mod_eq_of_lt (by omega : g.PAGE_SIZE * 4 < 4294967296)]
        exact Nat.mod_eq_of_lt (by omega)
      rw [eraseLoop, if_pos hd, hnext, ih _ _ (by omega), hs, eraseEvents_succ]
      simp [eraseRowsMem]
    · have hz := rowsFrom_done g dst hps (by omega)
      simp [eraseLoop, hd, hz, eraseRowsMem, eraseEvents]

theorem rowsFrom_le (g : Geometry) (dst : Nat) (hps : 0 < g.PAGE_SIZE) :
    rowsFrom g dst ≤ g.MAX_FLASH := by
  unfold rowsFrom
  have hR : 0 < g.PAGE_SIZE * 4 := by omega
  generalize g.PAGE_SIZE * 4 = R at hR
  rcases Nat.eq_zero_or_pos (g.MAX_FLASH - dst) with h0 | h1
  · rw [h0, Nat.zero_add, Nat.div_eq_of_lt (by omega)]
    exact Nat.zero_le _
  · refine le_trans (Nat.div_le_of_le_mul ?_) (Nat.sub_le g.MAX_FLASH dst)
    have : 1 * (R - 1) ≤ (g.MAX_FLASH - dst) * (R - 1) := Nat.mul_le_mul_right _ h1
    have e : R * (g.MAX_FLASH - dst) = (g.MAX_FLASH - dst) * (R - 1) + (g.MAX_FLASH - dst) := by
      obtain ⟨r, rfl⟩ : ∃ r, R = r + 1 := ⟨R - 1, by omega⟩
      simp only [Nat.add_sub_cancel]
      ring
    omega

/-- Closed form of `sam_ba_eraseflash` on such a geometry: it returns, and its trace and memory
are those of `rowsFrom g dst` erase-row commands. -/
theorem sam_ba_eraseflash_eq (g : Geometry) (hps : 0 < g.PAGE_SIZE)
    (hmax : g.MAX_FLASH + g.PAGE_SIZE * 4 ≤ 4294967296) (dst : Nat) (w : World) :
    sam_ba_eraseflash g dst w = some
      { mem := eraseRowsMem g (rowsFrom g dst) dst w.mem
        trace := w.trace ++ eraseEvents g dst (rowsFrom g dst) } := by
  apply eraseLoop_eq g hps hmax
  have := rowsFrom_le g dst hps
  omega

/-! ### Traces of the page writer -/

theorem output_append (l1 l2 : List Event) : output (l1 ++ l2) = output l1 ++ output l2 := by
  induction l1 with
  | nil => simp [output]
  | cons e t ih => cases e <;> simp [output, ih]

theorem output_flashWrite (l : List Event) (h : ∀ e ∈ l, isFlashWrite e = true) :
    output l = [] := by
  induction l with
  | nil => rfl
  | cons e t ih =>
    have he := h e (List.mem_cons_self _ _)
    have ht := ih fun x hx => h x (List.mem_cons_of_mem _ hx)
    cases e <;> simp_all [output, isFlashWrite]

theorem output_eraseEvents (g : Geometry) (dst n : Nat) : output (eraseEvents g dst n) = [] := by
  induction n generalizing dst with
  | zero => simp [eraseEvents, output]
  | succ n ih => 
    unfold eraseEvents
    rw [List.range_succ, List.map_append, output_append]
    have := ih dst
    unfold eraseEvents at this
    simp [this, output]

theorem fillPage_trace (src : Mem → Nat → Nat) (dst : Nat) :
    ∀ (n i : Nat) (w : World), ∃ l, (fillPage src dst n i w).trace = w.trace ++ l ∧
      ∀ e ∈ l, isFlashWrite e = true := by
  intro n
  induction n with
  | zero => intro i w; exact ⟨[], by simp [fillPage], by simp⟩
  | succ n ih =>
    intro i w
    obtain ⟨l, hl, hall⟩ := ih (i + 1)
      { mem := write32 w.mem (u32 (dst + 4 * i)) (src w.mem i)
        trace := w.trace ++ [Event.storeWord (u32 (dst + 4 * i)) (src w.mem i)] }
    refine ⟨Event.storeWord (u32 (dst + 4 * i)) (src w.mem i) :: l, ?_, ?_⟩
    · rw [fillPage, hl]; simp
    · intro e he
      rcases List.mem_cons.mp he with rfl | h
      · rfl
      · exact hall e h

/-- Whatever the page writer appends to the trace is a PBC, a page buffer store or a WP. -/
theorem writeLoop_trace (g : Geometry) (src : Mem → Nat → Nat) :
    ∀ (fuel off dst size : Nat) (w w' : World),
      writeLoop g src fuel off dst size w = some w' →
      ∃ l, w'.trace = w.trace ++ l ∧ ∀ e ∈ l, isFlashWrite e = true := by
  intro fuel
  induction fuel with
  | zero =>
    intro off dst size w w' h
    by_cases hs : size = 0
    · simp [writeLoop, hs] at h
      subst h
      exact ⟨[], by simp, by simp⟩
    · simp [writeLoop, hs] at h
  | succ fuel ih =>
    intro off dst size w w' h
    by_cases hs : size = 0
    · simp [writeLoop, hs] at h
      subst h
      exact ⟨[], by simp, by simp⟩
    · rw [writeLoop, if_neg hs] at h
      obtain ⟨l2, hl2, hall2⟩ := ih _ _ _ _ _ h
      obtain ⟨l1, hl1, hall1⟩ := fillPage_trace (fun m k => src m (off + k)) dst
        (min (g.PAGE_SIZE / 4) size) 0 (w.log Event.pageBufferClear)
      refine ⟨Event.pageBufferClear :: (l1 ++ Event.writePage :: l2), ?_, ?_⟩
      · rw [hl2]
        simp only [World.log] at hl1 ⊢
        rw [hl1]
        simp
      · intro e he
        simp only [List.mem_cons, List.mem_append] at he
        rcases he with rfl | h1 | rfl | h2
        · rfl
        · exact hall1 e h1
        · rfl
        · exact hall2 e h2

/-- With at least one word per page the page loop returns within `size` rounds. -/
theorem writeLoop_terminates (g : Geometry) (src : Mem → Nat → Nat) (hps : 0 < g.PAGE_SIZE / 4) :
    ∀ (fuel off dst size : Nat) (w : World), size ≤ fuel →
      ∃ w', writeLoop g src fuel off dst size w = some w' := by
  intro fuel
  induction fuel with
  | zero =>
    intro off dst size w h
    have hs : size = 0 := by omega
    exact ⟨w, by simp [writeLoop, hs]⟩
  | succ fuel ih =>
    intro off dst size w h
    by_cases hs : size = 0
    · exact ⟨w, by simp [writeLoop, hs]⟩
    · rw [writeLoop, if_neg hs]
      apply ih
      have : 0 < min (g.PAGE_SIZE / 4) size := by
        rw [Nat.lt_min]; exact ⟨hps, by omega⟩
      omega

theorem sam_ba_writetoflash_trace (g : Geometry) (src : Mem → Nat → Nat) (dst size : Nat)
    (w w' : World) (h : sam_ba_writetoflash g src dst size w = some w') :
    ∃ l, w'.trace = w.trace ++ l ∧ ∀ e ∈ l, isFlashWrite e = true :=
  writeLoop_trace g src _ _ _ _ _ _ h

theorem sam_ba_writetoflash_terminates (g : Geometry) (src : Mem → Nat → Nat)
    (hps : 0 < g.PAGE_SIZE / 4) (dst size : Nat) (w : World) :
    ∃ w', sam_ba_writetoflash g src dst size w = some w' :=
  writeLoop_terminates g src hps _ _ _ _ _ (le_refl _)

/-! ### Write and read back -/

/-- C1: for each width `k` in {1, 2, 4}, any pointer `p` and any operand `v`, dispatching the
write command (`O`/`H`/`W`) with `(p, v)` succeeds and keeps the pointer, and dispatching the
read command of the same width (`o`/`h`/`w`) at that pointer then emits the written value
`v mod 2^(8k)`: in raw mode as its `k` little-endian bytes, in terminal mode as its hex text
(framed by the line break before the dispatch and the prompt after it). -/
theorem write_read_roundtrip (b : Build) (g : Geometry) (data : List Nat) (s : Monitor)
    (k p v n : Nat) (hk : k = 1 ∨ k = 2 ∨ k = 4) :
    ∃ s1 s2 : Monitor,
      terminator b g data { s with command := wrCmd k, ptr_data := p, current_number := v }
        = some s1 ∧
      s1.ptr_data = p ∧ s1.b_terminal_mode = s.b_terminal_mode ∧
      terminator b g data { s1 with command := rdCmd k, current_number := n } = some s2 ∧
      (s.b_terminal_mode = false →
        s2.hw.trace = s1.hw.trace ++ [Event.putdata (leBytes k (v % 256 ^ k))]) ∧
      (s.b_terminal_mode = true →
        s2.hw.trace = s1.hw.trace ++
          [Event.putdata lineBreak, Event.putdata (hexText k (v % 256 ^ k)),
            Event.putdata [62]]) := by
  rcases hk with rfl | rfl | rfl <;> cases h : s.b_terminal_mode <;>
    simp [terminator, dispatch, wrCmd, rdCmd, h, sam_ba_putdata, sam_ba_putdata_term, World.log,
      readBytes, read8_write8, read16_write16, read32_write32, termBuf1, termBuf2, termBuf4,
      lineBreak] <;>
    simp [leBytes, List.range_succ, bytes32, read8_write8]

/-- C1, evaluated: the theorem at width 4, pointer `0x1000`, operand `0x2A`; and the streams
"W1000,2A#" then "w1000#" run through `sam_ba_monitor_loop` store `2A 00 00 00` at `0x1000`
and emit those four bytes. -/
theorem write_read_roundtrip_witness :
    (∃ s1 s2 : Monitor,
      terminator demoBuild demoGeometry []
        { demoMonitor with command := wrCmd 4, ptr_data := 4096, current_number := 42 }
        = some s1 ∧
      s1.ptr_data = 4096 ∧ s1.b_terminal_mode = demoMonitor.b_terminal_mode ∧
      terminator demoBuild demoGeometry [] { s1 with command := rdCmd 4, current_number := 4096 }
        = some s2 ∧
      (demoMonitor.b_terminal_mode = false →
        s2.hw.trace = s1.hw.trace ++ [Event.putdata (leBytes 4 (42 % 256 ^ 4))]) ∧
      (demoMonitor.b_terminal_mode = true →
        s2.hw.trace = s1.hw.trace ++
          [Event.putdata lineBreak, Event.putdata (hexText 4 (42 % 256 ^ 4)),
            Event.putdata [62]])) ∧
    ((sam_ba_monitor_loop demoBuild demoGeometry 16 [87, 49, 48, 48, 48, 44, 50, 65, 35]
        demoMonitor).bind fun r =>
      (sam_ba_monitor_loop demoBuild demoGeometry 16 [119, 49, 48, 48, 48, 35] r.2).map fun q =>
        (readBytes r.2.hw.mem 4096 4, q.2.hw.trace))
      = some ([42, 0, 0, 0], [Event.putdata [42, 0, 0, 0]]) :=
  ⟨write_read_roundtrip demoBuild demoGeometry [] demoMonitor 4 4096 42 4096
    (Or.inr (Or.inr rfl)), by decide⟩

/-! ### The `S` command -/

/-- What the `S` branch does when `k` bytes follow the terminator at index `i` of the receive
buffer and `k` is less than the operand `n`: the `k` buffered bytes are copied to the pointer,
the loop index is moved behind them, and the remaining `n - k` bytes are requested from the
streaming receive at the pointer itself. -/
theorem cmdS_memory (b : Build) (data : List Nat) (s : Monitor) (i p n : Nat)
    (hi : i < data.length) (hlen : data.length < 256) (hk : data.length - (i + 1) < n) :
    let k := data.length - (i + 1)
    let s' := cmdS b data
      { s with i := i, length := data.length, ptr := Ptr.data i, ptr_data := p,
               current_number := n }
    s'.hw.mem = writeBytes (writeBytes s.hw.mem p ((data.drop (i + 1)).map (· % 256))) p
        (s.rx.take (n - k))
    ∧ s'.hw.trace = s.hw.trace ++ [Event.getdata_xmd p (n - k)]
    ∧ s'.i = data.length - 1 := by
  intro k s'
  have h1 : u32 (i + 1) = i + 1 := by unfold u32; omega
  have h2 : sub32 data.length (i + 1) = data.length - (i + 1) := by unfold sub32 u32; omega
  have h3 : u8 (data.length - (i + 1)) = data.length - (i + 1) := by unfold u8; omega
  have h4 : u32 (i + 1 + (data.length - (i + 1))) = data.length := by unfold u32; omega
  have h5 : sub32 data.length 1 = data.length - 1 := by unfold sub32 u32; omega
  simp only [s', cmdS, hi, h1, h2, h3, h4, h5, hk, gt_iff_lt, if_true, k]
  refine ⟨?_, trivial, trivial⟩
  have e : List.map (fun k => deref b data (((Ptr.data i).add 1).add k))
      (List.range (data.length - (i + 1)))
        = List.map (fun x => x % 256) (List.drop (i + 1) data) := by
    apply List.ext_getElem
    · simp
    · intro j hj1 hj2
      simp only [List.length_map, List.length_range] at hj1
      simp only [List.getElem_map, List.getElem_range, List.getElem_drop, Ptr.add, deref]
      rw [List.getD_eq_getElem _ _ (by omega)]
  rw [e]

/-- C2, evaluated at "S20000000,4#" followed in the same buffer by the payload bytes `AA BB`,
with the streaming receive delivering `CC DD`: the two remaining bytes are requested at the
pointer `0x20000000` itself, so memory there ends up as `CC DD` followed by the two old bytes
(`ED EE`), not as `AA BB CC DD`. -/
theorem S_remainder_received_at_pointer :
    ((sam_ba_monitor_loop demoBuild demoGeometry 16
        [83, 50, 48, 48, 48, 48, 48, 48, 48, 44, 52, 35, 170, 187]
        { demoMonitor with rx := [204, 221] }).map fun r =>
      (readBytes r.2.hw.mem 536870912 4, r.2.hw.trace, r.2.rx))
      = some ([204, 221, 237, 238], [Event.getdata_xmd 536870912 2], []) := by
  decide

/-! ### The `Y`, `G` and `X` commands -/

/-- The terminator with pending command `X`: the erase sweep from `current_number`, then the
reply. -/
theorem terminator_X (b : Build) (g : Geometry) (data : List Nat) (s : Monitor)
    (hc : s.command = 88) (hps : 0 < g.PAGE_SIZE)
    (hmax : g.MAX_FLASH + g.PAGE_SIZE * 4 ≤ 4294967296) :
    ∃ r, terminator b g data s = some r ∧
      r.hw.trace = s.hw.trace ++ (if s.b_terminal_mode then [Event.putdata lineBreak] else [])
          ++ eraseEvents g s.current_number (rowsFrom g s.current_number)
          ++ [Event.putdata [88, 10, 13]]
          ++ (if s.b_terminal_mode then [Event.putdata [62]] else []) ∧
      r.hw.mem = eraseRowsMem g (rowsFrom g s.current_number) s.current_number s.hw.mem ∧
      r.ptr_data = s.ptr_data ∧ r.b_terminal_mode = s.b_terminal_mode := by
  cases h1 : s.b_terminal_mode <;>
    simp [terminator, dispatch, sam_ba_putdata, World.log, h1, hc,
      sam_ba_eraseflash_eq g hps hmax]

/-- The terminator with pending command `Y`: page writes only (none for operand 0, which
records the pointer as source address), then the reply. -/
theorem terminator_Y (b : Build) (g : Geometry) (data : List Nat) (s : Monitor)
    (hc : s.command = 89) (hps : 4 ≤ g.PAGE_SIZE) :
    ∃ l, (∀ e ∈ l, isFlashWrite e = true) ∧ (s.current_number = 0 → l = []) ∧
      ∃ r, terminator b g data s = some r ∧
        r.hw.trace = s.hw.trace
          ++ (if s.b_terminal_mode then [Event.putdata lineBreak] else [])
          ++ l ++ [Event.putdata [89, 10, 13]]
          ++ (if s.b_terminal_mode then [Event.putdata [62]] else []) ∧
        (s.current_number = 0 → r.hw.mem = s.hw.mem ∧ r.src_buff_addr = s.ptr_data) := by
  have hq : 0 < g.PAGE_SIZE / 4 := Nat.div_pos hps (by norm_num)
  by_cases hn : s.current_number = 0
  · refine ⟨[], by simp, fun _ => rfl, ?_⟩
    cases h1 : s.b_terminal_mode <;>
      simp [terminator, dispatch, cmdY, sam_ba_putdata, World.log, h1, hc, hn]
  · cases h1 : s.b_terminal_mode
    · obtain ⟨w', hw'⟩ := sam_ba_writetoflash_terminates g (memWords s.src_buff_addr) hq
        s.ptr_data (s.current_number / 4) s.hw
      obtain ⟨l, hl, hall⟩ := sam_ba_writetoflash_trace g _ _ _ _ _ hw'
      refine ⟨l, hall, fun h => absurd h hn, ?_⟩
      simp [terminator, dispatch, cmdY, sam_ba_putdata, World.log, h1, hc, hn, hw', hl]
    · obtain ⟨w', hw'⟩ := sam_ba_writetoflash_terminates g (memWords s.src_buff_addr) hq
        s.ptr_data (s.current_number / 4) (s.hw.log (Event.putdata lineBreak))
      obtain ⟨l, hl, hall⟩ := sam_ba_writetoflash_trace g _ _ _ _ _ hw'
      refine ⟨l, hall, fun h => absurd h hn, ?_⟩
      simp only [World.log] at hw' hl
      simp [terminator, dispatch, cmdY, sam_ba_putdata, World.log, h1, hc, hn, hw', hl]

/-- C3, evaluated at "Y20000000,0#" then "Y3000,6#": the second dispatch calls the page
writer with `6 / 4 = 1` word, so one word (four bytes) is stored at `0x3000` and the bytes at
`0x3004` and `0x3005` keep their old content (`F4 F5`) instead of the source bytes `EF F0`. -/
theorem Y_six_bytes_writes_one_word :
    ((sam_ba_monitor_loop demoBuild demoGeometry 32
        [89, 50, 48, 48, 48, 48, 48, 48, 48, 44, 48, 35, 89, 51, 48, 48, 48, 44, 54, 35]
        demoMonitor).map fun r =>
      (r.2.hw.trace, readBytes r.2.hw.mem 12288 6, readBytes demoMonitor.hw.mem 536870912 6))
      = some ([Event.putdata [89, 10, 13], Event.pageBufferClear,
               Event.storeWord 12288 4008570091, Event.writePage, Event.putdata [89, 10, 13]],
              [235, 236, 237, 238, 244, 245], [235, 236, 237, 238, 239, 240]) := by
  decide

/-- C4, refuted as stated: after "G2000,4000#" the committed pointer is `0x2000`, and the
handoff is performed at `0x4000`, the operand. -/
theorem G_handoff_not_at_pointer :
    ((sam_ba_monitor_loop demoBuild demoGeometry 16
        [71, 50, 48, 48, 48, 44, 52, 48, 48, 48, 35] demoMonitor).map fun r =>
      (r.2.ptr_data, r.2.hw.trace))
      = some (8192, [Event.call_applet 16384 1212630597 1280002633]) := by
  decide

/-- C4, amended: for every state, dispatching `G` performs the handoff of `call_applet` (stack
pointer from the word at the address, entry point from the word at address + 4) at
address = the accumulated operand `current_number`; the committed pointer is not used and
stays as it is.  On the byte transport the acknowledge `0x06` follows. -/
theorem G_handoff_at_operand (b : Build) (g : Geometry) (data : List Nat) (s : Monitor)
    (a : Nat) :
    (terminator b g data { s with command := 71, current_number := a }).map
        (fun r => (r.hw.trace, r.hw.mem, r.ptr_data))
      = some
        (s.hw.trace ++ (if s.b_terminal_mode then [Event.putdata lineBreak] else [])
          ++ [Event.call_applet a (read32 s.hw.mem a) (read32 s.hw.mem (u32 (a + 4)))]
          ++ (if s.b_sam_ba_interface_usart then [Event.put_c 6] else [])
          ++ (if s.b_terminal_mode then [Event.putdata [62]] else []),
         s.hw.mem, s.ptr_data) := by
  cases h1 : s.b_terminal_mode <;> cases h2 : s.b_sam_ba_interface_usart <;>
    simp [terminator, dispatch, call_applet, sam_ba_putdata, World.log, h1, h2]

/-- C5, refuted as stated: after "X2000,3FF00#" the committed pointer is `0x2000`, and the
only row erased is the one at `0x3FF00`, the operand; the bytes at `0x2000` are untouched. -/
theorem X_erase_not_from_pointer :
    ((sam_ba_monitor_loop demoBuild demoGeometry 16
        [88, 50, 48, 48, 48, 44, 51, 70, 70, 48, 48, 35] demoMonitor).map fun r =>
      (r.2.ptr_data, r.2.hw.trace, readBytes r.2.hw.mem 8192 4,
        readBytes demoMonitor.hw.mem 8192 4))
      = some (8192, [Event.eraseRow 261888, Event.putdata [88, 10, 13]],
          [160, 161, 162, 163], [160, 161, 162, 163]) := by
  decide

/-- C5, amended: for every state, dispatching `X` runs the erase sweep with start address =
the accumulated operand `a`: one erase-row command at `a`, `a + row`, ... up to the end of
flash and nothing else but the reply; the committed pointer is not used and stays as it is. -/
theorem X_erases_from_operand (b : Build) (g : Geometry) (data : List Nat) (s : Monitor)
    (a : Nat) (hps : 0 < g.PAGE_SIZE) (hmax : g.MAX_FLASH + g.PAGE_SIZE * 4 ≤ 4294967296) :
    ∃ r, terminator b g data { s with command := 88, current_number := a } = some r ∧
      r.hw.trace = s.hw.trace ++ (if s.b_terminal_mode then [Event.putdata lineBreak] else [])
          ++ eraseEvents g a (rowsFrom g a) ++ [Event.putdata [88, 10, 13]]
          ++ (if s.b_terminal_mode then [Event.putdata [62]] else []) ∧
      r.hw.mem = eraseRowsMem g (rowsFrom g a) a s.hw.mem ∧
      r.ptr_data = s.ptr_data :=
  let ⟨r, h1, h2, h3, h4, _⟩ :=
    terminator_X b g data { s with command := 88, current_number := a } rfl hps hmax
  ⟨r, h1, h2, h3, h4⟩

/-- C5, evaluated: the amended statement on the 256 KiB geometry with operand `0x3FF00`
(one row left to the end of flash). -/
theorem X_erases_from_operand_witness :
    (0 < demoGeometry.PAGE_SIZE ∧ demoGeometry.MAX_FLASH + demoGeometry.PAGE_SIZE * 4 ≤ 4294967296)
    ∧ rowsFrom demoGeometry 261888 = 1
    ∧ ∃ r, terminator demoBuild demoGeometry []
        { demoMonitor with command := 88, current_number := 261888 } = some r ∧
      r.hw.trace = demoMonitor.hw.trace
          ++ (if demoMonitor.b_terminal_mode then [Event.putdata lineBreak] else [])
          ++ eraseEvents demoGeometry 261888 (rowsFrom demoGeometry 261888)
          ++ [Event.putdata [88, 10, 13]]
          ++ (if demoMonitor.b_terminal_mode then [Event.putdata [62]] else []) ∧
      r.hw.mem = eraseRowsMem demoGeometry (rowsFrom demoGeometry 261888) 261888
        demoMonitor.hw.mem ∧
      r.ptr_data = demoMonitor.ptr_data :=
  ⟨by decide, by decide,
    X_erases_from_operand demoBuild demoGeometry [] demoMonitor 261888 (by decide) (by decide)⟩

/-! ### Reply framing -/

/-- The text of the 4-byte value `0x2A` in terminal mode: "0x0000002A", line feed, carriage
return. -/
theorem hexText_example : hexText 4 42 = [48, 120, 48, 48, 48, 48, 48, 48, 50, 65, 10, 13] := by
  decide

/-- C6, refuted as stated: the `X` dispatch with operand 0 (the state reached by "X0") erases
from address 0 and its whole reply is `X`, LF, CR (`58 0A 0D`), and so is the reply to the
stream "X3FF00#"; this is not `X`, CR, LF. -/
theorem X_reply_is_not_CR_LF :
    (∃ r, terminator demoBuild demoGeometry [88, 48, 35]
        { demoMonitor with command := 88, current_number := 0 } = some r ∧
      r.hw.trace.head? = some (Event.eraseRow 0) ∧ output r.hw.trace = [88, 10, 13]) ∧
    ((sam_ba_monitor_loop demoBuild demoGeometry 8 [88, 51, 70, 70, 48, 48, 35] demoMonitor).map
      fun r => output r.2.hw.trace) = some [88, 10, 13] ∧
    ([88, 10, 13] : List Nat) ≠ [88, 13, 10] := by
  refine ⟨?_, by decide, by decide⟩
  obtain ⟨r, h1, h2, _⟩ := terminator_X demoBuild demoGeometry [88, 48, 35]
    { demoMonitor with command := 88, current_number := 0 } rfl (by decide) (by decide)
  refine ⟨r, h1, ?_, ?_⟩
  · rw [h2]
    have : rowsFrom demoGeometry 0 = 1023 + 1 := by decide
    rw [this, eraseEvents_succ]
    rfl
  · rw [h2]
    simp only [output_append, output_eraseEvents]
    rfl

/-- C6, amended: every reply line break is the two bytes LF then CR (`0x0A 0x0D`, the string
"\n\r" of the source): in raw mode the complete reply to an `X` dispatch is exactly `X`, LF,
CR, the complete reply to a `Y` dispatch is exactly `Y`, LF, CR, and a terminal-mode read
reply is "0x", the digits, LF, CR. -/
theorem reply_line_break_LF_CR (b : Build) (g : Geometry) (data : List Nat) (s : Monitor)
    (hps : 4 ≤ g.PAGE_SIZE) (hmax : g.MAX_FLASH + g.PAGE_SIZE * 4 ≤ 4294967296) :
    lineBreak = [10, 13] ∧
    (∀ a, ∃ r l, terminator b g data
        { s with command := 88, current_number := a, b_terminal_mode := false } = some r ∧
      r.hw.trace = s.hw.trace ++ l ∧ output l = [88, 10, 13]) ∧
    (∀ n, ∃ r l, terminator b g data
        { s with command := 89, current_number := n, b_terminal_mode := false } = some r ∧
      r.hw.trace = s.hw.trace ++ l ∧ output l = [89, 10, 13]) ∧
    (∀ k, k = 1 ∨ k = 2 ∨ k = 4 → ∃ r v, terminator b g data
        { s with command := rdCmd k, b_terminal_mode := true } = some r ∧
      r.hw.trace = s.hw.trace ++
        [Event.putdata [10, 13], Event.putdata ([48, 120] ++ hexBE (2 * k) v ++ [10, 13]),
          Event.putdata [62]]) := by
  refine ⟨rfl, ?_, ?_, ?_⟩
  · intro a
    obtain ⟨r, h1, h2, _⟩ := terminator_X b g data
      { s with command := 88, current_number := a, b_terminal_mode := false } rfl (by omega) hmax
    refine ⟨r, eraseEvents g a (rowsFrom g a) ++ [Event.putdata [88, 10, 13]], h1, ?_, ?_⟩
    · rw [h2]
      simp only [Bool.false_eq_true, if_false, List.append_nil, List.append_assoc]
    · simp only [output_append, output_eraseEvents, List.nil_append]
      rfl
  · intro n
    obtain ⟨l, hall, _, r, h1, h2, _⟩ := terminator_Y b g data
      { s with command := 89, current_number := n, b_terminal_mode := false } rfl hps
    refine ⟨r, l ++ [Event.putdata [89, 10, 13]], h1, ?_, ?_⟩
    · rw [h2]
      simp only [Bool.false_eq_true, if_false, List.append_nil, List.append_assoc]
    · simp only [output_append, output_flashWrite l hall, List.nil_append]
      rfl
  · intro k hk
    rcases hk with rfl | rfl | rfl
    · refine ⟨_, read8 s.hw.mem s.ptr_data % 256, rfl, ?_⟩
      simp [dispatch, rdCmd, sam_ba_putdata, sam_ba_putdata_term, World.log, readBytes,
        termBuf1, lineBreak, hexText]
    · refine ⟨_, read16 s.hw.mem s.ptr_data % 65536, rfl, ?_⟩
      simp [dispatch, rdCmd, sam_ba_putdata, sam_ba_putdata_term, World.log,
        termBuf2, lineBreak, hexText]
    · refine ⟨_, read32 s.hw.mem s.ptr_data % 4294967296, rfl, ?_⟩
      simp [dispatch, rdCmd, sam_ba_putdata, sam_ba_putdata_term, World.log,
        termBuf4, lineBreak, hexText]

/-- C6, evaluated: the amended statement on the 256 KiB geometry and the sample state. -/
theorem reply_line_break_LF_CR_witness :
    (4 ≤ demoGeometry.PAGE_SIZE ∧ demoGeometry.MAX_FLASH + demoGeometry.PAGE_SIZE * 4 ≤ 4294967296)
    ∧ (lineBreak = [10, 13] ∧
    (∀ a, ∃ r l, terminator demoBuild demoGeometry []
        { demoMonitor with command := 88, current_number := a, b_terminal_mode := false }
          = some r ∧
      r.hw.trace = demoMonitor.hw.trace ++ l ∧ output l = [88, 10, 13]) ∧
    (∀ n, ∃ r l, terminator demoBuild demoGeometry []
        { demoMonitor with command := 89, current_number := n, b_terminal_mode := false }
          = some r ∧
      r.hw.trace = demoMonitor.hw.trace ++ l ∧ output l = [89, 10, 13]) ∧
    (∀ k, k = 1 ∨ k = 2 ∨ k = 4 → ∃ r v, terminator demoBuild demoGeometry []
        { demoMonitor with command := rdCmd k, b_terminal_mode := true } = some r ∧
      r.hw.trace = demoMonitor.hw.trace ++
        [Event.putdata [10, 13], Event.putdata ([48, 120] ++ hexBE (2 * k) v ++ [10, 13]),
          Event.putdata [62]])) :=
  ⟨by decide, reply_line_break_LF_CR demoBuild demoGeometry [] demoMonitor (by decide)
    (by decide)⟩

/-! ### Network image installer -/


theorem drainLoop_inv {σ : Type} (g : Geometry) (T : Tftp σ) :
    ∀ (fuel : Nat) (pb : List Nat) (dr : Bool) (s : Installer σ)
      (r : List Nat × Bool × Installer σ),
      drainLoop g T fuel pb dr s = some r →
      ∃ l, r.2.2.hw.trace = s.hw.trace ++ l ∧ (∀ e ∈ l, isFlashWrite e = true) ∧
        r.2.2.waitingForPassword = s.waitingForPassword ∧
        r.2.2.waitingForCrc = s.waitingForCrc := by
  intro fuel
  induction fuel with
  | zero =>
    intro pb dr s r h
    unfold drainLoop at h
    split at h
    · cases h; exact ⟨[], by simp, by simp, rfl, rfl⟩
    · cases h
  | succ fuel ih =>
    intro pb dr s r h
    unfold drainLoop at h
    split at h
    · cases h; exact ⟨[], by simp, by simp, rfl, rfl⟩
    · dsimp only at h
      split at h
      · cases h
      · rename_i w hw
        obtain ⟨l1, hl1, hall1⟩ := sam_ba_writetoflash_trace g _ _ _ _ _ hw
        obtain ⟨l2, hl2, hall2, hp, hc⟩ := ih _ _ _ _ h
        refine ⟨l1 ++ l2, ?_, ?_, hp, hc⟩
        · rw [hl2]; simp only [hl1, List.append_assoc]
        · intro e he
          rcases List.mem_append.mp he with h1 | h2
          · exact hall1 e h1
          · exact hall2 e h2

theorem completion_inv {σ : Type} (b : Build) (g : Geometry) (c : NetCfg) (T : Tftp σ)
    (pb : List Nat) (st : Int) (dr : Bool) (s : Installer σ)
    (r : Int × Bool × Installer σ)
    (h : completion b g c T pb st dr s = some r) :
    ∃ l, r.2.2.hw.trace = s.hw.trace ++ l ∧ (∀ e ∈ l, isFlashWrite e = true) ∧
      r.2.2.waitingForPassword = s.waitingForPassword ∧
      r.2.2.waitingForCrc = s.waitingForCrc := by
  unfold completion at h
  simp only [Option.map_eq_some'] at h
  obtain ⟨⟨st1, dr1, s1⟩, h1, h2⟩ := h
  have key : ∃ l, s1.hw.trace = s.hw.trace ++ l ∧ (∀ e ∈ l, isFlashWrite e = true) ∧
      s1.waitingForPassword = s.waitingForPassword ∧ s1.waitingForCrc = s.waitingForCrc := by
    split at h1
    · split at h1
      · cases h1
      · split at h1
        · cases h1
        · rename_i w hw
          obtain ⟨l1, hl1, hall1⟩ := sam_ba_writetoflash_trace g _ _ _ _ _ hw
          simp only [Option.some.injEq, Prod.mk.injEq] at h1
          obtain ⟨_, _, rfl⟩ := h1
          exact ⟨l1, hl1, hall1, rfl, rfl⟩
    · simp only [Option.some.injEq, Prod.mk.injEq] at h1
      obtain ⟨_, _, rfl⟩ := h1
      exact ⟨[], by simp, by simp, rfl, rfl⟩
  obtain ⟨l, hl, hall, hp, hc⟩ := key
  refine ⟨l, ?_, hall, ?_, ?_⟩ <;>
  · simp only at h2
    split at h2 <;> [skip; split at h2] <;> (subst h2; simp [hl, hp, hc])

theorem streamPhase_inv {σ : Type} (b : Build) (g : Geometry) (c : NetCfg) (T : Tftp σ) (fuel : Nat)
    (pb : List Nat) (st : Int) (s : Installer σ) (r : Int × Bool × Installer σ)
    (h : streamPhase b g c T fuel pb st s = some r) :
    ∃ l, r.2.2.hw.trace = s.hw.trace ++ l ∧ (∀ e ∈ l, isFlashWrite e = true) ∧
      r.2.2.waitingForPassword = s.waitingForPassword ∧
      r.2.2.waitingForCrc = s.waitingForCrc ∧
      (c.TFTP_IS_ERROR_STATUS st = true → l = [] ∧ r.1 = st) := by
  unfold streamPhase at h
  split at h
  · rename_i hne
    have hne' : c.TFTP_IS_ERROR_STATUS st = false := by simpa using hne
    split at h
    · cases h
    · rename_i pb1 dr1 s1 hd
      obtain ⟨l1, hl1, hall1, hp1, hc1⟩ := drainLoop_inv g T _ _ _ _ _ hd
      dsimp only at h
      generalize (if ptrDiff s1.flashProgrammingPtr c.APP_FLASH_MEMORY_START_PTR ≥ g.MAX_FLASH
        then c.TFTP_STATUS_ERROR_FULL else st) = st2 at h
      split at h
      · obtain ⟨l2, hl2, hall2, hp2, hc2⟩ := completion_inv b g c T _ _ _ _ _ h
        refine ⟨l1 ++ l2, ?_, ?_, by rw [hp2]; exact hp1, by rw [hc2]; exact hc1, ?_⟩
        · rw [hl2]; simp only at hl1; rw [hl1, List.append_assoc]
        · intro e he
          rcases List.mem_append.mp he with h1 | h2
          · exact hall1 e h1
          · exact hall2 e h2
        · intro he; rw [hne'] at he; cases he
      · cases h
        refine ⟨l1, hl1, hall1, hp1, hc1, ?_⟩
        intro he; rw [hne'] at he; cases he
  · rename_i he
    cases h
    exact ⟨[], by simp, by simp, rfl, rfl, fun _ => ⟨rfl, rfl⟩⟩

theorem credentialPhase_inv {σ : Type} (c : NetCfg) (T : Tftp σ) (st : Int) (s : Installer σ) :
    (credentialPhase c T st s).2.hw = s.hw ∧
    (credentialPhase c T st s).2.waitingForCrc = s.waitingForCrc ∧
    (s.waitingForPassword = false → (credentialPhase c T st s).2.waitingForPassword = false) ∧
    (c.TFTP_IS_ERROR_STATUS c.TFTP_STATUS_ERROR_PASSWORD = true →
      c.TFTP_IS_ERROR_STATUS c.TFTP_STATUS_ERROR_BAD_IMAGE = true →
      c.TFTP_IS_ERROR_STATUS (credentialPhase c T st s).1 = false →
      (credentialPhase c T st s).2.waitingForPassword = false ∧
      (s.waitingForPassword = true →
        ∃ pw, (T.tftpGetReceivedBytes c.NETCFG_PASSWORD_SIZE s.svc).1 = some pw ∧
          pw.take c.NETCFG_PASSWORD_SIZE = c.password.take c.NETCFG_PASSWORD_SIZE)) := by
  unfold credentialPhase
  cases hw : s.waitingForPassword
  · simp [hw]
  · simp only [if_true]
    rcases hr : T.tftpGetReceivedBytes c.NETCFG_PASSWORD_SIZE s.svc with ⟨_ | pw, v⟩
    · simp
    · by_cases hm : pw.take c.NETCFG_PASSWORD_SIZE = c.password.take c.NETCFG_PASSWORD_SIZE
      · simp [hm]
      · simp [hm]
        intro h1 _; exact h1

theorem crcPhase_inv {σ : Type} (c : NetCfg) (T : Tftp σ) (st : Int) (s : Installer σ) :
    (crcPhase c T st s).2.hw = s.hw ∧
    (crcPhase c T st s).2.waitingForPassword = s.waitingForPassword ∧
    (s.waitingForCrc = false → (crcPhase c T st s).2.waitingForCrc = false) ∧
    (c.TFTP_IS_ERROR_STATUS st = true → (crcPhase c T st s).1 = st) ∧
    (c.TFTP_IS_ERROR_STATUS c.TFTP_STATUS_ERROR_BAD_IMAGE = true →
      c.TFTP_IS_ERROR_STATUS (crcPhase c T st s).1 = false →
      (crcPhase c T st s).2.waitingForCrc = false ∧ c.TFTP_IS_ERROR_STATUS st = false) := by
  unfold crcPhase
  by_cases hcond : (!c.TFTP_IS_ERROR_STATUS st && s.waitingForCrc) = true
  · rw [if_pos hcond]
    simp only [Bool.and_eq_true, Bool.not_eq_true'] at hcond
    rcases hr : T.tftpGetReceivedBytes 1 s.svc with ⟨_ | hi, v⟩
    · simp [hcond.1]
      intro h2 h3; rw [h2] at h3; cases h3
    · dsimp only
      rcases hr2 : T.tftpGetReceivedBytes 1 v with ⟨_ | lo, v2⟩
      · simp [hcond.1]
        intro h2 h3; rw [h2] at h3; cases h3
      · simp [hcond.1]
  · rw [if_neg hcond]
    simp only [Bool.and_eq_true, Bool.not_eq_true', not_and, Bool.not_eq_true] at hcond
    refine ⟨rfl, rfl, fun h => h, fun _ => rfl, fun _ h => ?_⟩
    exact ⟨hcond h, h⟩

/-- The processing part of a poll appends page-write actions only, never sets a phase flag,
and writes only after both phases have succeeded. -/
theorem tftpProcess_inv {σ : Type} (b : Build) (g : Geometry) (c : NetCfg) (T : Tftp σ) (fuel : Nat)
    (pb : List Nat) (st : Int) (s : Installer σ) (r : Int × Bool × Installer σ)
    (h : tftpProcess b g c T fuel pb st s = some r) :
    ∃ l, r.2.2.hw.trace = s.hw.trace ++ l ∧ (∀ e ∈ l, isFlashWrite e = true) ∧
      (s.waitingForPassword = false → r.2.2.waitingForPassword = false) ∧
      (s.waitingForCrc = false → r.2.2.waitingForCrc = false) ∧
      (c.TFTP_IS_ERROR_STATUS c.TFTP_STATUS_ERROR_PASSWORD = true →
        c.TFTP_IS_ERROR_STATUS c.TFTP_STATUS_ERROR_BAD_IMAGE = true →
        l ≠ [] →
        r.2.2.waitingForPassword = false ∧ r.2.2.waitingForCrc = false ∧
        (s.waitingForPassword = true →
          ∃ pw, (T.tftpGetReceivedBytes c.NETCFG_PASSWORD_SIZE
              (T.tftpReceivedRequest s.svc).2).1 = some pw ∧
            pw.take c.NETCFG_PASSWORD_SIZE = c.password.take c.NETCFG_PASSWORD_SIZE)) := by
  unfold tftpProcess at h
  split at h
  · cases h
    exact ⟨[], by simp, by simp, fun h => h, fun h => h, fun _ _ hl => absurd rfl hl⟩
  · dsimp only at h
    split at h
    · rcases h1 : credentialPhase c T st { s with svc := (T.tftpReceivedRequest s.svc).2 }
        with ⟨st1, s1⟩
      rcases h2 : crcPhase c T st1 s1 with ⟨st2, s2⟩
      rw [h1] at h
      dsimp only at h
      rw [h2] at h
      dsimp only at h
      obtain ⟨l, hl, hall, hp, hc, herr⟩ := streamPhase_inv b g c T fuel pb st2 s2 r h
      have c1 := credentialPhase_inv c T st { s with svc := (T.tftpReceivedRequest s.svc).2 }
      have c2 := crcPhase_inv c T st1 s1
      rw [h1] at c1
      rw [h2] at c2
      dsimp only at c1 c2
      obtain ⟨c1hw, c1crc, c1pw, c1ok⟩ := c1
      obtain ⟨c2hw, c2pw, c2crc, c2err, c2ok⟩ := c2
      refine ⟨l, ?_, hall, ?_, ?_, ?_⟩
      · rw [hl, c2hw, c1hw]
      · intro hs; rw [hp, c2pw]; exact c1pw hs
      · intro hs; rw [hc]; apply c2crc; rw [c1crc]; exact hs
      · intro e1 e2 hne
        have hst2 : c.TFTP_IS_ERROR_STATUS st2 = false := by
          cases hh : c.TFTP_IS_ERROR_STATUS st2
          · rfl
          · exact absurd (herr hh).1 hne
        obtain ⟨k1, k2⟩ := c2ok e2 hst2
        obtain ⟨k3, k4⟩ := c1ok e1 e2 k2
        exact ⟨by rw [hp, c2pw]; exact k3, by rw [hc]; exact k1, k4⟩
    · cases h
      exact ⟨[], by simp, by simp, fun h => h, fun h => h, fun _ _ hl => absurd rfl hl⟩

theorem eraseLoop_trace (g : Geometry) :
    ∀ (fuel dst : Nat) (w w' : World), eraseLoop g fuel dst w = some w' →
      ∃ E, w'.trace = w.trace ++ E ∧ ∀ e ∈ E, isFlashWrite e = false := by
  intro fuel
  induction fuel with
  | zero =>
    intro dst w w' h
    unfold eraseLoop at h
    split at h
    · cases h
    · cases h; exact ⟨[], by simp, by simp⟩
  | succ fuel ih =>
    intro dst w w' h
    unfold eraseLoop at h
    split at h
    · obtain ⟨E, hE, hall⟩ := ih _ _ _ h
      refine ⟨Event.eraseRow dst :: E, ?_, ?_⟩
      · rw [hE]; simp
      · intro e he
        rcases List.mem_cons.mp he with rfl | h1
        · rfl
        · exact hall e h1
    · cases h; exact ⟨[], by simp, by simp⟩

/-- The responding part of a poll leaves the phase flags alone and appends the response
followed by actions that are not page writes. -/
theorem tftpRespond_inv {σ : Type} (g : Geometry) (c : NetCfg) (T : Tftp σ) (st : Int) (dr : Bool)
    (s : Installer σ) (r : Outcome × Installer σ) (h : tftpRespond g c T st dr s = some r) :
    r.2.waitingForPassword = s.waitingForPassword ∧ r.2.waitingForCrc = s.waitingForCrc ∧
    ∃ l, r.2.hw.trace = s.hw.trace ++ Event.tftpSendResponse st :: l ∧
      ∀ e ∈ l, isFlashWrite e = false := by
  unfold tftpRespond at h
  dsimp only at h
  split at h
  · cases h
    exact ⟨rfl, rfl, [], by simp [World.log], by simp⟩
  · split at h
    · simp only [Option.map_eq_some'] at h
      obtain ⟨w, hw, rfl⟩ := h
      split at hw
      · obtain ⟨E, hE, hall⟩ := eraseLoop_trace g _ _ _ _ hw
        refine ⟨rfl, rfl, Event.tftpEnd :: (E ++ [Event.systemReset]), ?_, ?_⟩
        · simp [World.log, hE]
        · intro e he
          simp only [List.mem_cons, List.mem_append, List.mem_singleton, List.not_mem_nil,
            or_false] at he
          rcases he with rfl | h1 | rfl
          · rfl
          · exact hall e h1
          · rfl
      · cases hw
        refine ⟨rfl, rfl, [Event.tftpEnd, Event.systemReset], by simp [World.log], ?_⟩
        intro e he
        simp only [List.mem_cons, List.mem_singleton, List.not_mem_nil, or_false] at he
        rcases he with rfl | rfl <;> rfl
    · cases h
      refine ⟨rfl, rfl, [Event.tftpEnd, Event.startApplication], by simp [World.log], ?_⟩
      intro e he
      simp only [List.mem_cons, List.mem_singleton, List.not_mem_nil, or_false] at he
      rcases he with rfl | rfl <;> rfl

/-- A poll that returns a result either saw no traffic and changed nothing, or ran the
processing part and then the responding part. -/
theorem poll_inv {σ : Type} (b : Build) (g : Geometry) (c : NetCfg) (T : Tftp σ) (fuel : Nat)
    (pb : List Nat) (s : Installer σ) (o : Outcome) (s' : Installer σ)
    (h : sam_ba_monitor_loop_tftp b g c T fuel pb s = some (o, s')) :
    (T.tftpRun s.svc).1 = c.TFTP_STATUS_NO_TRAFFIC ∧ s'.hw = s.hw ∧
      s'.waitingForPassword = s.waitingForPassword ∧ s'.waitingForCrc = s.waitingForCrc ∨
    (T.tftpRun s.svc).1 ≠ c.TFTP_STATUS_NO_TRAFFIC ∧
    ∃ st dr s1, tftpProcess b g c T fuel pb (T.tftpRun s.svc).1
        { s with svc := (T.tftpRun s.svc).2 } = some (st, dr, s1) ∧
      tftpRespond g c T st dr s1 = some (o, s') := by
  unfold sam_ba_monitor_loop_tftp at h
  dsimp only at h
  split at h
  · rename_i h0
    cases h
    exact Or.inl ⟨h0, rfl, rfl, rfl⟩
  · rename_i h0
    split at h
    · cases h
    · rename_i st dr s1 hp
      exact Or.inr ⟨h0, st, dr, s1, hp, h⟩

theorem flashWrite_not_eraseOrReset (e : Event) (h : isFlashWrite e = true) :
    isEraseOrReset e = false := by
  cases e <;> simp_all [isFlashWrite, isEraseOrReset]

theorem tftpRespond_again {σ : Type} (g : Geometry) (c : NetCfg) (T : Tftp σ) (st : Int)
    (dr : Bool) (s : Installer σ) (h : (T.tftpSendResponse st s.svc).1 = true) :
    tftpRespond g c T st dr s = some (Outcome.returned dr,
      { s with
        svc := (T.tftpSendResponse st s.svc).2
        hw := s.hw.log (Event.tftpSendResponse st) }) := by
  simp [tftpRespond, h]

/-- Every geometry that `sam_ba_monitor_run` sets up has a page size of at least 8 bytes and a
capacity far below `2^32`. -/
theorem run_geometry_ok (psz nvmp : Nat) :
    0 < (sam_ba_monitor_run_geometry psz nvmp).PAGE_SIZE ∧
    4 ≤ (sam_ba_monitor_run_geometry psz nvmp).PAGE_SIZE ∧
    (sam_ba_monitor_run_geometry psz nvmp).MAX_FLASH
      + (sam_ba_monitor_run_geometry psz nvmp).PAGE_SIZE * 4 ≤ 4294967296 := by
  have h8 : psz % 8 < 8 := Nat.mod_lt _ (by norm_num)
  have hn : nvmp % 65536 < 65536 := Nat.mod_lt _ (by norm_num)
  unfold sam_ba_monitor_run_geometry
  generalize psz % 8 = k at h8
  generalize nvmp % 65536 = n at hn
  interval_cases k <;> simp [pageSizes, u32] <;> omega

/-! ### The checksum comparison of the completing poll (C7) -/

theorem completion_parts {σ : Type} (b : Build) (g : Geometry) (c : NetCfg) (T : Tftp σ)
    (pb : List Nat) (st : Int) (dr : Bool) (s : Installer σ) :
    completion b g c T pb st dr s
      = (completionWrite g c T pb st dr s).map (completionCheck b c T) := rfl

/-- With no byte left and a checksum that differs, the comparison gives the checksum error,
whatever the status was. -/
theorem completionCheck_mismatch {σ : Type} (b : Build) (c : NetCfg) (T : Tftp σ) (st : Int)
    (dr : Bool) (s : Installer σ) (hleft : (T.tftpReceivedBytesCount s.svc).1 = 0)
    (hmis : s.receivedCrc16 ≠
      sam_ba_calc_crc16 b s.hw.mem c.APP_FLASH_MEMORY_START_PTR s.imageSize) :
    completionCheck b c T (st, dr, s)
      = (c.TFTP_STATUS_ERROR_CRC, dr, { s with svc := (T.tftpReceivedBytesCount s.svc).2 }) := by
  unfold completionCheck
  simp [hleft, hmis]

/-- With no byte left and a checksum that agrees, the comparison keeps the status. -/
theorem completionCheck_match {σ : Type} (b : Build) (c : NetCfg) (T : Tftp σ) (st : Int)
    (dr : Bool) (s : Installer σ) (hleft : (T.tftpReceivedBytesCount s.svc).1 = 0)
    (hok : s.receivedCrc16 =
      sam_ba_calc_crc16 b s.hw.mem c.APP_FLASH_MEMORY_START_PTR s.imageSize) :
    completionCheck b c T (st, dr, s)
      = (st, dr, { s with svc := (T.tftpReceivedBytesCount s.svc).2 }) := by
  unfold completionCheck
  simp [hleft, hok]

/-- Without trailing words the first part of the completion block changes nothing but the
state of the service. -/
theorem completionWrite_none {σ : Type} (g : Geometry) (c : NetCfg) (T : Tftp σ)
    (pb : List Nat) (st : Int) (dr : Bool) (s : Installer σ)
    (h0 : u16 ((T.tftpReceivedBytesCount s.svc).1 >>> 2) = 0) :
    completionWrite g c T pb st dr s
      = some (st, dr, { s with svc := (T.tftpReceivedBytesCount s.svc).2 }) := by
  unfold completionWrite
  simp [h0]

/-- The checksum phase stores the two bytes it reads, the first as the high byte. -/
theorem crcPhase_capture {σ : Type} (c : NetCfg) (T : Tftp σ) (st : Int) (s : Installer σ)
    (hi lo : List Nat) (v1 v2 : σ) (herr : c.TFTP_IS_ERROR_STATUS st = false)
    (hw : s.waitingForCrc = true) (h1 : T.tftpGetReceivedBytes 1 s.svc = (some hi, v1))
    (h2 : T.tftpGetReceivedBytes 1 v1 = (some lo, v2)) :
    crcPhase c T st s = (st,
      { s with
        svc := v2
        receivedCrc16 := 256 * (hi.getD 0 0 % 256) + lo.getD 0 0 % 256
        waitingForCrc := false }) := by
  have e : u16 ((hi.getD 0 0 % 256) <<< 8) ||| (lo.getD 0 0 % 256)
      = 256 * (hi.getD 0 0 % 256) + lo.getD 0 0 % 256 := by
    have hlt : lo.getD 0 0 % 256 < 2 ^ 8 := Nat.mod_lt _ (by decide)
    have hs : (hi.getD 0 0 % 256) <<< 8 = 2 ^ 8 * (hi.getD 0 0 % 256) := by
      rw [Nat.shiftLeft_eq, Nat.mul_comm]
    have hu : u16 ((hi.getD 0 0 % 256) <<< 8) = 2 ^ 8 * (hi.getD 0 0 % 256) := by
      rw [hs]
      unfold u16
      omega
    rw [hu, ← Nat.mul_add_lt_is_or hlt]
  unfold crcPhase
  simp [herr, hw, h1, h2]
  simpa using e

/-- In a poll that `checksumMismatchPoll` accepts, the processing part returns the checksum
error status, with the cursor off the start of the application region. -/
theorem tftpProcess_mismatch {σ : Type} (b : Build) (g : Geometry) (c : NetCfg) (T : Tftp σ)
    (fuel : Nat) (pb : List Nat) (s : Installer σ)
    (h : checksumMismatchPoll b g c T fuel pb s = true) :
    (T.tftpRun s.svc).1 ≠ c.TFTP_STATUS_NO_TRAFFIC ∧
    ∃ (dr : Bool) (s1 : Installer σ),
      tftpProcess b g c T fuel pb (T.tftpRun s.svc).1 { s with svc := (T.tftpRun s.svc).2 }
        = some (c.TFTP_STATUS_ERROR_CRC, dr, s1) ∧
      s1.flashProgrammingPtr ≠ c.APP_FLASH_MEMORY_START_PTR ∧
      s1.receivedCrc16 ≠
        sam_ba_calc_crc16 b s1.hw.mem c.APP_FLASH_MEMORY_START_PTR s1.imageSize := by
  unfold checksumMismatchPoll at h
  dsimp only at h
  simp only [Bool.and_eq_true, decide_eq_true_eq, Bool.not_eq_true'] at h
  obtain ⟨⟨⟨⟨⟨hrun, herr0⟩, hrq⟩, herr2⟩, hdone⟩, hrest⟩ := h
  cases hd : drainLoop g T fuel pb false
      (crcPhase c T
        (credentialPhase c T (T.tftpRun s.svc).1
          { s with svc := (T.tftpReceivedRequest (T.tftpRun s.svc).2).2 }).1
        (credentialPhase c T (T.tftpRun s.svc).1
          { s with svc := (T.tftpReceivedRequest (T.tftpRun s.svc).2).2 }).2).2 with
  | none => rw [hd] at hrest; exact absurd hrest (by simp)
  | some r =>
    obtain ⟨pb2, dr, sE⟩ := r
    rw [hd] at hrest
    simp only [Bool.and_eq_true, decide_eq_true_eq] at hrest
    obtain ⟨hcap, hrest⟩ := hrest
    cases hw : completionWrite g c T pb2
        (crcPhase c T
          (credentialPhase c T (T.tftpRun s.svc).1
            { s with svc := (T.tftpReceivedRequest (T.tftpRun s.svc).2).2 }).1
          (credentialPhase c T (T.tftpRun s.svc).1
            { s with svc := (T.tftpReceivedRequest (T.tftpRun s.svc).2).2 }).2).1 dr sE with
    | none => rw [hw] at hrest; exact absurd hrest (by simp)
    | some q =>
      obtain ⟨stF, drF, sF⟩ := q
      rw [hw] at hrest
      simp only [Bool.and_eq_true, decide_eq_true_eq] at hrest
      obtain ⟨⟨hleft, hfp⟩, hmis⟩ := hrest
      refine ⟨hrun, drF, { sF with svc := (T.tftpReceivedBytesCount sF.svc).2 }, ?_, hfp, hmis⟩
      unfold tftpProcess
      simp only [herr0, Bool.false_eq_true, if_false, hrq, if_true]
      unfold streamPhase
      simp only [herr2, Bool.not_false, if_true, hd, if_neg (Nat.not_le.mpr hcap), hdone,
        completion_parts, hw, Option.map_some',
        completionCheck_mismatch b c T stF drF sF hleft hmis]

theorem drainLoop_crc {σ : Type} (g : Geometry) (T : Tftp σ) :
    ∀ (fuel : Nat) (pb : List Nat) (dr : Bool) (s : Installer σ)
      (r : List Nat × Bool × Installer σ),
      drainLoop g T fuel pb dr s = some r → r.2.2.receivedCrc16 = s.receivedCrc16 := by
  intro fuel
  induction fuel with
  | zero =>
    intro pb dr s r h
    unfold drainLoop at h
    split at h
    · cases h; rfl
    · cases h
  | succ fuel ih =>
    intro pb dr s r h
    unfold drainLoop at h
    split at h
    · cases h; rfl
    · dsimp only at h
      split at h
      · cases h
      · have e := ih _ _ _ _ h
        exact e

theorem completionCheck_crc {σ : Type} (b : Build) (c : NetCfg) (T : Tftp σ)
    (q : Int × Bool × Installer σ) :
    (completionCheck b c T q).2.2.receivedCrc16 = q.2.2.receivedCrc16 := by
  obtain ⟨st, dr, s⟩ := q
  unfold completionCheck
  dsimp only
  split_ifs <;> rfl

theorem completionWrite_crc {σ : Type} (g : Geometry) (c : NetCfg) (T : Tftp σ)
    (pb : List Nat) (st : Int) (dr : Bool) (s : Installer σ) (r : Int × Bool × Installer σ)
    (h : completionWrite g c T pb st dr s = some r) :
    r.2.2.receivedCrc16 = s.receivedCrc16 := by
  unfold completionWrite at h
  dsimp only at h
  split at h
  · split at h
    · cases h
    · split at h
      · cases h
      · cases h; rfl
  · cases h; rfl

theorem streamPhase_crc {σ : Type} (b : Build) (g : Geometry) (c : NetCfg) (T : Tftp σ)
    (fuel : Nat) (pb : List Nat) (st : Int) (s : Installer σ) (r : Int × Bool × Installer σ)
    (h : streamPhase b g c T fuel pb st s = some r) :
    r.2.2.receivedCrc16 = s.receivedCrc16 := by
  unfold streamPhase at h
  split at h
  · split at h
    · cases h
    · rename_i pb1 dr1 s1 hd
      have e1 := drainLoop_crc g T _ _ _ _ _ hd
      dsimp only at h e1
      generalize (if ptrDiff s1.flashProgrammingPtr c.APP_FLASH_MEMORY_START_PTR ≥ g.MAX_FLASH
        then c.TFTP_STATUS_ERROR_FULL else st) = st2 at h
      split at h
      · rw [completion_parts] at h
        simp only [Option.map_eq_some'] at h
        obtain ⟨q, hq, rfl⟩ := h
        rw [completionCheck_crc, completionWrite_crc g c T _ _ _ _ _ hq, e1]
      · cases h; exact e1
  · cases h; rfl

theorem credentialPhase_crc {σ : Type} (c : NetCfg) (T : Tftp σ) (st : Int) (s : Installer σ) :
    (credentialPhase c T st s).2.receivedCrc16 = s.receivedCrc16 := by
  unfold credentialPhase
  split
  · split
    · split <;> rfl
    · rfl
  · rfl

theorem crcPhase_idle {σ : Type} (c : NetCfg) (T : Tftp σ) (st : Int) (s : Installer σ)
    (h : s.waitingForCrc = false) : crcPhase c T st s = (st, s) := by
  simp [crcPhase, h]

/-- The expected checksum at the end of the processing part is the one the checksum block
leaves. -/
theorem tftpProcess_crc {σ : Type} (b : Build) (g : Geometry) (c : NetCfg) (T : Tftp σ)
    (fuel : Nat) (pb : List Nat) (st : Int) (s : Installer σ) (r : Int × Bool × Installer σ)
    (h : tftpProcess b g c T fuel pb st s = some r) :
    (c.TFTP_IS_ERROR_STATUS st = false → (T.tftpReceivedRequest s.svc).1 = c.TFTP_RXRQ_WRQ →
      r.2.2.receivedCrc16 =
        (crcPhase c T
          (credentialPhase c T st { s with svc := (T.tftpReceivedRequest s.svc).2 }).1
          (credentialPhase c T st { s with svc := (T.tftpReceivedRequest s.svc).2 }).2).2.receivedCrc16
      ∧ r.2.2.waitingForCrc =
        (crcPhase c T
          (credentialPhase c T st { s with svc := (T.tftpReceivedRequest s.svc).2 }).1
          (credentialPhase c T st { s with svc := (T.tftpReceivedRequest s.svc).2 }).2).2.waitingForCrc) ∧
    (s.waitingForCrc = false → r.2.2.receivedCrc16 = s.receivedCrc16) := by
  unfold tftpProcess at h
  split at h
  · rename_i he
    cases h
    exact ⟨fun h0 _ => absurd h0 (by rw [he]; simp), fun _ => rfl⟩
  · dsimp only at h
    split at h
    · have e := streamPhase_crc b g c T fuel pb _ _ r h
      have hi := streamPhase_inv b g c T fuel pb _ _ r h
      obtain ⟨_, _, _, _, hwc, _⟩ := hi
      refine ⟨fun _ _ => ⟨e, hwc⟩, fun hw => ?_⟩
      rw [e, crcPhase_idle c T _ _ (by rw [(credentialPhase_inv c T st _).2.1]; exact hw),
        credentialPhase_crc]
    · rename_i hrq
      cases h
      exact ⟨fun _ h1 => absurd h1 hrq, fun _ => rfl⟩

theorem tftpRespond_crc {σ : Type} (g : Geometry) (c : NetCfg) (T : Tftp σ) (st : Int)
    (dr : Bool) (s : Installer σ) (r : Outcome × Installer σ)
    (h : tftpRespond g c T st dr s = some r) : r.2.receivedCrc16 = s.receivedCrc16 := by
  unfold tftpRespond at h
  dsimp only at h
  split at h
  · cases h; rfl
  · split at h
    · simp only [Option.map_eq_some'] at h
      obtain ⟨w, _, rfl⟩ := h
      rfl
    · cases h; rfl

/-- C7: for every poll of `sam_ba_monitor_loop_tftp`.  Without traffic the poll returns and
touches nothing.  Otherwise, once the processing part has produced its status, having issued
nothing but page writes: when `tftpSendResponse` reports that the response is not yet sent, the
poll returns after that call with no erase and no reset; and when the status is the checksum
error, the response is reported sent and a page had been written (cursor off the start of the
application region), the poll sends the checksum-error response, ends the transfer, erases the
application region row by row from its start address to the end of flash, and resets the
device, in that order.  In every poll that returns a result, an erase-row command or a
reset among its actions implies that `tftpSendResponse` reported the response sent in that
poll and that its call precedes every erase and the reset.  In a poll in which a completed
transfer within the capacity, with at least one page written, yields a checksum mismatch
(`checksumMismatchPoll`: with or without trailing words, no byte is left and `receivedCrc16`
differs from `sam_ba_calc_crc16` of the programmed image), the processing part ends with the
checksum-error status after page writes only; then, with the response reported sent, the
actions of the poll are those page writes, the checksum-error response, `tftpEnd`, the
erase-row commands of the application region and the reset, in this order, and with the
response not yet sent the poll returns right after the response.  The expected checksum is
256 x first byte + second byte of the two bytes read by the poll that finds `waitingForCrc`
set, and a poll that finds it cleared leaves the expected checksum as it is. -/
theorem tftp_response_then_erase_then_reset {σ : Type} (b : Build) (g : Geometry) (c : NetCfg)
    (T : Tftp σ) (fuel : Nat) (pb : List Nat) (s : Installer σ)
    (hps : 0 < g.PAGE_SIZE) (hmax : g.MAX_FLASH + g.PAGE_SIZE * 4 ≤ 4294967296) :
    ((T.tftpRun s.svc).1 = c.TFTP_STATUS_NO_TRAFFIC →
      ∃ s', sam_ba_monitor_loop_tftp b g c T fuel pb s = some (Outcome.returned false, s') ∧
        s'.hw = s.hw) ∧
    (∀ (st : Int) (dr : Bool) (s1 : Installer σ),
      (T.tftpRun s.svc).1 ≠ c.TFTP_STATUS_NO_TRAFFIC →
      tftpProcess b g c T fuel pb (T.tftpRun s.svc).1 { s with svc := (T.tftpRun s.svc).2 }
        = some (st, dr, s1) →
      (∃ W, s1.hw.trace = s.hw.trace ++ W ∧ ∀ e ∈ W, isFlashWrite e = true) ∧
      ((T.tftpSendResponse st s1.svc).1 = true →
        ∃ s', sam_ba_monitor_loop_tftp b g c T fuel pb s = some (Outcome.returned dr, s') ∧
          s'.hw.trace = s1.hw.trace ++ [Event.tftpSendResponse st] ∧ s'.hw.mem = s1.hw.mem) ∧
      ((T.tftpSendResponse st s1.svc).1 = false →
        st = c.TFTP_STATUS_ERROR_CRC →
        c.TFTP_IS_ERROR_STATUS c.TFTP_STATUS_ERROR_CRC = true →
        s1.flashProgrammingPtr ≠ c.APP_FLASH_MEMORY_START_PTR →
        ∃ s', sam_ba_monitor_loop_tftp b g c T fuel pb s = some (Outcome.reset, s') ∧
          s'.hw.trace = s1.hw.trace
            ++ [Event.tftpSendResponse c.TFTP_STATUS_ERROR_CRC, Event.tftpEnd]
            ++ eraseEvents g c.APP_FLASH_MEMORY_START_ADDR
                (rowsFrom g c.APP_FLASH_MEMORY_START_ADDR)
            ++ [Event.systemReset] ∧
          s'.hw.mem = eraseRowsMem g (rowsFrom g c.APP_FLASH_MEMORY_START_ADDR)
            c.APP_FLASH_MEMORY_START_ADDR s1.hw.mem)) ∧
    (∀ (o : Outcome) (s' : Installer σ) (l : List Event),
      sam_ba_monitor_loop_tftp b g c T fuel pb s = some (o, s') →
      s'.hw.trace = s.hw.trace ++ l →
      (∃ e ∈ l, isEraseOrReset e = true) →
      ∃ (st : Int) (dr : Bool) (s1 : Installer σ),
        tftpProcess b g c T fuel pb (T.tftpRun s.svc).1 { s with svc := (T.tftpRun s.svc).2 }
          = some (st, dr, s1) ∧
        (T.tftpSendResponse st s1.svc).1 = false ∧
        ∃ W R, l = W ++ Event.tftpSendResponse st :: R ∧
          ∀ e ∈ W, isEraseOrReset e = false) ∧
    (checksumMismatchPoll b g c T fuel pb s = true →
      c.TFTP_IS_ERROR_STATUS c.TFTP_STATUS_ERROR_CRC = true →
      ∃ (dr : Bool) (s1 : Installer σ) (W : List Event),
        tftpProcess b g c T fuel pb (T.tftpRun s.svc).1 { s with svc := (T.tftpRun s.svc).2 }
          = some (c.TFTP_STATUS_ERROR_CRC, dr, s1) ∧
        s1.receivedCrc16 ≠
          sam_ba_calc_crc16 b s1.hw.mem c.APP_FLASH_MEMORY_START_PTR s1.imageSize ∧
        (s.waitingForCrc = false → s1.receivedCrc16 = s.receivedCrc16) ∧
        s1.hw.trace = s.hw.trace ++ W ∧ (∀ e ∈ W, isFlashWrite e = true) ∧
        ((T.tftpSendResponse c.TFTP_STATUS_ERROR_CRC s1.svc).1 = false →
          ∃ s', sam_ba_monitor_loop_tftp b g c T fuel pb s = some (Outcome.reset, s') ∧
            s'.hw.trace = s.hw.trace ++ W
              ++ [Event.tftpSendResponse c.TFTP_STATUS_ERROR_CRC, Event.tftpEnd]
              ++ eraseEvents g c.APP_FLASH_MEMORY_START_ADDR
                  (rowsFrom g c.APP_FLASH_MEMORY_START_ADDR)
              ++ [Event.systemReset] ∧
            s'.hw.mem = eraseRowsMem g (rowsFrom g c.APP_FLASH_MEMORY_START_ADDR)
              c.APP_FLASH_MEMORY_START_ADDR s1.hw.mem) ∧
        ((T.tftpSendResponse c.TFTP_STATUS_ERROR_CRC s1.svc).1 = true →
          ∃ s', sam_ba_monitor_loop_tftp b g c T fuel pb s = some (Outcome.returned dr, s') ∧
            s'.hw.trace = s.hw.trace ++ W
              ++ [Event.tftpSendResponse c.TFTP_STATUS_ERROR_CRC] ∧
            s'.hw.mem = s1.hw.mem)) ∧
    (∀ (hi lo : List Nat) (v1 v2 : σ) (o : Outcome) (s' : Installer σ),
      (T.tftpRun s.svc).1 ≠ c.TFTP_STATUS_NO_TRAFFIC →
      c.TFTP_IS_ERROR_STATUS (T.tftpRun s.svc).1 = false →
      (T.tftpReceivedRequest (T.tftpRun s.svc).2).1 = c.TFTP_RXRQ_WRQ →
      c.TFTP_IS_ERROR_STATUS (credentialPhase c T (T.tftpRun s.svc).1
        { s with svc := (T.tftpReceivedRequest (T.tftpRun s.svc).2).2 }).1 = false →
      s.waitingForCrc = true →
      T.tftpGetReceivedBytes 1 (credentialPhase c T (T.tftpRun s.svc).1
        { s with svc := (T.tftpReceivedRequest (T.tftpRun s.svc).2).2 }).2.svc = (some hi, v1) →
      T.tftpGetReceivedBytes 1 v1 = (some lo, v2) →
      sam_ba_monitor_loop_tftp b g c T fuel pb s = some (o, s') →
      s'.receivedCrc16 = 256 * (hi.getD 0 0 % 256) + lo.getD 0 0 % 256 ∧
        s'.waitingForCrc = false) ∧
    (∀ (o : Outcome) (s' : Installer σ),
      sam_ba_monitor_loop_tftp b g c T fuel pb s = some (o, s') →
      s.waitingForCrc = false →
      s'.receivedCrc16 = s.receivedCrc16 ∧ s'.waitingForCrc = false) := by
  refine ⟨?_, ?_, ?_, ?_, ?_, ?_⟩
  · intro h0
    simp [sam_ba_monitor_loop_tftp, h0]
  · intro st dr s1 hrun hproc
    obtain ⟨W, hW, hall, _⟩ := tftpProcess_inv b g c T fuel pb _ _ _ hproc
    refine ⟨⟨W, hW, hall⟩, ?_, ?_⟩
    · intro hsend
      simp [sam_ba_monitor_loop_tftp, hrun, hproc, tftpRespond, hsend, World.log]
    · intro hsend hst herr hfp
      subst hst
      simp [sam_ba_monitor_loop_tftp, hrun, hproc, tftpRespond, hsend, World.log, herr, hfp,
        sam_ba_eraseflash_eq g hps hmax]
  · intro o s' l hpoll hl ⟨e, he, hee⟩
    rcases poll_inv b g c T fuel pb s o s' hpoll with ⟨_, hhw, _, _⟩ | ⟨_, st, dr, s1, hproc, hresp⟩
    · rw [hhw] at hl
      have : l = [] := by
        have := congrArg List.length hl
        simp only [List.length_append] at this
        exact List.length_eq_zero.mp (by omega)
      subst this
      cases he
    · obtain ⟨W, hW, hall, _⟩ := tftpProcess_inv b g c T fuel pb _ _ _ hproc
      simp only at hW
      have hWe : ∀ x ∈ W, isEraseOrReset x = false :=
        fun x hx => flashWrite_not_eraseOrReset x (hall x hx)
      cases hsend : (T.tftpSendResponse st s1.svc).1
      · obtain ⟨_, _, R, hR, _⟩ := tftpRespond_inv g c T st dr s1 _ hresp
        simp only at hR
        rw [hR, hW, List.append_assoc] at hl
        exact ⟨st, dr, s1, hproc, hsend, W, R, (List.append_cancel_left hl).symm, hWe⟩
      · rw [tftpRespond_again g c T st dr s1 hsend] at hresp
        simp only [Option.some.injEq, Prod.mk.injEq] at hresp
        obtain ⟨_, rfl⟩ := hresp
        simp only [World.log] at hl
        rw [hW, List.append_assoc] at hl
        have hll := (List.append_cancel_left hl).symm
        subst hll
        rcases List.mem_append.mp he with h1 | h2
        · rw [hWe e h1] at hee; cases hee
        · simp only [List.mem_singleton] at h2
          subst h2
          cases hee
  · intro hmm herr
    obtain ⟨hrun, dr, s1, hproc, hfp, hmis⟩ := tftpProcess_mismatch b g c T fuel pb s hmm
    obtain ⟨W, hW, hall, _⟩ := tftpProcess_inv b g c T fuel pb _ _ _ hproc
    have hfr := (tftpProcess_crc b g c T fuel pb _ _ _ hproc).2
    simp only at hW
    refine ⟨dr, s1, W, hproc, hmis, hfr, hW, hall, ?_, ?_⟩
    · intro hsend
      simp [sam_ba_monitor_loop_tftp, hrun, hproc, tftpRespond, hsend, World.log, herr, hfp,
        sam_ba_eraseflash_eq g hps hmax, hW]
    · intro hsend
      simp [sam_ba_monitor_loop_tftp, hrun, hproc, tftpRespond, hsend, World.log, hW]
  · intro hi lo v1 v2 o s' hrun herr0 hrq herr1 hw h1 h2 hpoll
    rcases poll_inv b g c T fuel pb s o s' hpoll with ⟨h0, _⟩ | ⟨_, st, dr, s1, hproc, hresp⟩
    · exact absurd h0 hrun
    · have hc := (tftpProcess_crc b g c T fuel pb _ _ _ hproc).1 herr0 hrq
      have hcap := crcPhase_capture c T _ _ hi lo v1 v2 herr1
        (by rw [(credentialPhase_inv c T _ _).2.1]; exact hw) h1 h2
      rw [hcap] at hc
      simp only at hc
      obtain ⟨_, hwc, _⟩ := tftpRespond_inv g c T st dr s1 _ hresp
      simp only at hwc
      rw [tftpRespond_crc g c T st dr s1 _ hresp, hwc]
      exact hc
  · intro o s' hpoll hw
    rcases poll_inv b g c T fuel pb s o s' hpoll with ⟨h0, _⟩ | ⟨_, st, dr, s1, hproc, hresp⟩
    · simp only [sam_ba_monitor_loop_tftp, h0, if_true, Option.some.injEq, Prod.mk.injEq] at hpoll
      obtain ⟨_, rfl⟩ := hpoll
      exact ⟨rfl, hw⟩
    · have hc := (tftpProcess_crc b g c T fuel pb _ _ _ hproc).2 hw
      obtain ⟨_, _, _, _, hcf, _⟩ := tftpProcess_inv b g c T fuel pb _ _ _ hproc
      obtain ⟨_, hwc, _⟩ := tftpRespond_inv g c T st dr s1 _ hresp
      simp only at hwc hc hcf
      rw [tftpRespond_crc g c T st dr s1 _ hresp, hwc]
      exact ⟨hc, hcf hw⟩

theorem writeLoop_zero (g : Geometry) (src : Mem → Nat → Nat) (fuel off dst : Nat) (w : World) :
    writeLoop g src fuel off dst 0 w = some w := by
  cases fuel <;> simp [writeLoop]

set_option maxRecDepth 4096 in
/-- C7, evaluated on the 9 KiB geometry with the sample service: the statement itself, and
completing polls.  Eight image bytes that do not match the expected checksum 0, as trailing
words of a partial page: the poll is a checksum-mismatch poll; with the response reported sent
it ends in a reset after the response, `tftpEnd` and the four erase-row commands of the
application region; with the response not yet sent it returns right after the response.  One
page already written and nothing pending (no trailing words), expected checksum 0 against the
checksum 16320 of the image: again a checksum-mismatch poll, with the same actions.  The same
state with the expected checksum 16320 is no checksum-mismatch poll: the poll responds with the
completion status and starts the application. -/
theorem tftp_response_then_erase_then_reset_witness :
    (0 < smallGeometry.PAGE_SIZE ∧
      smallGeometry.MAX_FLASH + smallGeometry.PAGE_SIZE * 4 ≤ 4294967296) ∧
    (((demoTftp.tftpRun demoCompleting.svc).1 = demoNet.TFTP_STATUS_NO_TRAFFIC →
      ∃ s', sam_ba_monitor_loop_tftp demoBuild smallGeometry demoNet demoTftp 4 demoPageBuffer demoCompleting = some (Outcome.returned false, s') ∧
        s'.hw = demoCompleting.hw) ∧
    (∀ (st : Int) (dr : Bool) (s1 : Installer Transfer),
      (demoTftp.tftpRun demoCompleting.svc).1 ≠ demoNet.TFTP_STATUS_NO_TRAFFIC →
      tftpProcess demoBuild smallGeometry demoNet demoTftp 4 demoPageBuffer (demoTftp.tftpRun demoCompleting.svc).1 { demoCompleting with svc := (demoTftp.tftpRun demoCompleting.svc).2 }
        = some (st, dr, s1) →
      (∃ W, s1.hw.trace = demoCompleting.hw.trace ++ W ∧ ∀ e ∈ W, isFlashWrite e = true) ∧
      ((demoTftp.tftpSendResponse st s1.svc).1 = true →
        ∃ s', sam_ba_monitor_loop_tftp demoBuild smallGeometry demoNet demoTftp 4 demoPageBuffer demoCompleting = some (Outcome.returned dr, s') ∧
          s'.hw.trace = s1.hw.trace ++ [Event.tftpSendResponse st] ∧ s'.hw.mem = s1.hw.mem) ∧
      ((demoTftp.tftpSendResponse st s1.svc).1 = false →
        st = demoNet.TFTP_STATUS_ERROR_CRC →
        demoNet.TFTP_IS_ERROR_STATUS demoNet.TFTP_STATUS_ERROR_CRC = true →
        s1.flashProgrammingPtr ≠ demoNet.APP_FLASH_MEMORY_START_PTR →
        ∃ s', sam_ba_monitor_loop_tftp demoBuild smallGeometry demoNet demoTftp 4 demoPageBuffer demoCompleting = some (Outcome.reset, s') ∧
          s'.hw.trace = s1.hw.trace
            ++ [Event.tftpSendResponse demoNet.TFTP_STATUS_ERROR_CRC, Event.tftpEnd]
            ++ eraseEvents smallGeometry demoNet.APP_FLASH_MEMORY_START_ADDR
                (rowsFrom smallGeometry demoNet.APP_FLASH_MEMORY_START_ADDR)
            ++ [Event.systemReset] ∧
          s'.hw.mem = eraseRowsMem smallGeometry (rowsFrom smallGeometry demoNet.APP_FLASH_MEMORY_START_ADDR)
            demoNet.APP_FLASH_MEMORY_START_ADDR s1.hw.mem)) ∧
    (∀ (o : Outcome) (s' : Installer Transfer) (l : List Event),
      sam_ba_monitor_loop_tftp demoBuild smallGeometry demoNet demoTftp 4 demoPageBuffer demoCompleting = some (o, s') →
      s'.hw.trace = demoCompleting.hw.trace ++ l →
      (∃ e ∈ l, isEraseOrReset e = true) →
      ∃ (st : Int) (dr : Bool) (s1 : Installer Transfer),
        tftpProcess demoBuild smallGeometry demoNet demoTftp 4 demoPageBuffer (demoTftp.tftpRun demoCompleting.svc).1 { demoCompleting with svc := (demoTftp.tftpRun demoCompleting.svc).2 }
          = some (st, dr, s1) ∧
        (demoTftp.tftpSendResponse st s1.svc).1 = false ∧
        ∃ W R, l = W ++ Event.tftpSendResponse st :: R ∧
          ∀ e ∈ W, isEraseOrReset e = false) ∧
    (checksumMismatchPoll demoBuild smallGeometry demoNet demoTftp 4 demoPageBuffer demoCompleting = true →
      demoNet.TFTP_IS_ERROR_STATUS demoNet.TFTP_STATUS_ERROR_CRC = true →
      ∃ (dr : Bool) (s1 : Installer Transfer) (W : List Event),
        tftpProcess demoBuild smallGeometry demoNet demoTftp 4 demoPageBuffer (demoTftp.tftpRun demoCompleting.svc).1 { demoCompleting with svc := (demoTftp.tftpRun demoCompleting.svc).2 }
          = some (demoNet.TFTP_STATUS_ERROR_CRC, dr, s1) ∧
        s1.receivedCrc16 ≠
          sam_ba_calc_crc16 demoBuild s1.hw.mem demoNet.APP_FLASH_MEMORY_START_PTR s1.imageSize ∧
        (demoCompleting.waitingForCrc = false → s1.receivedCrc16 = demoCompleting.receivedCrc16) ∧
        s1.hw.trace = demoCompleting.hw.trace ++ W ∧ (∀ e ∈ W, isFlashWrite e = true) ∧
        ((demoTftp.tftpSendResponse demoNet.TFTP_STATUS_ERROR_CRC s1.svc).1 = false →
          ∃ s', sam_ba_monitor_loop_tftp demoBuild smallGeometry demoNet demoTftp 4 demoPageBuffer demoCompleting = some (Outcome.reset, s') ∧
            s'.hw.trace = demoCompleting.hw.trace ++ W
              ++ [Event.tftpSendResponse demoNet.TFTP_STATUS_ERROR_CRC, Event.tftpEnd]
              ++ eraseEvents smallGeometry demoNet.APP_FLASH_MEMORY_START_ADDR
                  (rowsFrom smallGeometry demoNet.APP_FLASH_MEMORY_START_ADDR)
              ++ [Event.systemReset] ∧
            s'.hw.mem = eraseRowsMem smallGeometry (rowsFrom smallGeometry demoNet.APP_FLASH_MEMORY_START_ADDR)
              demoNet.APP_FLASH_MEMORY_START_ADDR s1.hw.mem) ∧
        ((demoTftp.tftpSendResponse demoNet.TFTP_STATUS_ERROR_CRC s1.svc).1 = true →
          ∃ s', sam_ba_monitor_loop_tftp demoBuild smallGeometry demoNet demoTftp 4 demoPageBuffer demoCompleting = some (Outcome.returned dr, s') ∧
            s'.hw.trace = demoCompleting.hw.trace ++ W
              ++ [Event.tftpSendResponse demoNet.TFTP_STATUS_ERROR_CRC] ∧
            s'.hw.mem = s1.hw.mem)) ∧
    (∀ (hi lo : List Nat) (v1 v2 : Transfer) (o : Outcome) (s' : Installer Transfer),
      (demoTftp.tftpRun demoCompleting.svc).1 ≠ demoNet.TFTP_STATUS_NO_TRAFFIC →
      demoNet.TFTP_IS_ERROR_STATUS (demoTftp.tftpRun demoCompleting.svc).1 = false →
      (demoTftp.tftpReceivedRequest (demoTftp.tftpRun demoCompleting.svc).2).1 = demoNet.TFTP_RXRQ_WRQ →
      demoNet.TFTP_IS_ERROR_STATUS (credentialPhase demoNet demoTftp (demoTftp.tftpRun demoCompleting.svc).1
        { demoCompleting with svc := (demoTftp.tftpReceivedRequest (demoTftp.tftpRun demoCompleting.svc).2).2 }).1 = false →
      demoCompleting.waitingForCrc = true →
      demoTftp.tftpGetReceivedBytes 1 (credentialPhase demoNet demoTftp (demoTftp.tftpRun demoCompleting.svc).1
        { demoCompleting with svc := (demoTftp.tftpReceivedRequest (demoTftp.tftpRun demoCompleting.svc).2).2 }).2.svc = (some hi, v1) →
      demoTftp.tftpGetReceivedBytes 1 v1 = (some lo, v2) →
      sam_ba_monitor_loop_tftp demoBuild smallGeometry demoNet demoTftp 4 demoPageBuffer demoCompleting = some (o, s') →
      s'.receivedCrc16 = 256 * (hi.getD 0 0 % 256) + lo.getD 0 0 % 256 ∧
        s'.waitingForCrc = false) ∧
    (∀ (o : Outcome) (s' : Installer Transfer),
      sam_ba_monitor_loop_tftp demoBuild smallGeometry demoNet demoTftp 4 demoPageBuffer demoCompleting = some (o, s') →
      demoCompleting.waitingForCrc = false →
      s'.receivedCrc16 = demoCompleting.receivedCrc16 ∧ s'.waitingForCrc = false)) ∧
    (sam_ba_monitor_loop_tftp demoBuild smallGeometry demoNet demoTftp 4 demoPageBuffer
        demoCompleting).map (fun r => (r.1, r.2.hw.trace.drop 18))
      = some (Outcome.reset, [Event.tftpSendResponse (-4), Event.tftpEnd, Event.eraseRow 8192,
          Event.eraseRow 8448, Event.eraseRow 8704, Event.eraseRow 8960, Event.systemReset]) ∧
    (sam_ba_monitor_loop_tftp demoBuild smallGeometry demoNet demoTftp 4 demoPageBuffer
        (demoInstaller 0 { demoTransfer with again := true })).map
        (fun r => (r.1, r.2.hw.trace.drop 18))
      = some (Outcome.returned true, [Event.tftpSendResponse (-4)]) ∧
    checksumMismatchPoll demoBuild smallGeometry demoNet demoTftp 4 demoPageBuffer
      demoCompleting = true ∧
    checksumMismatchPoll demoBuild smallGeometry demoNet demoTftp 4 demoPageBuffer
      (demoInstaller 64 { demoTransfer with pending := [] }) = true ∧
    (sam_ba_monitor_loop_tftp demoBuild smallGeometry demoNet demoTftp 4 demoPageBuffer
        (demoInstaller 64 { demoTransfer with pending := [] })).map
        (fun r => (r.1, r.2.hw.trace))
      = some (Outcome.reset, [Event.tftpSendResponse (-4), Event.tftpEnd, Event.eraseRow 8192,
          Event.eraseRow 8448, Event.eraseRow 8704, Event.eraseRow 8960, Event.systemReset]) ∧
    checksumMismatchPoll demoBuild smallGeometry demoNet demoTftp 4 demoPageBuffer
      { demoInstaller 64 { demoTransfer with pending := [] } with receivedCrc16 := 16320 }
      = false ∧
    (sam_ba_monitor_loop_tftp demoBuild smallGeometry demoNet demoTftp 4 demoPageBuffer
        { demoInstaller 64 { demoTransfer with pending := [] } with receivedCrc16 := 16320 }).map
        (fun r => (r.1, r.2.hw.trace))
      = some (Outcome.started,
          [Event.tftpSendResponse 2, Event.tftpEnd, Event.startApplication]) :=
  ⟨by decide,
    tftp_response_then_erase_then_reset demoBuild smallGeometry demoNet demoTftp 4
      demoPageBuffer demoCompleting (by decide) (by decide),
    by decide, by decide, by decide, by decide, by decide, by decide, by decide⟩

/-- C8, evaluated on the 256 KiB geometry: the cursor stands one page below the capacity
(byte offset `MAX_FLASH - 64`) and one more page arrives.  After the drain the byte offset of
the cursor equals `MAX_FLASH = 262144`, but the value compared with `MAX_FLASH` is the word
offset 65536, so the status sent is still 1 (transfer in progress), not the capacity error. -/
theorem capacity_test_counts_words :
    (sam_ba_monitor_loop_tftp demoBuild demoGeometry demoNet demoTftp 4 demoPageBuffer
      (demoInstaller 262080
        { status := 1, request := 2, pending := List.replicate 64 7, again := true })).map
      (fun r => (r.1, r.2.hw.trace.getLast?, r.2.flashProgrammingPtr - 8192,
        ptrDiff r.2.flashProgrammingPtr demoNet.APP_FLASH_MEMORY_START_PTR,
        demoGeometry.MAX_FLASH))
      = some (Outcome.returned true, some (Event.tftpSendResponse 1), 262144, 65536, 262144) := by
  decide

/-- A byte is erased by `n` row erasures from `dst` on exactly when its row is one of the `n`
rows starting with the row of `dst`. -/
theorem eraseRowsMem_apply (g : Geometry) (hps : 0 < g.PAGE_SIZE) (x : Nat) :
    ∀ (n dst : Nat) (m : Mem), eraseRowsMem g n dst m x =
      if dst / (g.PAGE_SIZE * 4) ≤ x / (g.PAGE_SIZE * 4)
          ∧ x / (g.PAGE_SIZE * 4) < dst / (g.PAGE_SIZE * 4) + n then 255 else m x := by
  have hR : 0 < g.PAGE_SIZE * 4 := by omega
  intro n
  induction n with
  | zero =>
    intro dst m
    rw [if_neg (by omega)]
    rfl
  | succ n ih =>
    intro dst m
    rw [eraseRowsMem, ih, Nat.add_div_right _ hR]
    unfold eraseRowMem
    generalize x / (g.PAGE_SIZE * 4) = a
    generalize dst / (g.PAGE_SIZE * 4) = c
    split_ifs <;> first | rfl | omega

/-- When the capacity is `m` whole rows, the sweep from `s` visits the rows from the row of `s`
up to the last one. -/
theorem rowsFrom_rows (g : Geometry) (hps : 0 < g.PAGE_SIZE) (m s : Nat)
    (hrows : g.MAX_FLASH = m * (g.PAGE_SIZE * 4)) (hs : s < g.MAX_FLASH) :
    s / (g.PAGE_SIZE * 4) + rowsFrom g s = m := by
  unfold rowsFrom
  have hR : 0 < g.PAGE_SIZE * 4 := by omega
  generalize g.PAGE_SIZE * 4 = R at *
  have h1 := Nat.div_add_mod s R
  have h2 := Nat.mod_lt s hR
  generalize s / R = q at *
  generalize s % R = r at *
  have hq : q < m := by
    by_contra hc
    have : m * R ≤ q * R := Nat.mul_le_mul_right _ (by omega)
    have : R * q = q * R := Nat.mul_comm _ _
    omega
  obtain ⟨d, rfl⟩ : ∃ d, m = q + d + 1 := ⟨m - q - 1, by omega⟩
  have e : g.MAX_FLASH - s + (R - 1) = (R - 1 - r) + (d + 1) * R := by
    have : (q + d + 1) * R = R * q + (d + 1) * R := by ring
    omega
  rw [e, Nat.add_mul_div_right _ _ hR, Nat.div_eq_of_lt (by omega)]
  omega

/-- Why the sweep theorem bounds the capacity by `MAX_FLASH + 4 x PAGE_SIZE <= 2^32`, a bound
that every geometry set up by `sam_ba_monitor_run` meets (`run_geometry_ok`): on whole 12-byte
rows whose capacity ends just below 2^32, a geometry outside the page-size table, the 32-bit
address of the sweep from the last byte wraps to 7 and a second row is erased there. -/
theorem erase_wraps_on_oversized_geometry :
    0 < wrapGeometry.PAGE_SIZE
    ∧ wrapGeometry.MAX_FLASH = 357913941 * (wrapGeometry.PAGE_SIZE * 4)
    ∧ 4294967291 < wrapGeometry.MAX_FLASH
    ∧ (wrapGeometry.MAX_FLASH - 4294967291 + (wrapGeometry.PAGE_SIZE * 4 - 1))
        / (wrapGeometry.PAGE_SIZE * 4) = 1
    ∧ ∀ w', sam_ba_eraseflash wrapGeometry 4294967291 { mem := fun _ => 0, trace := [] } = some w' →
        ∃ E, w'.trace = [Event.eraseRow 4294967291, Event.eraseRow 7] ++ E := by
  refine ⟨by decide, by decide, by decide, by decide, ?_⟩
  intro w' h
  have hf : (4294967296 : Nat) = 4294967294 + 1 + 1 := by norm_num
  unfold sam_ba_eraseflash at h
  rw [hf, eraseLoop, if_pos (by decide)] at h
  have h7 : u32 (4294967291 + u32 (wrapGeometry.PAGE_SIZE * 4)) = 7 := by decide
  rw [h7, eraseLoop, if_pos (by decide)] at h
  obtain ⟨E, hE, _⟩ := eraseLoop_trace _ _ _ _ _ h
  exact ⟨E, by rw [hE]; rfl⟩

/-- C11: for every geometry with PAGE_SIZE > 0 and MAX_FLASH a whole number of rows of
4 x PAGE_SIZE bytes, with addresses of 32 bits (MAX_FLASH + 4 x PAGE_SIZE <= 2^32, as in every
geometry that `sam_ba_monitor_run` sets up, see `run_geometry_ok`), and every start address
s < MAX_FLASH, aligned or not, `sam_ba_eraseflash` returns after exactly
ceil((MAX_FLASH - s) / (4 x PAGE_SIZE)) erase-row commands at the addresses
s + j x 4 x PAGE_SIZE; every byte of a row that meets [s, MAX_FLASH) then reads 0xFF, so every
word in [s, MAX_FLASH) reads 0xFFFFFFFF, and the rows below the row of s are untouched; for a
start address at or above MAX_FLASH no command is issued. -/
theorem eraseflash_sweeps_to_end_of_flash (g : Geometry) (hps : 0 < g.PAGE_SIZE)
    (hrows : ∃ m, g.MAX_FLASH = m * (g.PAGE_SIZE * 4))
    (hmax : g.MAX_FLASH + g.PAGE_SIZE * 4 ≤ 4294967296) (s : Nat) (hs : s < g.MAX_FLASH)
    (w : World) :
    (∃ w', sam_ba_eraseflash g s w = some w'
        ∧ w'.trace = w.trace
            ++ (List.range ((g.MAX_FLASH - s + (g.PAGE_SIZE * 4 - 1)) / (g.PAGE_SIZE * 4))).map
                (fun j => Event.eraseRow (s + j * (g.PAGE_SIZE * 4)))
        ∧ (∀ x, s / (g.PAGE_SIZE * 4) ≤ x / (g.PAGE_SIZE * 4) → x < g.MAX_FLASH → w'.mem x = 255)
        ∧ (∀ x, s ≤ x → x < g.MAX_FLASH → w'.mem x = 255)
        ∧ (∀ a, s ≤ a → a + 3 < g.MAX_FLASH → read32 w'.mem a = 4294967295)
        ∧ (∀ x, x / (g.PAGE_SIZE * 4) < s / (g.PAGE_SIZE * 4) → w'.mem x = w.mem x))
    ∧ (∀ s2, g.MAX_FLASH ≤ s2 → sam_ba_eraseflash g s2 w = some w) := by
  have hR : 0 < g.PAGE_SIZE * 4 := by omega
  obtain ⟨m, hm⟩ := hrows
  have hrow : ∀ x, s / (g.PAGE_SIZE * 4) ≤ x / (g.PAGE_SIZE * 4) → x < g.MAX_FLASH →
      eraseRowsMem g (rowsFrom g s) s w.mem x = 255 := by
    intro x h1 h2
    rw [eraseRowsMem_apply g hps, if_pos]
    refine ⟨h1, ?_⟩
    rw [rowsFrom_rows g hps m s hm hs]
    apply (Nat.div_lt_iff_lt_mul hR).mpr
    omega
  constructor
  · refine ⟨_, sam_ba_eraseflash_eq g hps hmax s w, rfl, ?_, ?_, ?_, ?_⟩
    · intro x h1 h2
      exact hrow x h1 h2
    · intro x h1 h2
      exact hrow x (Nat.div_le_div_right h1) h2
    · intro a h1 h2
      have h := fun k (hk : k ≤ 3) => hrow (a + k) (Nat.div_le_div_right (by omega)) (by omega)
      have h0 := h 0 (by omega)
      simp only [read32, read16, read8] at *
      simp only [Nat.add_zero] at h0
      rw [h0, h 1 (by omega), h 2 (by omega), h 3 (by omega)]
    · intro x hx
      show eraseRowsMem g (rowsFrom g s) s w.mem x = w.mem x
      rw [eraseRowsMem_apply g hps, if_neg (by omega)]
  · intro s2 hs2
    rw [sam_ba_eraseflash_eq g hps hmax, rowsFrom_done g s2 hps hs2]
    simp [eraseRowsMem, eraseEvents]

/-- The sweep theorem applied to the 36-row sample geometry and an unaligned start address in
its last row. -/
theorem eraseflash_sweeps_to_end_of_flash_witness :
    (0 < smallGeometry.PAGE_SIZE
      ∧ (∃ m, smallGeometry.MAX_FLASH = m * (smallGeometry.PAGE_SIZE * 4))
      ∧ smallGeometry.MAX_FLASH + smallGeometry.PAGE_SIZE * 4 ≤ 4294967296
      ∧ 8961 < smallGeometry.MAX_FLASH)
    ∧ ((∃ w', sam_ba_eraseflash smallGeometry 8961 demoMonitor.hw = some w'
        ∧ w'.trace = demoMonitor.hw.trace
            ++ (List.range ((smallGeometry.MAX_FLASH - 8961 + (smallGeometry.PAGE_SIZE * 4 - 1)) / (smallGeometry.PAGE_SIZE * 4))).map
                (fun j => Event.eraseRow (8961 + j * (smallGeometry.PAGE_SIZE * 4)))
        ∧ (∀ x, 8961 / (smallGeometry.PAGE_SIZE * 4) ≤ x / (smallGeometry.PAGE_SIZE * 4) → x < smallGeometry.MAX_FLASH → w'.mem x = 255)
        ∧ (∀ x, 8961 ≤ x → x < smallGeometry.MAX_FLASH → w'.mem x = 255)
        ∧ (∀ a, 8961 ≤ a → a + 3 < smallGeometry.MAX_FLASH → read32 w'.mem a = 4294967295)
        ∧ (∀ x, x / (smallGeometry.PAGE_SIZE * 4) < 8961 / (smallGeometry.PAGE_SIZE * 4) → w'.mem x = demoMonitor.hw.mem x))
    ∧ (∀ s2, smallGeometry.MAX_FLASH ≤ s2 → sam_ba_eraseflash smallGeometry s2 demoMonitor.hw = some demoMonitor.hw)) :=
  ⟨⟨by decide, ⟨36, by decide⟩, by decide, by decide⟩,
    eraseflash_sweeps_to_end_of_flash smallGeometry (by decide) ⟨36, by decide⟩ (by decide)
      8961 (by decide) demoMonitor.hw⟩

/-! ### The page writer (C12) -/

theorem fillPage_eq (src : Mem → Nat → Nat) (dst : Nat) :
    ∀ (n i : Nat) (w : World), fillPage src dst n i w =
      { mem := storeMem src dst n i w.mem, trace := w.trace ++ storeList src dst n i w.mem } := by
  intro n
  induction n with
  | zero => intro i w; simp [fillPage, storeMem, storeList]
  | succ n ih => intro i w; simp [fillPage, storeMem, storeList, ih]

theorem storeMem_add (src : Mem → Nat → Nat) (dst : Nat) :
    ∀ (a b i : Nat) (m : Mem),
      storeMem src dst (a + b) i m = storeMem src dst b (i + a) (storeMem src dst a i m) := by
  intro a
  induction a with
  | zero => intro b i m; simp [storeMem]
  | succ a ih =>
    intro b i m
    have e : a + 1 + b = (a + b) + 1 := by omega
    rw [e, storeMem, storeMem, ih]
    have e2 : i + 1 + a = i + (a + 1) := by omega
    rw [e2]

theorem storeList_add (src : Mem → Nat → Nat) (dst : Nat) :
    ∀ (a b i : Nat) (m : Mem),
      storeList src dst (a + b) i m
        = storeList src dst a i m ++ storeList src dst b (i + a) (storeMem src dst a i m) := by
  intro a
  induction a with
  | zero => intro b i m; simp [storeMem, storeList]
  | succ a ih =>
    intro b i m
    have e : a + 1 + b = (a + b) + 1 := by omega
    rw [e, storeList, storeList, storeMem, ih]
    have e2 : i + 1 + a = i + (a + 1) := by omega
    rw [e2]
    rfl

theorem storeList_length (src : Mem → Nat → Nat) (dst : Nat) :
    ∀ (n i : Nat) (m : Mem), (storeList src dst n i m).length = n := by
  intro n
  induction n with
  | zero => intro i m; rfl
  | succ n ih => intro i m; simp [storeList, ih]

theorem u32_shift (a b c : Nat) (h : u32 a = u32 b) : u32 (a + c) = u32 (b + c) := by
  unfold u32 at *
  omega

theorem storeMem_shift (src : Mem → Nat → Nat) (dst0 dstA off : Nat)
    (h : u32 dstA = u32 (dst0 + 4 * off)) :
    ∀ (n i : Nat) (m : Mem),
      storeMem (fun m k => src m (off + k)) dstA n i m = storeMem src dst0 n (off + i) m := by
  intro n
  induction n with
  | zero => intro i m; rfl
  | succ n ih =>
    intro i m
    have e : u32 (dstA + 4 * i) = u32 (dst0 + 4 * (off + i)) := by
      have := u32_shift _ _ (4 * i) h
      rw [this]; congr 1; ring
    rw [storeMem, storeMem, ih, e]
    rfl

theorem storeList_shift (src : Mem → Nat → Nat) (dst0 dstA off : Nat)
    (h : u32 dstA = u32 (dst0 + 4 * off)) :
    ∀ (n i : Nat) (m : Mem),
      storeList (fun m k => src m (off + k)) dstA n i m = storeList src dst0 n (off + i) m := by
  intro n
  induction n with
  | zero => intro i m; rfl
  | succ n ih =>
    intro i m
    have e : u32 (dstA + 4 * i) = u32 (dst0 + 4 * (off + i)) := by
      have := u32_shift _ _ (4 * i) h
      rw [this]; congr 1; ring
    rw [storeList, storeList, ih, e]
    rfl

theorem rounds_count (q size : Nat) (hq : 0 < q) (hs : size ≠ 0) :
    (size - min q size + (q - 1)) / q + 1 = (size + (q - 1)) / q := by
  by_cases h : q ≤ size
  · rw [Nat.min_eq_left h]
    have e : size + (q - 1) = (size - q + (q - 1)) + q := by omega
    rw [e, Nat.add_div_right _ hq]
  · rw [Nat.min_eq_right (by omega), Nat.sub_self, Nat.zero_add,
      Nat.div_eq_of_lt (by omega : q - 1 < q)]
    have e : size + (q - 1) = (size - 1) + q := by omega
    rw [e, Nat.add_div_right _ hq, Nat.div_eq_of_lt (by omega)]

theorem writeLoop_rounds (g : Geometry) (src : Mem → Nat → Nat) (dst0 : Nat)
    (hps : 0 < g.PAGE_SIZE / 4) :
    ∀ (fuel off dstA size : Nat) (w : World), size ≤ fuel → u32 dstA = u32 (dst0 + 4 * off) →
      ∃ (w' : World) (rounds : List (List Event)),
        writeLoop g src fuel off dstA size w = some w'
        ∧ w'.mem = storeMem src dst0 size off w.mem
        ∧ w'.trace = w.trace ++ (rounds.map writeRound).flatten
        ∧ rounds.flatten = storeList src dst0 size off w.mem
        ∧ rounds.length = (size + (g.PAGE_SIZE / 4 - 1)) / (g.PAGE_SIZE / 4)
        ∧ ∀ r ∈ rounds, 0 < r.length ∧ r.length ≤ g.PAGE_SIZE / 4 := by
  intro fuel
  induction fuel with
  | zero =>
    intro off dstA size w hf _
    have hs : size = 0 := by omega
    subst hs
    refine ⟨w, [], by simp [writeLoop], rfl, by simp, rfl, ?_, by simp⟩
    simp
    exact (Nat.div_eq_of_lt (by omega)).symm
  | succ fuel ih =>
    intro off dstA size w hf hd
    by_cases hs : size = 0
    · subst hs
      refine ⟨w, [], by simp [writeLoop], rfl, by simp, rfl, ?_, by simp⟩
      simp
      exact (Nat.div_eq_of_lt (by omega)).symm
    · have hi : 0 < min (g.PAGE_SIZE / 4) size := by
        rw [Nat.lt_min]; exact ⟨hps, by omega⟩
      have hile : min (g.PAGE_SIZE / 4) size ≤ size := Nat.min_le_right _ _
      rw [writeLoop, if_neg hs]
      simp only [fillPage_eq, World.log, storeMem_shift src dst0 dstA off hd,
        storeList_shift src dst0 dstA off hd, Nat.add_zero]
      generalize hidef : min (g.PAGE_SIZE / 4) size = i at *
      have hd2 : u32 (u32 (dstA + 4 * i)) = u32 (dst0 + 4 * (off + i)) := by
        have := u32_shift _ _ (4 * i) hd
        unfold u32 at *
        rw [Nat.mod_mod, this]; congr 1; ring
      obtain ⟨w', rounds, h1, h2, h3, h4, h5, h6⟩ := ih (off + i) (u32 (dstA + 4 * i)) (size - i)
        { mem := storeMem src dst0 i off w.mem
          trace := w.trace ++ [Event.pageBufferClear] ++ storeList src dst0 i off w.mem
            ++ [Event.writePage] } (by omega) hd2
      have hsz : size = i + (size - i) := by omega
      refine ⟨w', storeList src dst0 i off w.mem :: rounds, h1, ?_, ?_, ?_, ?_, ?_⟩
      · rw [h2]
        conv_rhs => rw [hsz]
        rw [storeMem_add]
      · rw [h3]
        simp [writeRound]
      · rw [List.flatten_cons, h4]
        conv_rhs => rw [hsz]
        rw [storeList_add]
      · rw [List.length_cons, h5, ← hidef]
        exact rounds_count _ _ hps hs
      · intro r hr
        rcases List.mem_cons.mp hr with rfl | h
        · rw [storeList_length]
          exact ⟨hi, by rw [← hidef]; exact Nat.min_le_left _ _⟩
        · exact h6 r h

theorem storeList_addrs (src : Mem → Nat → Nat) (dst : Nat) :
    ∀ (n i : Nat) (m : Mem), ∃ vals : List Nat, vals.length = n ∧
      storeList src dst n i m
        = (List.range n).map fun k => Event.storeWord (u32 (dst + 4 * (i + k))) (vals.getD k 0) := by
  intro n
  induction n with
  | zero => intro i m; exact ⟨[], rfl, rfl⟩
  | succ n ih =>
    intro i m
    obtain ⟨vals, hl, hv⟩ := ih (i + 1) (write32 m (u32 (dst + 4 * i)) (src m i))
    refine ⟨src m i :: vals, by simp [hl], ?_⟩
    rw [storeList, hv, List.range_succ_eq_map]
    simp only [List.map_cons, List.map_map, Nat.add_zero, List.getD_cons_zero]
    congr 1
    apply List.map_congr_left
    intro k _
    simp only [Function.comp, Nat.succ_eq_add_one, List.getD_cons_succ]
    have : i + 1 + k = i + (k + 1) := by omega
    rw [this]

theorem storeList_const (f : Nat → Nat) (dst : Nat) :
    ∀ (n i : Nat) (m : Mem), storeList (fun _ k => f k) dst n i m
        = (List.range n).map fun k => Event.storeWord (u32 (dst + 4 * (i + k))) (f (i + k)) := by
  intro n
  induction n with
  | zero => intro i m; rfl
  | succ n ih =>
    intro i m
    rw [storeList, ih, List.range_succ_eq_map]
    simp only [List.map_cons, List.map_map, Nat.add_zero]
    congr 1
    apply List.map_congr_left
    intro k _
    simp only [Function.comp, Nat.succ_eq_add_one]
    have : i + 1 + k = i + (k + 1) := by omega
    rw [this]

theorem write32_other (m : Mem) (a v y : Nat) (h : y < a ∨ a + 4 ≤ y) :
    write32 m a v y = m y := by
  unfold write32 write8
  split_ifs <;> first | rfl | omega

theorem write32_byte (m : Mem) (a s j : Nat) (hj : j < 4) :
    write32 m a (read32 m s) (a + j) = m (s + j) % 256 := by
  unfold write32 write8 read32 read8
  interval_cases j <;> simp <;> omega

theorem storeMem_memcpy (src_addr dst n0 : Nat) (hsrc : src_addr + 4 * n0 ≤ 4294967296)
    (hdst : dst + 4 * n0 ≤ 4294967296)
    (hdis : src_addr + 4 * n0 ≤ dst ∨ dst + 4 * n0 ≤ src_addr) :
    ∀ (n i : Nat) (m : Mem), i + n ≤ n0 → ∀ x,
      storeMem (memWords src_addr) dst n i m x
        = if dst + 4 * i ≤ x ∧ x < dst + 4 * (i + n) then m (src_addr + (x - dst)) % 256
          else m x := by
  intro n
  induction n with
  | zero =>
    intro i m _ x
    rw [if_neg (by omega)]
    rfl
  | succ n ih =>
    intro i m hin x
    have ha : u32 (dst + 4 * i) = dst + 4 * i := Nat.mod_eq_of_lt (by omega)
    have hs : u32 (src_addr + 4 * i) = src_addr + 4 * i := Nat.mod_eq_of_lt (by omega)
    rw [storeMem, ih (i + 1) _ (by omega) x]
    unfold memWords
    rw [ha, hs]
    by_cases hx : dst + 4 * (i + 1) ≤ x ∧ x < dst + 4 * (i + 1 + n)
    · rw [if_pos hx, if_pos (by omega), write32_other _ _ _ _ (by omega)]
    · rw [if_neg hx]
      by_cases hx2 : dst + 4 * i ≤ x ∧ x < dst + 4 * i + 4
      · rw [if_pos (by omega)]
        obtain ⟨j, rfl⟩ : ∃ j, x = dst + 4 * i + j := ⟨x - (dst + 4 * i), by omega⟩
        have hj : j < 4 := by omega
        have e : src_addr + (dst + 4 * i + j - dst) = src_addr + 4 * i + j := by omega
        rw [e]
        exact write32_byte m _ _ j hj
      · rw [if_neg (by omega), write32_other _ _ _ _ (by omega)]

theorem storeMem_outside (src : Mem → Nat → Nat) (dst x : Nat) :
    ∀ (n i : Nat) (m : Mem), dst + 4 * (i + n) ≤ 4294967296 →
      (x < dst + 4 * i ∨ dst + 4 * (i + n) ≤ x) → storeMem src dst n i m x = m x := by
  intro n
  induction n with
  | zero => intro i m _ _; rfl
  | succ n ih =>
    intro i m hb hx
    have ha : u32 (dst + 4 * i) = dst + 4 * i := Nat.mod_eq_of_lt (by omega)
    rw [storeMem, ih (i + 1) _ (by omega) (by omega), ha, write32_other _ _ _ _ (by omega)]

/-- C12: for every page size of at least 4 bytes and every word count `n`,
`sam_ba_writetoflash` returns; the memory is that of the `n` word copies `dst[k] = src[k]` made
in increasing order (so, for a source range that does not overlap the destination, the `n`
destination words hold the `n` source words and no byte outside them has changed); the
actions are ceil(n / (PAGE_SIZE/4)) rounds, each one page-buffer-clear, between 1 and
PAGE_SIZE/4 word stores and one write-page command, the stores of all rounds together being
exactly `n` stores at `dst`, `dst + 4`, ... in this order; for `n = 0` nothing is issued. -/
theorem writetoflash_copies_in_page_rounds (g : Geometry) (hps : 4 ≤ g.PAGE_SIZE)
    (src : Mem → Nat → Nat) (dst n : Nat) (w : World) :
    ∃ (w' : World) (rounds : List (List Event)),
      sam_ba_writetoflash g src dst n w = some w'
      ∧ w'.mem = storeMem src dst n 0 w.mem
      ∧ w'.trace = w.trace ++ (rounds.map writeRound).flatten
      ∧ rounds.length = (n + (g.PAGE_SIZE / 4 - 1)) / (g.PAGE_SIZE / 4)
      ∧ (∀ r ∈ rounds, 0 < r.length ∧ r.length ≤ g.PAGE_SIZE / 4)
      ∧ (∃ vals : List Nat, vals.length = n ∧
          rounds.flatten
            = (List.range n).map fun k => Event.storeWord (u32 (dst + 4 * k)) (vals.getD k 0))
      ∧ (∀ f : Nat → Nat, src = (fun _ k => f k) →
          rounds.flatten = (List.range n).map fun k => Event.storeWord (u32 (dst + 4 * k)) (f k))
      ∧ (dst + 4 * n ≤ 4294967296 → ∀ x, x < dst ∨ dst + 4 * n ≤ x → w'.mem x = w.mem x)
      ∧ (∀ src_addr, src = memWords src_addr → src_addr + 4 * n ≤ 4294967296 →
          dst + 4 * n ≤ 4294967296 → (src_addr + 4 * n ≤ dst ∨ dst + 4 * n ≤ src_addr) →
          ∀ k, k < n → read32 w'.mem (dst + 4 * k) = read32 w.mem (src_addr + 4 * k))
      ∧ (n = 0 → w' = w) := by
  have hq : 0 < g.PAGE_SIZE / 4 := Nat.div_pos hps (by decide)
  obtain ⟨w', rounds, h1, h2, h3, h4, h5, h6⟩ :=
    writeLoop_rounds g src dst hq n 0 dst n w (le_refl _) (by simp)
  refine ⟨w', rounds, h1, h2, h3, h5, h6, ?_, ?_, ?_, ?_, ?_⟩
  · obtain ⟨vals, hl, hv⟩ := storeList_addrs src dst n 0 w.mem
    refine ⟨vals, hl, ?_⟩
    rw [h4, hv]
    simp
  · intro f hf
    rw [h4, hf, storeList_const]
    simp
  · intro hb x hx
    rw [h2]
    exact storeMem_outside src dst x n 0 w.mem (by omega) (by omega)
  · intro src_addr hsrc hs hd hdis k hk
    have hb : ∀ j, j < 4 → w'.mem (dst + 4 * k + j) = w.mem (src_addr + 4 * k + j) % 256 := by
      intro j hj
      rw [h2, hsrc, storeMem_memcpy src_addr dst n hs hd hdis n 0 w.mem (by omega),
        if_pos (by omega)]
      have e : src_addr + (dst + 4 * k + j - dst) = src_addr + 4 * k + j := by omega
      rw [e]
    have hb0 := hb 0 (by omega)
    simp only [Nat.add_zero] at hb0
    simp only [read32, read8, hb0, hb 1 (by omega), hb 2 (by omega), hb 3 (by omega),
      Nat.mod_mod]
  · intro hn
    subst hn
    rw [writeLoop_zero] at h1
    exact (Option.some.inj h1).symm

/-- The page writer theorem applied to 64-byte pages: 20 words from `0x2000` to `0x1000` take
two rounds. -/
theorem writetoflash_copies_in_page_rounds_witness :
    4 ≤ demoGeometry.PAGE_SIZE ∧
    (∃ (w' : World) (rounds : List (List Event)),
      sam_ba_writetoflash demoGeometry (memWords 8192) 4096 20 demoMonitor.hw = some w'
      ∧ w'.mem = storeMem (memWords 8192) 4096 20 0 demoMonitor.hw.mem
      ∧ w'.trace = demoMonitor.hw.trace ++ (rounds.map writeRound).flatten
      ∧ rounds.length = (20 + (demoGeometry.PAGE_SIZE / 4 - 1)) / (demoGeometry.PAGE_SIZE / 4)
      ∧ (∀ r ∈ rounds, 0 < r.length ∧ r.length ≤ demoGeometry.PAGE_SIZE / 4)
      ∧ (∃ vals : List Nat, vals.length = 20 ∧
          rounds.flatten
            = (List.range 20).map fun k => Event.storeWord (u32 (4096 + 4 * k)) (vals.getD k 0))
      ∧ (∀ f : Nat → Nat, (memWords 8192) = (fun _ k => f k) →
          rounds.flatten = (List.range 20).map fun k => Event.storeWord (u32 (4096 + 4 * k)) (f k))
      ∧ (4096 + 4 * 20 ≤ 4294967296 → ∀ x, x < 4096 ∨ 4096 + 4 * 20 ≤ x → w'.mem x = demoMonitor.hw.mem x)
      ∧ (∀ src_addr, (memWords 8192) = memWords src_addr → src_addr + 4 * 20 ≤ 4294967296 →
          4096 + 4 * 20 ≤ 4294967296 → (src_addr + 4 * 20 ≤ 4096 ∨ 4096 + 4 * 20 ≤ src_addr) →
          ∀ k, k < 20 → read32 w'.mem (4096 + 4 * k) = read32 demoMonitor.hw.mem (src_addr + 4 * k))
      ∧ (20 = 0 → w' = demoMonitor.hw)) :=
  ⟨by decide, writetoflash_copies_in_page_rounds demoGeometry (by decide) (memWords 8192) 4096 20
    demoMonitor.hw⟩

/-! ### The checksum (C13) -/

/-- The checksum as a fold over the byte sequence, for a combining step with 16-bit results. -/
theorem calc_crc16_fold (b : Build) (hret : ∀ x crc, b.serial_add_crc x crc < 65536) (m : Mem)
    (data n : Nat) :
    sam_ba_calc_crc16 b m data n
      = ((List.range n).map fun k => read8 m (u32 (data + k))).foldl
          (fun crc x => b.serial_add_crc x crc) 0 := by
  unfold sam_ba_calc_crc16
  rw [List.foldl_map]
  congr 1
  funext crc k
  exact Nat.mod_eq_of_lt (hret _ _)

/-- C13: for a combining step `serial_add_crc` with 16-bit results (its C return type),
`sam_ba_calc_crc16` over the `n` bytes at `data` is the left fold of that step over the bytes
in increasing address order from seed 0: the empty range gives 0, one more byte `b` at the end
gives `serial_add_crc b` of the checksum so far, and two ranges holding the same byte sequence
have the same checksum. -/
theorem calc_crc16_is_left_fold (b : Build) (hret : ∀ x crc, b.serial_add_crc x crc < 65536)
    (m : Mem) (data n : Nat) :
    sam_ba_calc_crc16 b m data n
        = ((List.range n).map fun k => read8 m (u32 (data + k))).foldl
            (fun crc x => b.serial_add_crc x crc) 0
    ∧ sam_ba_calc_crc16 b m data 0 = 0
    ∧ sam_ba_calc_crc16 b m data (n + 1)
        = b.serial_add_crc (read8 m (u32 (data + n))) (sam_ba_calc_crc16 b m data n)
    ∧ (∀ (m2 : Mem) (data2 : Nat),
        ((List.range n).map fun k => read8 m2 (u32 (data2 + k)))
            = ((List.range n).map fun k => read8 m (u32 (data + k))) →
          sam_ba_calc_crc16 b m2 data2 n = sam_ba_calc_crc16 b m data n) := by
  refine ⟨calc_crc16_fold b hret m data n, rfl, ?_, ?_⟩
  · rw [calc_crc16_fold b hret, calc_crc16_fold b hret, List.range_succ, List.map_append,
      List.foldl_append]
    rfl
  · intro m2 data2 h
    rw [calc_crc16_fold b hret, calc_crc16_fold b hret, h]

/-- The checksum theorem applied to the sample step `crc, x -> (31 crc + x) mod 2^16` and the
three bytes at `0x1000`; evaluated, the checksum of the bytes 80, 81, 82 is 13937. -/
theorem calc_crc16_is_left_fold_witness :
    (∀ x crc, crcBuild.serial_add_crc x crc < 65536) ∧
    (sam_ba_calc_crc16 crcBuild demoMonitor.hw.mem 4096 3
        = ((List.range 3).map fun k => read8 demoMonitor.hw.mem (u32 (4096 + k))).foldl
            (fun crc x => crcBuild.serial_add_crc x crc) 0
    ∧ sam_ba_calc_crc16 crcBuild demoMonitor.hw.mem 4096 0 = 0
    ∧ sam_ba_calc_crc16 crcBuild demoMonitor.hw.mem 4096 (3 + 1)
        = crcBuild.serial_add_crc (read8 demoMonitor.hw.mem (u32 (4096 + 3)))
            (sam_ba_calc_crc16 crcBuild demoMonitor.hw.mem 4096 3)
    ∧ (∀ (m2 : Mem) (data2 : Nat),
        ((List.range 3).map fun k => read8 m2 (u32 (data2 + k)))
            = ((List.range 3).map fun k => read8 demoMonitor.hw.mem (u32 (4096 + k))) →
          sam_ba_calc_crc16 crcBuild m2 data2 3
            = sam_ba_calc_crc16 crcBuild demoMonitor.hw.mem 4096 3)) ∧
    ((List.range 3).map fun k => read8 demoMonitor.hw.mem (u32 (4096 + k))) = [80, 81, 82] ∧
    sam_ba_calc_crc16 crcBuild demoMonitor.hw.mem 4096 3 = 13937 :=
  ⟨fun x crc => Nat.mod_lt _ (by decide),
    calc_crc16_is_left_fold crcBuild (fun x crc => Nat.mod_lt _ (by decide)) demoMonitor.hw.mem
      4096 3,
    by decide, by decide⟩

/-! ### Hexadecimal formatting (C14, C15) -/

theorem hexDigitValue_hexDigit (d : Nat) (h : d < 16) : hexDigitValue (hexDigit d) = d := by
  interval_cases d <;> decide

theorem hexDigit_upper (d : Nat) (h : d < 16) : isUpperHex (hexDigit d) := by
  unfold isUpperHex
  interval_cases d <;> decide

theorem hexValue_snoc (cs : List Nat) (c : Nat) :
    hexValue (cs ++ [c]) = 16 * hexValue cs + hexDigitValue c := by
  simp [hexValue, List.foldl_append]

theorem hexBE_succ (n v : Nat) : hexBE (n + 1) v = hexBE n (v / 16) ++ [hexDigit (v % 16)] := by
  unfold hexBE
  rw [List.range_succ, List.map_append]
  congr 1
  · apply List.map_congr_left
    intro k hk
    have hk2 : k < n := List.mem_range.mp hk
    have e : n + 1 - 1 - k = (n - 1 - k) + 1 := by omega
    rw [e, pow_succ, Nat.mul_comm, Nat.div_div_eq_div_mul]
  · simp

/-- The `n` digits of `v` denote `v mod 16^n`. -/
theorem hexValue_hexBE (n : Nat) : ∀ v, hexValue (hexBE n v) = v % 16 ^ n := by
  induction n with
  | zero => intro v; simp [hexBE, hexValue, Nat.mod_one]
  | succ n ih =>
    intro v
    rw [hexBE_succ, hexValue_snoc, ih, hexDigitValue_hexDigit _ (Nat.mod_lt _ (by decide)),
      pow_succ, Nat.mul_comm (16 ^ n) 16, Nat.mod_mul]
    omega

theorem hexBE_length (n v : Nat) : (hexBE n v).length = n := by
  simp [hexBE]

theorem hexBE_upper (n v : Nat) : ∀ c ∈ hexBE n v, isUpperHex c := by
  intro c hc
  unfold hexBE at hc
  obtain ⟨k, _, rfl⟩ := List.mem_map.mp hc
  exact hexDigit_upper _ (Nat.mod_lt _ (by decide))

theorem termLoop_stores : ∀ (n int_value pos : Nat) (buf : List Nat),
    termLoop n int_value pos buf
      = (termLoopStores n int_value pos).foldl (fun b st => b.set st.1 st.2) buf := by
  intro n
  induction n with
  | zero => intro v pos buf; rfl
  | succ n ih => intro v pos buf; simp [termLoop, termLoopStores, ih]

/-- The formatter's buffer is the 12-byte array after the stores of `termStores`. -/
theorem termBuf_stores (data : List Nat) (length : Nat) :
    termBuf data length
      = (termStores data length).foldl (fun b st => b.set st.1 st.2) (List.replicate 12 0) := by
  simp [termBuf, termStores, termLoop_stores, List.foldl_append]

theorem termBuf_le32 (data : List Nat) : (termBuf data 4).take 12 = hexText 4 (le32 data) := by
  generalize hx : le32 data = x
  simp [termBuf, hx, termLoop, and15, shr4, termChar_eq, hexText, hexBE,
    List.range_succ, Nat.div_div_eq_div_mul]

theorem termBuf_le16 (data : List Nat) : (termBuf data 2).take 8 = hexText 2 (le16 data) := by
  generalize hx : le16 data = x
  simp [termBuf, hx, termLoop, and15, shr4, termChar_eq, hexText, hexBE,
    List.range_succ, Nat.div_div_eq_div_mul]

theorem termStores_lt (data : List Nat) (k : Nat) (hk : k = 1 ∨ k = 2 ∨ k = 4) :
    ∀ st ∈ termStores data k, st.1 < 12 := by
  rcases hk with rfl | rfl | rfl <;>
    simp [termStores, termLoopStores]

theorem le32_leBytes (v : Nat) (rest : List Nat) (hv : v < 4294967296) :
    le32 (leBytes 4 v ++ rest) = v := by
  simp [le32, leBytes, List.range_succ]
  omega

theorem le16_leBytes (v : Nat) (rest : List Nat) (hv : v < 65536) :
    le16 (leBytes 2 v ++ rest) = v := by
  simp [le16, leBytes, List.range_succ]
  omega

theorem take_leBytes (k v : Nat) (rest : List Nat) : (leBytes k v ++ rest).take k = leBytes k v := by
  apply List.take_left'
  simp [leBytes]

/-- C14: for every width `k` in {1, 2, 4} and every `k`-byte value `v` (given as its `k`
little-endian bytes at the start of the object passed), `sam_ba_putdata_term` in terminal mode
sends one block of exactly `2k + 4` bytes: `0x`, the `2k` characters of `v` in uppercase
hexadecimal (each in `0`-`9`, `A`-`F`), most significant first and denoting `v`, and the
two-byte line break; every store into its 12-byte buffer has an index below 12; in raw mode it
sends exactly the `k` bytes of the value. -/
theorem putdata_term_format (s : Monitor) (k v : Nat) (rest : List Nat)
    (hk : k = 1 ∨ k = 2 ∨ k = 4) (hv : v < 256 ^ k) :
    (s.b_terminal_mode = true →
      sam_ba_putdata_term s (leBytes k v ++ rest) k
        = sam_ba_putdata s ([48, 120] ++ hexBE (2 * k) v ++ lineBreak))
    ∧ ([48, 120] ++ hexBE (2 * k) v ++ lineBreak).length = 2 * k + 4
    ∧ (hexBE (2 * k) v).length = 2 * k
    ∧ (∀ c ∈ hexBE (2 * k) v, isUpperHex c)
    ∧ hexValue (hexBE (2 * k) v) = v
    ∧ lineBreak.length = 2
    ∧ termBuf (leBytes k v ++ rest) k
        = (termStores (leBytes k v ++ rest) k).foldl (fun b st => b.set st.1 st.2)
            (List.replicate 12 0)
    ∧ (∀ st ∈ termStores (leBytes k v ++ rest) k, st.1 < 12)
    ∧ (s.b_terminal_mode = false →
      sam_ba_putdata_term s (leBytes k v ++ rest) k = sam_ba_putdata s (leBytes k v)) := by
  have hval : hexValue (hexBE (2 * k) v) = v := by
    rw [hexValue_hexBE, Nat.mod_eq_of_lt]
    have e : 16 ^ (2 * k) = 256 ^ k := by rw [pow_mul]; rfl
    rw [e]; exact hv
  refine ⟨?_, ?_, hexBE_length _ _, hexBE_upper _ _, hval, rfl, termBuf_stores _ _,
    termStores_lt _ k hk, ?_⟩
  · intro ht
    unfold sam_ba_putdata_term
    rw [if_pos ht]
    congr 1
    rcases hk with rfl | rfl | rfl
    · have h1 := termBuf1 (leBytes 1 v ++ rest)
      have e : (leBytes 1 v ++ rest).getD 0 0 % 256 = v := by
        have hv1 : v < 256 := by simpa using hv
        simp [leBytes, List.range_succ]
        omega
      rw [e] at h1
      exact h1
    · have h2 := termBuf_le16 (leBytes 2 v ++ rest)
      rw [le16_leBytes v rest (by simpa using hv)] at h2
      exact h2
    · have h4 := termBuf_le32 (leBytes 4 v ++ rest)
      rw [le32_leBytes v rest (by simpa using hv)] at h4
      exact h4
  · simp [hexBE_length, lineBreak]
  · intro ht
    unfold sam_ba_putdata_term
    rw [if_neg (by simp [ht]), take_leBytes]

/-- The formatting theorem applied to the 2-byte value `0xBEEF`; evaluated, its terminal-mode
text is `0xBEEF` followed by line feed and carriage return. -/
theorem putdata_term_format_witness :
    ((2 = 1 ∨ 2 = 2 ∨ 2 = 4) ∧ 48879 < 256 ^ 2) ∧
    ((demoMonitor.b_terminal_mode = true →
      sam_ba_putdata_term demoMonitor (leBytes 2 48879 ++ [0, 0]) 2
        = sam_ba_putdata demoMonitor ([48, 120] ++ hexBE (2 * 2) 48879 ++ lineBreak))
    ∧ ([48, 120] ++ hexBE (2 * 2) 48879 ++ lineBreak).length = 2 * 2 + 4
    ∧ (hexBE (2 * 2) 48879).length = 2 * 2
    ∧ (∀ c ∈ hexBE (2 * 2) 48879, isUpperHex c)
    ∧ hexValue (hexBE (2 * 2) 48879) = 48879
    ∧ lineBreak.length = 2
    ∧ termBuf (leBytes 2 48879 ++ [0, 0]) 2
        = (termStores (leBytes 2 48879 ++ [0, 0]) 2).foldl (fun b st => b.set st.1 st.2)
            (List.replicate 12 0)
    ∧ (∀ st ∈ termStores (leBytes 2 48879 ++ [0, 0]) 2, st.1 < 12)
    ∧ (demoMonitor.b_terminal_mode = false →
      sam_ba_putdata_term demoMonitor (leBytes 2 48879 ++ [0, 0]) 2 = sam_ba_putdata demoMonitor (leBytes 2 48879))) ∧
    [48, 120] ++ hexBE (2 * 2) 48879 ++ lineBreak = [48, 120, 66, 69, 69, 70, 10, 13] :=
  ⟨⟨by decide, by decide⟩,
    putdata_term_format demoMonitor 2 48879 [0, 0] (by decide) (by decide), by decide⟩

theorem putChar_eq (x : Nat) :
    u8 (if x % 16 > 9 then 65 + x % 16 - 10 else 48 + x % 16) = hexDigit (x % 16) := by
  have h : x % 16 < 16 := Nat.mod_lt _ (by norm_num)
  generalize x % 16 = t at h
  interval_cases t <;> decide

/-- The routine `put_uint32` sends the eight uppercase hexadecimal digits of its argument. -/
theorem put_uint32_eq (s : Monitor) (n : Nat) :
    put_uint32 s n = sam_ba_putdata s (hexBE 8 n) := by
  simp [put_uint32, putLoop, and15, shr4, putChar_eq, hexBE, List.range_succ,
    Nat.div_div_eq_div_mul]

theorem calc_crc16_lt (b : Build) (m : Mem) (data n : Nat) :
    sam_ba_calc_crc16 b m data n < 65536 := by
  unfold sam_ba_calc_crc16
  cases n with
  | zero => simp
  | succ n =>
    rw [List.range_succ, List.foldl_append]
    exact Nat.mod_lt _ (by decide)

theorem hexBE8_of_u16 (crc : Nat) (h : crc < 65536) :
    hexBE 8 crc = [48, 48, 48, 48] ++ hexBE 4 crc := by
  have h7 : crc / 268435456 = 0 := Nat.div_eq_of_lt (by omega)
  have h6 : crc / 16777216 = 0 := Nat.div_eq_of_lt (by omega)
  have h5 : crc / 1048576 = 0 := Nat.div_eq_of_lt (by omega)
  have h4 : crc / 65536 = 0 := Nat.div_eq_of_lt (by omega)
  simp [hexBE, List.range_succ, h7, h6, h5, h4, hexDigit]

/-- C15: for every pointer `p` and operand `n`, the `Z` branch sends the byte `Z`, then the
eight uppercase hexadecimal digits, most significant first, of the 16-bit checksum of the `n`
bytes at `p` (the first four digits are `0`), then `#` and the line break, and succeeds; around
it the terminator adds the line break and the prompt of terminal mode only; `put_uint32` sends
for every argument exactly eight uppercase digits denoting its low 32 bits. Evaluated on the
sample build: the checksum 0xF3 of three bytes is answered `Z000000F3#` and the line break. -/
theorem Z_reply_format (b : Build) (g : Geometry) (data : List Nat) (s : Monitor) (p n : Nat) :
    (dispatch b g data { s with command := 90, ptr_data := p, current_number := n }
        = some (sam_ba_putdata (sam_ba_putdata (sam_ba_putdata
            { s with command := 90, ptr_data := p, current_number := n } [90])
            (hexBE 8 (sam_ba_calc_crc16 b s.hw.mem p n))) ([35] ++ lineBreak)))
    ∧ sam_ba_calc_crc16 b s.hw.mem p n < 65536
    ∧ hexBE 8 (sam_ba_calc_crc16 b s.hw.mem p n)
        = [48, 48, 48, 48] ++ hexBE 4 (sam_ba_calc_crc16 b s.hw.mem p n)
    ∧ hexValue (hexBE 8 (sam_ba_calc_crc16 b s.hw.mem p n)) = sam_ba_calc_crc16 b s.hw.mem p n
    ∧ (∃ r, terminator b g data { s with command := 90, ptr_data := p, current_number := n }
          = some r
        ∧ r.hw.trace = s.hw.trace
            ++ (if s.b_terminal_mode then [Event.putdata lineBreak] else [])
            ++ [Event.putdata [90], Event.putdata (hexBE 8 (sam_ba_calc_crc16 b s.hw.mem p n)),
                Event.putdata ([35] ++ lineBreak)]
            ++ (if s.b_terminal_mode then [Event.putdata [62]] else []))
    ∧ (∀ (t : Monitor) (x : Nat),
        put_uint32 t x = sam_ba_putdata t (hexBE 8 x)
        ∧ (hexBE 8 x).length = 8
        ∧ (∀ c ∈ hexBE 8 x, isUpperHex c)
        ∧ hexValue (hexBE 8 x) = x % 4294967296)
    ∧ (terminator demoBuild demoGeometry []
          { demoMonitor with command := 90, ptr_data := 4096, current_number := 3 }).map
        (fun r => output r.hw.trace)
        = some [90, 48, 48, 48, 48, 48, 48, 70, 51, 35, 10, 13] := by
  have hlt := calc_crc16_lt b s.hw.mem p n
  refine ⟨?_, hlt, hexBE8_of_u16 _ hlt, ?_, ?_, ?_, by decide⟩
  · simp [dispatch, cmdZ, put_uint32_eq, sam_ba_putdata, World.log, lineBreak]
  · rw [hexValue_hexBE]
    exact Nat.mod_eq_of_lt (by omega)
  · cases h : s.b_terminal_mode <;>
      simp [terminator, dispatch, cmdZ, put_uint32_eq, sam_ba_putdata, World.log, lineBreak, h]
  · intro t x
    exact ⟨put_uint32_eq t x, hexBE_length _ _, hexBE_upper _ _, hexValue_hexBE 8 x⟩

/-! ### Operands and command units (C16, C17, C18) -/

theorem shl4_or (n d : Nat) (h : d < 16) : (n <<< 4) ||| d = 16 * n + d := by
  have e : n <<< 4 = 2 ^ 4 * n := by rw [Nat.shiftLeft_eq, Nat.mul_comm]
  rw [e, ← Nat.mul_add_lt_is_or (by simpa using h)]

theorem hexDigitValue_lt (c : Nat) : hexDigitValue c < 16 := by
  unfold hexDigitValue
  split_ifs <;> omega

/-- A hexadecimal digit byte shifts the operand by one digit and changes nothing else. -/
theorem accumulate_hex (c : Nat) (s : Monitor) (h : isHexByte c) :
    accumulate c s = { s with current_number := u32 (16 * s.current_number + hexDigitValue c) } := by
  unfold isHexByte at h
  unfold accumulate hexDigitValue
  rcases h with h | h | h
  · rw [if_pos h, if_pos h, shl4_or _ _ (by omega)]
  · rw [if_neg (by omega), if_pos h, if_neg (by omega), if_pos h, shl4_or _ _ (by omega)]
    congr 3
    omega
  · rw [if_neg (by omega), if_neg (by omega), if_pos h, if_neg (by omega), if_neg (by omega),
      if_pos h, shl4_or _ _ (by omega)]
    congr 3
    omega

theorem accumulate_comma (s : Monitor) :
    accumulate 44 s = { s with ptr_data := s.current_number, current_number := 0 } := by
  simp [accumulate]

theorem accumulate_command (c : Nat) (s : Monitor) (h : isCommandByte c) :
    accumulate c s = { s with command := c, current_number := 0 } := by
  obtain ⟨_, _, _, h44, hx⟩ := h
  unfold isHexByte at hx
  unfold accumulate
  rw [if_neg (by omega), if_neg (by omega), if_neg (by omega), if_neg h44]

theorem stepLoop_frame (c : Nat) (s : Monitor) :
    (stepLoop c s).length = s.length ∧ (stepLoop c s).i = u32 (s.i + 1)
      ∧ (stepLoop c s).ptr = s.ptr.add 1 ∧ (stepLoop c s).hw = s.hw
      ∧ (stepLoop c s).b_terminal_mode = s.b_terminal_mode
      ∧ (stepLoop c s).rx = s.rx := by
  unfold stepLoop accumulate
  dsimp only
  split_ifs <;> simp

/-- The `for` loop over a stretch of bytes without `#` is the iteration of `stepLoop`. -/
theorem forLoop_feedLoop (b : Build) (g : Geometry) (data : List Nat) :
    ∀ (cs : List Nat) (fuel k : Nat) (s : Monitor),
      s.ptr = Ptr.data k → s.i + cs.length ≤ s.length → s.length < 4294967296 →
      (∀ j, j < cs.length → data.getD (k + j) 0 = cs.getD j 0) →
      (∀ c ∈ cs, c % 256 ≠ 35) →
      forLoop b g data (fuel + cs.length) s = forLoop b g data fuel (feedLoop cs s) := by
  intro cs
  induction cs with
  | nil => intro fuel k s _ _ _ _ _; rfl
  | cons c cs ih =>
    intro fuel k s hptr hi hL hdata hne
    have hlen : (c :: cs).length = cs.length + 1 := rfl
    rw [hlen] at hi
    have h0 : data.getD k 0 = c := by simpa using hdata 0 (by simp)
    have hc : c % 256 ≠ 35 := hne c (by simp)
    have hf := stepLoop_frame c s
    have hstep : body b g data s = some (if c % 256 = 255 then s else accumulate (c % 256) s) := by
      unfold body
      simp only [hptr, deref, h0]
      by_cases h255 : c % 256 = 255
      · simp [h255]
      · simp [h255, hc]
    rw [hlen, ← Nat.add_assoc, forLoop, if_pos (by omega), hstep]
    show forLoop b g data (fuel + cs.length) (stepLoop c s) = _
    rw [ih fuel (k + 1) (stepLoop c s)]
    · rfl
    · rw [hf.2.2.1, hptr]; rfl
    · rw [hf.1, hf.2.1]
      have : u32 (s.i + 1) = s.i + 1 := Nat.mod_eq_of_lt (by omega)
      omega
    · rw [hf.1]; exact hL
    · intro j hj
      have := hdata (j + 1) (by simp; omega)
      rw [List.getD_cons_succ] at this
      rw [← this]
      congr 1
      omega
    · intro c' hc'
      exact hne c' (List.mem_cons_of_mem _ hc')

theorem feedLoop_snoc (cs : List Nat) (c : Nat) (s : Monitor) :
    feedLoop (cs ++ [c]) s = stepLoop c (feedLoop cs s) := by
  simp [feedLoop, List.foldl_append]

theorem feedLoop_append (as bs : List Nat) (s : Monitor) :
    feedLoop (as ++ bs) s = feedLoop bs (feedLoop as s) := by
  simp [feedLoop, List.foldl_append]

/-- Bytes other than `#` send nothing and leave the mode, the buffer length and the pending
stream alone; the loop index advances by their number. -/
theorem feedLoop_frame (cs : List Nat) : ∀ (s : Monitor), s.i + cs.length < 4294967296 →
    (feedLoop cs s).hw = s.hw ∧ (feedLoop cs s).b_terminal_mode = s.b_terminal_mode
      ∧ (feedLoop cs s).rx = s.rx ∧ (feedLoop cs s).length = s.length
      ∧ (feedLoop cs s).i = s.i + cs.length := by
  induction cs with
  | nil => intro s _; simp [feedLoop]
  | cons c cs ih =>
    intro s h
    have hf := stepLoop_frame c s
    have hlen : (c :: cs).length = cs.length + 1 := rfl
    rw [hlen] at h
    have hi : u32 (s.i + 1) = s.i + 1 := Nat.mod_eq_of_lt (by omega)
    have := ih (stepLoop c s) (by rw [hf.2.1, hi]; omega)
    show (feedLoop cs (stepLoop c s)).hw = _ ∧ (feedLoop cs (stepLoop c s)).b_terminal_mode = _
      ∧ (feedLoop cs (stepLoop c s)).rx = _ ∧ (feedLoop cs (stepLoop c s)).length = _
      ∧ (feedLoop cs (stepLoop c s)).i = _
    rw [this.1, this.2.1, this.2.2.1, this.2.2.2.1, this.2.2.2.2, hf.1, hf.2.1, hf.2.2.2.1,
      hf.2.2.2.2.1, hf.2.2.2.2.2, hi, hlen]
    exact ⟨rfl, rfl, rfl, rfl, by omega⟩

theorem stepLoop_hex (c : Nat) (s : Monitor) (h : isHexByte c) :
    (stepLoop c s).current_number = u32 (16 * s.current_number + hexDigitValue c)
      ∧ (stepLoop c s).command = s.command ∧ (stepLoop c s).ptr_data = s.ptr_data := by
  have hc : c % 256 = c := Nat.mod_eq_of_lt (by unfold isHexByte at h; omega)
  have h255 : c ≠ 255 := by unfold isHexByte at h; omega
  unfold stepLoop
  rw [hc, if_neg h255, accumulate_hex c s h]
  exact ⟨rfl, rfl, rfl⟩

theorem stepLoop_comma (s : Monitor) :
    (stepLoop 44 s).current_number = 0 ∧ (stepLoop 44 s).command = s.command
      ∧ (stepLoop 44 s).ptr_data = s.current_number := by
  simp [stepLoop, accumulate]

theorem stepLoop_command (c : Nat) (s : Monitor) (h : isCommandByte c) :
    (stepLoop c s).current_number = 0 ∧ (stepLoop c s).command = c
      ∧ (stepLoop c s).ptr_data = s.ptr_data := by
  have hc : c % 256 = c := Nat.mod_eq_of_lt h.1
  unfold stepLoop
  rw [hc, if_neg h.2.1, accumulate_command c s h]
  exact ⟨rfl, rfl, rfl⟩

/-- A string of digits shifts the operand by as many digits and appends the number it
denotes. -/
theorem feedLoop_digits (ds : List Nat) : ∀ (s : Monitor), s.current_number < 4294967296 →
    (∀ c ∈ ds, isHexByte c) →
    (feedLoop ds s).current_number = u32 (s.current_number * 16 ^ ds.length + hexValue ds)
      ∧ (feedLoop ds s).command = s.command ∧ (feedLoop ds s).ptr_data = s.ptr_data := by
  induction ds using List.reverseRecOn with
  | nil =>
    intro s hs _
    simp [feedLoop, hexValue]
    exact (Nat.mod_eq_of_lt hs).symm
  | append_singleton ds d ih =>
    intro s hs h
    obtain ⟨h1, h2, h3⟩ := ih s hs (fun c hc => h c (List.mem_append_left _ hc))
    obtain ⟨k1, k2, k3⟩ := stepLoop_hex d (feedLoop ds s) (h d (by simp))
    rw [feedLoop_snoc, k1, k2, k3, h1, h2, h3, hexValue_snoc, List.length_append,
      List.length_singleton, pow_succ]
    refine ⟨?_, rfl, rfl⟩
    have e : s.current_number * (16 ^ ds.length * 16) = 16 * (s.current_number * 16 ^ ds.length) := by
      ring
    rw [e]
    generalize s.current_number * 16 ^ ds.length = t
    unfold u32
    omega

theorem hexValue_lt (cs : List Nat) : hexValue cs < 16 ^ cs.length := by
  induction cs using List.reverseRecOn with
  | nil => simp [hexValue]
  | append_singleton cs c ih =>
    rw [hexValue_snoc, List.length_append, List.length_singleton, pow_succ]
    have := hexDigitValue_lt c
    omega

theorem hexValue_append (as bs : List Nat) :
    hexValue (as ++ bs) = hexValue as * 16 ^ bs.length + hexValue bs := by
  induction bs using List.reverseRecOn with
  | nil => simp [hexValue]
  | append_singleton bs c ih =>
    rw [← List.append_assoc, hexValue_snoc, hexValue_snoc, ih, List.length_append,
      List.length_singleton, pow_succ]
    ring

/-- Up to eight digits are taken as they stand; of more than eight, the last eight count. -/
theorem u32_hexValue (ds : List Nat) :
    (ds.length ≤ 8 → u32 (hexValue ds) = hexValue ds)
    ∧ (8 ≤ ds.length → u32 (hexValue ds) = hexValue (ds.drop (ds.length - 8))) := by
  constructor
  · intro h
    have h1 := hexValue_lt ds
    have h2 : 16 ^ ds.length ≤ 16 ^ 8 := Nat.pow_le_pow_right (by decide) h
    exact Nat.mod_eq_of_lt (by omega)
  · intro h
    have hl : (ds.drop (ds.length - 8)).length = 8 := by rw [List.length_drop]; omega
    have h1 := hexValue_lt (ds.drop (ds.length - 8))
    rw [hl] at h1
    conv_lhs => rw [← List.take_append_drop (ds.length - 8) ds]
    rw [hexValue_append, hl]
    unfold u32
    have e : (16 : Nat) ^ 8 = 4294967296 := by norm_num
    rw [e] at h1 ⊢
    rw [Nat.mul_add_mod_of_lt h1] 

theorem forLoop_done (b : Build) (g : Geometry) (data : List Nat) (fuel : Nat) (s : Monitor)
    (h : ¬ s.i < s.length) : forLoop b g data fuel s = some s := by
  cases fuel <;> simp [forLoop, h]

/-- A received buffer without `#` is consumed by the passes of `stepLoop`. -/
theorem monitor_loop_plain (b : Build) (g : Geometry) (data : List Nat) (fuel : Nat)
    (s : Monitor) (hlen : data.length < 4294967296) (hne : ∀ c ∈ data, c % 256 ≠ 35) :
    sam_ba_monitor_loop b g (fuel + data.length) data s
      = some (decide (data.length ≠ 0),
          feedLoop data { s with length := data.length, ptr := Ptr.data 0, i := 0 }) := by
  unfold sam_ba_monitor_loop
  rw [forLoop_feedLoop b g data data fuel 0 _ rfl (by simp) hlen (by simp) hne,
    forLoop_done]
  · rfl
  · have := feedLoop_frame data { s with length := data.length, ptr := Ptr.data 0, i := 0 }
      (by simpa using hlen)
    rw [this.2.2.2.1, this.2.2.2.2]
    simp

/-- C16: for every state with operand `n` and every hexadecimal digit byte `c` of value `d`
(`0`-`9`, `A`-`F`, `a`-`f`, both cases of a letter giving the same value), the loop body on `c`
sets the operand to `(16 n + d) mod 2^32` and changes nothing else: not the pending command,
the pointer or the mode, and nothing is sent; hence a buffer made of a command letter `L` and
digits `ds` leaves the command `L` pending with operand `hexValue ds mod 2^32`, which is the
number denoted by `ds` when there are at most 8 digits, and the number denoted by the last 8
when there are more. -/
theorem operand_accumulation (b : Build) (g : Geometry) (data : List Nat) (s : Monitor)
    (c : Nat) (hc : isHexByte c) :
    (deref b data s.ptr = c →
      body b g data s = some
        { s with current_number := (16 * s.current_number + hexDigitValue c) % 4294967296 })
    ∧ hexDigitValue c < 16
    ∧ (48 ≤ c ∧ c ≤ 57 → hexDigitValue c = c - 48)
    ∧ (65 ≤ c ∧ c ≤ 70 → hexDigitValue c = c - 65 + 10 ∧ hexDigitValue (c + 32) = hexDigitValue c)
    ∧ (97 ≤ c ∧ c ≤ 102 → hexDigitValue c = c - 97 + 10)
    ∧ (∀ (L : Nat) (ds : List Nat) (fuel : Nat), isCommandByte L → (∀ d ∈ ds, isHexByte d) →
        ds.length + 1 < 4294967296 →
        ∃ r, sam_ba_monitor_loop b g (fuel + (ds.length + 1)) (L :: ds) s = some (true, r)
          ∧ r.command = L ∧ r.current_number = hexValue ds % 4294967296
          ∧ r.ptr_data = s.ptr_data ∧ r.hw = s.hw ∧ r.b_terminal_mode = s.b_terminal_mode
          ∧ (ds.length ≤ 8 → r.current_number = hexValue ds)
          ∧ (8 ≤ ds.length → r.current_number = hexValue (ds.drop (ds.length - 8)))) := by
  refine ⟨?_, hexDigitValue_lt c, ?_, ?_, ?_, ?_⟩
  · intro hd
    have h255 : c ≠ 255 := by unfold isHexByte at hc; omega
    have h35 : c ≠ 35 := by unfold isHexByte at hc; omega
    unfold body
    simp only [hd, if_neg h255, if_neg h35, accumulate_hex c s hc]
    rfl
  · intro h; simp [hexDigitValue, h]
  · intro h
    unfold hexDigitValue
    rw [if_neg (by omega), if_pos h, if_neg (by omega), if_neg (by omega), if_pos (by omega)]
    omega
  · intro h
    unfold hexDigitValue
    rw [if_neg (by omega), if_neg (by omega), if_pos h]
    omega
  · intro L ds fuel hL hds hlen
    have hne : ∀ x ∈ L :: ds, x % 256 ≠ 35 := by
      intro x hx
      rcases List.mem_cons.mp hx with rfl | h
      · have := hL.1; have := hL.2.2.1
        rw [Nat.mod_eq_of_lt hL.1]; exact hL.2.2.1
      · have := hds x h
        unfold isHexByte at this
        omega
    have hloop := monitor_loop_plain b g (L :: ds) fuel s (by simpa using hlen) hne
    rw [List.length_cons] at hloop
    generalize hs0 : ({ s with length := ds.length + 1, ptr := Ptr.data 0, i := 0 } : Monitor)
      = s0 at hloop
    have hfr := stepLoop_frame L s0
    obtain ⟨c1, c2, c3⟩ := stepLoop_command L s0 hL
    obtain ⟨d1, d2, d3⟩ := feedLoop_digits ds (stepLoop L s0) (by rw [c1]; decide) hds
    have hi : u32 (s0.i + 1) = 1 := by rw [← hs0]; rfl
    obtain ⟨f1, f2, _, _, _⟩ := feedLoop_frame ds (stepLoop L s0) (by rw [hfr.2.1, hi]; omega)
    have hcn : (feedLoop (L :: ds) s0).current_number = u32 (hexValue ds) := by
      show (feedLoop ds (stepLoop L s0)).current_number = _
      rw [d1, c1]; simp
    refine ⟨feedLoop (L :: ds) s0, ?_, ?_, hcn, ?_, ?_, ?_, ?_, ?_⟩
    · rw [hloop]; simp
    · show (feedLoop ds (stepLoop L s0)).command = L
      rw [d2, c2]
    · show (feedLoop ds (stepLoop L s0)).ptr_data = _
      rw [d3, c3, ← hs0]
    · show (feedLoop ds (stepLoop L s0)).hw = _
      rw [f1, hfr.2.2.2.1, ← hs0]
    · show (feedLoop ds (stepLoop L s0)).b_terminal_mode = _
      rw [f2, hfr.2.2.2.2.1, ← hs0]
    · intro h8
      rw [hcn]; exact (u32_hexValue ds).1 h8
    · intro h8
      rw [hcn]; exact (u32_hexValue ds).2 h8

/-- The accumulation theorem applied to the digit `a`; evaluated, `W` followed by the nine
digits `123456789` leaves the operand `0x23456789`. -/
theorem operand_accumulation_witness :
    isHexByte 97 ∧
    ((deref demoBuild [97] demoMonitor.ptr = 97 →
      body demoBuild demoGeometry [97] demoMonitor = some
        { demoMonitor with current_number := (16 * demoMonitor.current_number + hexDigitValue 97) % 4294967296 })
    ∧ hexDigitValue 97 < 16
    ∧ (48 ≤ 97 ∧ 97 ≤ 57 → hexDigitValue 97 = 97 - 48)
    ∧ (65 ≤ 97 ∧ 97 ≤ 70 → hexDigitValue 97 = 97 - 65 + 10 ∧ hexDigitValue (97 + 32) = hexDigitValue 97)
    ∧ (97 ≤ 97 ∧ 97 ≤ 102 → hexDigitValue 97 = 97 - 97 + 10)
    ∧ (∀ (L : Nat) (ds : List Nat) (fuel : Nat), isCommandByte L → (∀ d ∈ ds, isHexByte d) →
        ds.length + 1 < 4294967296 →
        ∃ r, sam_ba_monitor_loop demoBuild demoGeometry (fuel + (ds.length + 1)) (L :: ds) demoMonitor = some (true, r)
          ∧ r.command = L ∧ r.current_number = hexValue ds % 4294967296
          ∧ r.ptr_data = demoMonitor.ptr_data ∧ r.hw = demoMonitor.hw ∧ r.b_terminal_mode = demoMonitor.b_terminal_mode
          ∧ (ds.length ≤ 8 → r.current_number = hexValue ds)
          ∧ (8 ≤ ds.length → r.current_number = hexValue (ds.drop (ds.length - 8))))) ∧
    (sam_ba_monitor_loop demoBuild demoGeometry 16 [87, 49, 50, 51, 52, 53, 54, 55, 56, 57]
        demoMonitor).map (fun r => (r.2.command, r.2.current_number)) = some (87, 591751049) :=
  ⟨by decide, operand_accumulation demoBuild demoGeometry [97] demoMonitor 97 (by decide),
    by decide⟩

/-! #### The dispatch, branch by branch -/

theorem dispatch_S (b : Build) (g : Geometry) (data : List Nat) (s : Monitor)
    (h : s.command = 83) :
    dispatch b g data s
      = some (cmdS b data s) := by
  unfold dispatch
  rw [if_pos h]

theorem dispatch_R (b : Build) (g : Geometry) (data : List Nat) (s : Monitor)
    (h : s.command = 82) :
    dispatch b g data s
      = some { s with hw := s.hw.log (Event.putdata_xmd (readBytes s.hw.mem s.ptr_data s.current_number)) } := by
  unfold dispatch
  repeat rw [if_neg (by omega)]
  rw [if_pos h]

theorem dispatch_O (b : Build) (g : Geometry) (data : List Nat) (s : Monitor)
    (h : s.command = 79) :
    dispatch b g data s
      = some { s with hw := { s.hw with mem := write8 s.hw.mem s.ptr_data s.current_number } } := by
  unfold dispatch
  repeat rw [if_neg (by omega)]
  rw [if_pos h]

theorem dispatch_H (b : Build) (g : Geometry) (data : List Nat) (s : Monitor)
    (h : s.command = 72) :
    dispatch b g data s
      = some { s with hw := { s.hw with mem := write16 s.hw.mem s.ptr_data s.current_number } } := by
  unfold dispatch
  repeat rw [if_neg (by omega)]
  rw [if_pos h]

theorem dispatch_W (b : Build) (g : Geometry) (data : List Nat) (s : Monitor)
    (h : s.command = 87) :
    dispatch b g data s
      = some { s with hw := { s.hw with mem := write32 s.hw.mem s.ptr_data s.current_number } } := by
  unfold dispatch
  repeat rw [if_neg (by omega)]
  rw [if_pos h]

theorem dispatch_o_read (b : Build) (g : Geometry) (data : List Nat) (s : Monitor)
    (h : s.command = 111) :
    dispatch b g data s
      = some (sam_ba_putdata_term s (readBytes s.hw.mem s.ptr_data 1) 1) := by
  unfold dispatch
  repeat rw [if_neg (by omega)]
  rw [if_pos h]

theorem dispatch_h_read (b : Build) (g : Geometry) (data : List Nat) (s : Monitor)
    (h : s.command = 104) :
    dispatch b g data s
      = some (sam_ba_putdata_term { s with current_number := read16 s.hw.mem s.ptr_data }
        (bytes32 (read16 s.hw.mem s.ptr_data)) 2) := by
  unfold dispatch
  repeat rw [if_neg (by omega)]
  rw [if_pos h]

theorem dispatch_w_read (b : Build) (g : Geometry) (data : List Nat) (s : Monitor)
    (h : s.command = 119) :
    dispatch b g data s
      = some (sam_ba_putdata_term { s with current_number := read32 s.hw.mem s.ptr_data }
        (bytes32 (read32 s.hw.mem s.ptr_data)) 4) := by
  unfold dispatch
  repeat rw [if_neg (by omega)]
  rw [if_pos h]

theorem dispatch_G (b : Build) (g : Geometry) (data : List Nat) (s : Monitor)
    (h : s.command = 71) :
    dispatch b g data s
      = some (if (call_applet s s.current_number).b_sam_ba_interface_usart
        then { call_applet s s.current_number with
          hw := (call_applet s s.current_number).hw.log (Event.put_c 6) }
        else call_applet s s.current_number) := by
  unfold dispatch
  repeat rw [if_neg (by omega)]
  rw [if_pos h]

theorem dispatch_T (b : Build) (g : Geometry) (data : List Nat) (s : Monitor)
    (h : s.command = 84) :
    dispatch b g data s
      = some (sam_ba_putdata { s with b_terminal_mode := true } lineBreak) := by
  unfold dispatch
  repeat rw [if_neg (by omega)]
  rw [if_pos h]

theorem dispatch_N (b : Build) (g : Geometry) (data : List Nat) (s : Monitor)
    (h : s.command = 78) :
    dispatch b g data s
      = some { (if s.b_terminal_mode = false then sam_ba_putdata s lineBreak else s) with
        b_terminal_mode := false } := by
  unfold dispatch
  repeat rw [if_neg (by omega)]
  rw [if_pos h]

theorem dispatch_V (b : Build) (g : Geometry) (data : List Nat) (s : Monitor)
    (h : s.command = 86) :
    dispatch b g data s
      = some (cmdV b s) := by
  unfold dispatch
  repeat rw [if_neg (by omega)]
  rw [if_pos h]

theorem dispatch_X (b : Build) (g : Geometry) (data : List Nat) (s : Monitor)
    (h : s.command = 88) :
    dispatch b g data s
      = (sam_ba_eraseflash g s.current_number s.hw).map fun w =>
        sam_ba_putdata { s with hw := w } [88, 10, 13] := by
  unfold dispatch
  repeat rw [if_neg (by omega)]
  rw [if_pos h]

theorem dispatch_Y (b : Build) (g : Geometry) (data : List Nat) (s : Monitor)
    (h : s.command = 89) :
    dispatch b g data s
      = cmdY g s := by
  unfold dispatch
  repeat rw [if_neg (by omega)]
  rw [if_pos h]

theorem dispatch_Z (b : Build) (g : Geometry) (data : List Nat) (s : Monitor)
    (h : s.command = 90) :
    dispatch b g data s
      = some (cmdZ b s) := by
  unfold dispatch
  repeat rw [if_neg (by omega)]
  rw [if_pos h]

/-- A pending command that is none of the fifteen letters falls through the whole chain. -/
theorem dispatch_other (b : Build) (g : Geometry) (data : List Nat) (s : Monitor)
    (h : s.command ∉ [79, 72, 87, 111, 104, 119, 83, 82, 71, 84, 78, 86, 88, 89, 90]) :
    dispatch b g data s = some s := by
  simp only [List.mem_cons, List.mem_singleton, List.not_mem_nil, or_false, not_or] at h
  unfold dispatch
  repeat rw [if_neg (by omega)]

theorem putdata_term_ptr_data (s : Monitor) (d : List Nat) (l : Nat) :
    (sam_ba_putdata_term s d l).ptr_data = s.ptr_data := by
  unfold sam_ba_putdata_term sam_ba_putdata
  split_ifs <;> rfl

theorem cmdS_ptr_data (b : Build) (data : List Nat) (s : Monitor) :
    (cmdS b data s).ptr_data = s.ptr_data := by
  unfold cmdS
  dsimp only
  split_ifs <;> rfl

theorem cmdV_ptr_data (b : Build) (s : Monitor) : (cmdV b s).ptr_data = s.ptr_data := by
  simp only [cmdV, sam_ba_putdata]

theorem cmdZ_ptr_data (b : Build) (s : Monitor) : (cmdZ b s).ptr_data = s.ptr_data := by
  simp only [cmdZ, sam_ba_putdata, put_uint32]

theorem cmdY_ptr_data (g : Geometry) (s r : Monitor) (h : cmdY g s = some r) :
    r.ptr_data = s.ptr_data := by
  unfold cmdY at h
  dsimp only at h
  split_ifs at h
  · rw [← Option.some.inj h]; rfl
  · cases hw : sam_ba_writetoflash g (memWords s.src_buff_addr) s.ptr_data
        (s.current_number / 4) s.hw with
    | none => rw [hw] at h; exact Option.noConfusion h
    | some w => rw [hw] at h; rw [← Option.some.inj h]; rfl

/-- No branch of the dispatch assigns the target pointer. -/
theorem dispatch_ptr_data (b : Build) (g : Geometry) (data : List Nat) (s r : Monitor)
    (h : dispatch b g data s = some r) : r.ptr_data = s.ptr_data := by
  by_cases hm : s.command ∈ [79, 72, 87, 111, 104, 119, 83, 82, 71, 84, 78, 86, 88, 89, 90]
  · simp only [List.mem_cons, List.mem_singleton, List.not_mem_nil, or_false] at hm
    rcases hm with c | c | c | c | c | c | c | c | c | c | c | c | c | c | c
    · rw [dispatch_O b g data s c] at h; rw [← Option.some.inj h]
    · rw [dispatch_H b g data s c] at h; rw [← Option.some.inj h]
    · rw [dispatch_W b g data s c] at h; rw [← Option.some.inj h]
    · rw [dispatch_o_read b g data s c] at h
      rw [← Option.some.inj h, putdata_term_ptr_data]
    · rw [dispatch_h_read b g data s c] at h
      rw [← Option.some.inj h, putdata_term_ptr_data]
    · rw [dispatch_w_read b g data s c] at h
      rw [← Option.some.inj h, putdata_term_ptr_data]
    · rw [dispatch_S b g data s c] at h
      rw [← Option.some.inj h, cmdS_ptr_data]
    · rw [dispatch_R b g data s c] at h; rw [← Option.some.inj h]
    · rw [dispatch_G b g data s c] at h; rw [← Option.some.inj h]
      split_ifs <;> rfl
    · rw [dispatch_T b g data s c] at h; rw [← Option.some.inj h]; rfl
    · rw [dispatch_N b g data s c] at h; rw [← Option.some.inj h]
      split_ifs <;> rfl
    · rw [dispatch_V b g data s c] at h
      rw [← Option.some.inj h, cmdV_ptr_data]
    · rw [dispatch_X b g data s c] at h
      cases he : sam_ba_eraseflash g s.current_number s.hw with
      | none => rw [he] at h; exact Option.noConfusion h
      | some w => rw [he] at h; rw [← Option.some.inj h]; rfl
    · rw [dispatch_Y b g data s c] at h
      exact cmdY_ptr_data g s r h
    · rw [dispatch_Z b g data s c] at h
      rw [← Option.some.inj h, cmdZ_ptr_data]
  · rw [dispatch_other b g data s hm] at h; rw [← Option.some.inj h]

/-- On a geometry with at least one word per page and no address wrap-around, every branch of
the dispatch returns. -/
theorem dispatch_total (b : Build) (g : Geometry) (data : List Nat) (s : Monitor)
    (hps : 4 ≤ g.PAGE_SIZE) (hmax : g.MAX_FLASH + g.PAGE_SIZE * 4 ≤ 4294967296) :
    ∃ r, dispatch b g data s = some r := by
  by_cases hm : s.command ∈ [79, 72, 87, 111, 104, 119, 83, 82, 71, 84, 78, 86, 88, 89, 90]
  · simp only [List.mem_cons, List.mem_singleton, List.not_mem_nil, or_false] at hm
    rcases hm with c | c | c | c | c | c | c | c | c | c | c | c | c | c | c
    · exact ⟨_, dispatch_O b g data s c⟩
    · exact ⟨_, dispatch_H b g data s c⟩
    · exact ⟨_, dispatch_W b g data s c⟩
    · exact ⟨_, dispatch_o_read b g data s c⟩
    · exact ⟨_, dispatch_h_read b g data s c⟩
    · exact ⟨_, dispatch_w_read b g data s c⟩
    · exact ⟨_, dispatch_S b g data s c⟩
    · exact ⟨_, dispatch_R b g data s c⟩
    · exact ⟨_, dispatch_G b g data s c⟩
    · exact ⟨_, dispatch_T b g data s c⟩
    · exact ⟨_, dispatch_N b g data s c⟩
    · exact ⟨_, dispatch_V b g data s c⟩
    · rw [dispatch_X b g data s c, sam_ba_eraseflash_eq g (by omega) hmax]
      exact ⟨_, rfl⟩
    · rw [dispatch_Y b g data s c]
      unfold cmdY
      dsimp only
      split_ifs
      · exact ⟨_, rfl⟩
      · obtain ⟨w, hw⟩ := sam_ba_writetoflash_terminates g (memWords s.src_buff_addr)
          (Nat.div_pos hps (by decide)) s.ptr_data (s.current_number / 4) s.hw
        rw [hw]
        exact ⟨_, rfl⟩
    · exact ⟨_, dispatch_Z b g data s c⟩
  · exact ⟨_, dispatch_other b g data s hm⟩

/-- C17: on a geometry on which the flash commands return, processing `#` in any state
returns with the no-op command `z` pending and the operand 0, and leaves the target pointer as
it was; among all bytes only `,` changes the pointer, setting it to the operand and the operand
to 0; and when the pending command is none of the fifteen letters (the no-op left by a
previous `#` included), `#` in raw mode changes nothing but these two fields: nothing is sent,
no memory is changed, no error is reported, so a second `#` in a row changes nothing at all. -/
theorem terminator_resets_and_ignores_unknown (b : Build) (g : Geometry) (data : List Nat)
    (s : Monitor) (hps : 4 ≤ g.PAGE_SIZE) (hmax : g.MAX_FLASH + g.PAGE_SIZE * 4 ≤ 4294967296) :
    (∃ r, terminator b g data s = some r ∧ r.command = 122 ∧ r.current_number = 0
        ∧ r.ptr_data = s.ptr_data ∧ (deref b data s.ptr = 35 → body b g data s = some r)
        ∧ (r.b_terminal_mode = false → terminator b g data r = some r))
    ∧ (∀ r, body b g data s = some r →
        (deref b data s.ptr = 44 → r.ptr_data = s.current_number ∧ r.current_number = 0)
        ∧ (deref b data s.ptr ≠ 44 → r.ptr_data = s.ptr_data))
    ∧ (s.command ∉ [79, 72, 87, 111, 104, 119, 83, 82, 71, 84, 78, 86, 88, 89, 90] →
        s.b_terminal_mode = false →
        terminator b g data s = some { s with command := 122, current_number := 0 }) := by
  have hterm : ∀ t : Monitor, ∃ r, terminator b g data t = some r ∧ r.command = 122
      ∧ r.current_number = 0 ∧ r.ptr_data = t.ptr_data := by
    intro t
    unfold terminator
    dsimp only
    obtain ⟨r, hr⟩ := dispatch_total b g data
      (if t.b_terminal_mode then sam_ba_putdata t lineBreak else t) hps hmax
    have hp := dispatch_ptr_data b g data _ r hr
    have e : (if t.b_terminal_mode then sam_ba_putdata t lineBreak else t).ptr_data
        = t.ptr_data := by split_ifs <;> rfl
    rw [e] at hp
    rw [hr, Option.map_some']
    refine ⟨_, rfl, ?_, ?_, ?_⟩
    · split_ifs <;> rfl
    · split_ifs <;> rfl
    · rw [← hp]
      split_ifs <;> rfl
  have hother : ∀ t : Monitor,
      t.command ∉ [79, 72, 87, 111, 104, 119, 83, 82, 71, 84, 78, 86, 88, 89, 90] →
      t.b_terminal_mode = false →
      terminator b g data t = some { t with command := 122, current_number := 0 } := by
    intro t hc hm
    unfold terminator
    simp only [hm, Bool.false_eq_true, if_false]
    rw [dispatch_other b g data t hc]
    simp [hm]
  refine ⟨?_, ?_, hother s⟩
  · obtain ⟨r, h1, h2, h3, h4⟩ := hterm s
    refine ⟨r, h1, h2, h3, h4, ?_, ?_⟩
    · intro hd
      unfold body
      simp [hd, h1]
    · intro hm
      have := hother r (by rw [h2]; decide) hm
      rw [this]
      congr 1
      cases r
      simp only [Monitor.mk.injEq] at *
      simp_all
  · intro r hr
    unfold body at hr
    dsimp only at hr
    constructor
    · intro h44
      rw [h44] at hr
      simp [accumulate] at hr
      subst hr
      exact ⟨rfl, rfl⟩
    · intro h44
      by_cases h255 : deref b data s.ptr = 255
      · rw [if_pos h255] at hr; cases hr; rfl
      · rw [if_neg h255] at hr
        by_cases h35 : deref b data s.ptr = 35
        · rw [if_pos h35] at hr
          obtain ⟨r2, k1, _, _, k4⟩ := hterm s
          rw [k1] at hr; cases hr; exact k4
        · rw [if_neg h35] at hr
          cases hr
          unfold accumulate
          split_ifs <;> rfl

/-- The terminator theorem applied to the sample state; evaluated, the buffers `##` and `Q5#`
(`Q` is no command) leave the no-op pending with operand 0, send nothing and keep the
pointer. -/
theorem terminator_resets_and_ignores_unknown_witness :
    (4 ≤ demoGeometry.PAGE_SIZE
      ∧ demoGeometry.MAX_FLASH + demoGeometry.PAGE_SIZE * 4 ≤ 4294967296) ∧
    ((∃ r, terminator demoBuild demoGeometry [35, 35] demoMonitor = some r ∧ r.command = 122 ∧ r.current_number = 0
        ∧ r.ptr_data = demoMonitor.ptr_data ∧ (deref demoBuild [35, 35] demoMonitor.ptr = 35 → body demoBuild demoGeometry [35, 35] demoMonitor = some r)
        ∧ (r.b_terminal_mode = false → terminator demoBuild demoGeometry [35, 35] r = some r))
    ∧ (∀ r, body demoBuild demoGeometry [35, 35] demoMonitor = some r →
        (deref demoBuild [35, 35] demoMonitor.ptr = 44 → r.ptr_data = demoMonitor.current_number ∧ r.current_number = 0)
        ∧ (deref demoBuild [35, 35] demoMonitor.ptr ≠ 44 → r.ptr_data = demoMonitor.ptr_data))
    ∧ (demoMonitor.command ∉ [79, 72, 87, 111, 104, 119, 83, 82, 71, 84, 78, 86, 88, 89, 90] →
        demoMonitor.b_terminal_mode = false →
        terminator demoBuild demoGeometry [35, 35] demoMonitor = some { demoMonitor with command := 122, current_number := 0 })) ∧
    (sam_ba_monitor_loop demoBuild demoGeometry 16 [35, 35] demoMonitor).map
        (fun r => (r.2.command, r.2.current_number, r.2.ptr_data, r.2.hw.trace))
      = some (122, 0, demoMonitor.ptr_data, []) ∧
    (sam_ba_monitor_loop demoBuild demoGeometry 16 [81, 53, 35] demoMonitor).map
        (fun r => (r.2.command, r.2.current_number, r.2.ptr_data, r.2.hw.trace))
      = some (122, 0, demoMonitor.ptr_data, []) :=
  ⟨⟨by decide, by decide⟩,
    terminator_resets_and_ignores_unknown demoBuild demoGeometry [35, 35] demoMonitor
      (by decide) (by decide),
    by decide, by decide⟩

theorem Ptr_add_add (p : Ptr) (a n : Nat) : (p.add a).add n = p.add (a + n) := by
  cases p <;> simp [Ptr.add, Nat.add_assoc]

theorem feedLoop_ptr (cs : List Nat) : ∀ (s : Monitor),
    (feedLoop cs s).ptr = s.ptr.add cs.length := by
  induction cs with
  | nil =>
    intro s
    show s.ptr = s.ptr.add 0
    cases s.ptr <;> rfl
  | cons c cs ih =>
    intro s
    show (feedLoop cs (stepLoop c s)).ptr = _
    rw [ih, (stepLoop_frame c s).2.2.1, Ptr_add_add, List.length_cons, Nat.add_comm 1]

/-- A buffer whose first `#` comes after the bytes `pre`: the loop makes the passes over `pre`,
runs the terminator branch in the state these leave, and goes on behind the `#`. -/
theorem monitor_loop_unit (b : Build) (g : Geometry) (s : Monitor) (pre post : List Nat)
    (fuel : Nat) (hne : ∀ c ∈ pre, c % 256 ≠ 35)
    (hlen : (pre ++ 35 :: post).length < 4294967296) :
    sam_ba_monitor_loop b g (fuel + 1 + pre.length) (pre ++ 35 :: post) s
      = ((terminator b g (pre ++ 35 :: post)
            (feedLoop pre (loopEntry s (pre ++ 35 :: post)))).bind
          fun s1 =>
            forLoop b g (pre ++ 35 :: post) fuel
              { s1 with i := u32 (s1.i + 1), ptr := s1.ptr.add 1 }).map
          fun r => (true, r) := by
  have hl : (pre ++ 35 :: post).length = pre.length + (post.length + 1) := by simp
  unfold sam_ba_monitor_loop
  show Option.map _ (forLoop b g (pre ++ 35 :: post) (fuel + 1 + pre.length)
    (loopEntry s (pre ++ 35 :: post))) = _
  generalize hs0 : loopEntry s (pre ++ 35 :: post) = s0
  have h0 : s0.ptr = Ptr.data 0 ∧ s0.i = 0 ∧ s0.length = (pre ++ 35 :: post).length := by
    rw [← hs0]; exact ⟨rfl, rfl, rfl⟩
  have hfr := feedLoop_frame pre s0 (by rw [h0.2.1]; omega)
  have hp := feedLoop_ptr pre s0
  rw [forLoop_feedLoop b g (pre ++ 35 :: post) pre (fuel + 1) 0 s0 h0.1
    (by rw [h0.2.1, h0.2.2]; omega) (by rw [h0.2.2]; exact hlen)
    (by
      intro j hj
      rw [Nat.zero_add, List.getD_append _ _ _ _ hj])
    hne]
  have hbody : body b g (pre ++ 35 :: post) (feedLoop pre s0)
      = terminator b g (pre ++ 35 :: post) (feedLoop pre s0) := by
    unfold body
    have hd : deref b (pre ++ 35 :: post) (feedLoop pre s0).ptr = 35 := by
      rw [hp, h0.1]
      show (pre ++ 35 :: post).getD (0 + pre.length) 0 % 256 = 35
      rw [Nat.zero_add, List.getD_append_right _ _ _ _ (le_refl _)]
      simp
    simp [hd]
  rw [forLoop, if_pos (by rw [hfr.2.2.2.1, hfr.2.2.2.2, h0.2.1, h0.2.2]; omega), hbody]
  have hd : decide ((pre ++ 35 :: post).length ≠ 0) = true := by
    simp
  rw [hd]
  cases terminator b g (pre ++ 35 :: post) (feedLoop pre s0) <;> rfl

theorem hex_not_terminator (c : Nat) (h : isHexByte c) : c % 256 ≠ 35 := by
  unfold isHexByte at h
  omega

theorem command_not_terminator (c : Nat) (h : isCommandByte c) : c % 256 ≠ 35 := by
  rw [Nat.mod_eq_of_lt h.1]
  exact h.2.2.1

/-- After the bytes `L`, `A`, `,`, `B` the command `L` is pending with pointer `A` and operand
`B`, both modulo 2^32. -/
theorem feedLoop_letter_first (L : Nat) (A B : List Nat) (s : Monitor) (hL : isCommandByte L)
    (hA : ∀ c ∈ A, isHexByte c) (hB : ∀ c ∈ B, isHexByte c) :
    (feedLoop (L :: (A ++ 44 :: B)) s).command = L
      ∧ (feedLoop (L :: (A ++ 44 :: B)) s).ptr_data = u32 (hexValue A)
      ∧ (feedLoop (L :: (A ++ 44 :: B)) s).current_number = u32 (hexValue B) := by
  have e : feedLoop (L :: (A ++ 44 :: B)) s
      = feedLoop B (stepLoop 44 (feedLoop A (stepLoop L s))) := by
    show feedLoop (A ++ 44 :: B) (stepLoop L s) = _
    rw [feedLoop_append]
    rfl
  obtain ⟨a1, a2, _⟩ := stepLoop_command L s hL
  obtain ⟨b1, b2, _⟩ := feedLoop_digits A (stepLoop L s) (by rw [a1]; decide) hA
  obtain ⟨c1, c2, c3⟩ := stepLoop_comma (feedLoop A (stepLoop L s))
  obtain ⟨d1, d2, d3⟩ := feedLoop_digits B (stepLoop 44 (feedLoop A (stepLoop L s)))
    (by rw [c1]; decide) hB
  rw [e, d1, d2, d3, c1, c2, c3, b1, b2, a1, a2]
  simp

/-- After the bytes `A`, `,`, `B`, `L`, from operand 0, the command `L` is pending with pointer
`A` modulo 2^32 and operand 0. -/
theorem feedLoop_fields_first (L : Nat) (A B : List Nat) (s : Monitor) (hL : isCommandByte L)
    (hA : ∀ c ∈ A, isHexByte c) (hB : ∀ c ∈ B, isHexByte c) (h0 : s.current_number = 0) :
    (feedLoop (A ++ 44 :: (B ++ [L])) s).command = L
      ∧ (feedLoop (A ++ 44 :: (B ++ [L])) s).ptr_data = u32 (hexValue A)
      ∧ (feedLoop (A ++ 44 :: (B ++ [L])) s).current_number = 0 := by
  have e : feedLoop (A ++ 44 :: (B ++ [L])) s
      = stepLoop L (feedLoop B (stepLoop 44 (feedLoop A s))) := by
    rw [feedLoop_append]
    show feedLoop (B ++ [L]) (stepLoop 44 (feedLoop A s)) = _
    rw [feedLoop_snoc]
  obtain ⟨b1, _, _⟩ := feedLoop_digits A s (by rw [h0]; decide) hA
  obtain ⟨c1, _, c3⟩ := stepLoop_comma (feedLoop A s)
  obtain ⟨_, _, d3⟩ := feedLoop_digits B (stepLoop 44 (feedLoop A s)) (by rw [c1]; decide) hB
  obtain ⟨a1, a2, a3⟩ := stepLoop_command L (feedLoop B (stepLoop 44 (feedLoop A s))) hL
  rw [e, a1, a2, a3, d3, c3, b1, h0]
  simp

/-- C18, the claim as stated fails: the unit `1000,2AW#`, with the fields before the letter,
reaches its `#` with `W` pending, pointer `0x1000` and operand 0, not `0x2A`, because the
letter resets the operand; the word at `0x1000` is written with 0.  The unit `W1000,2A#`
writes `0x2A`. -/
theorem fields_before_letter_lose_operand :
    hexValue [49, 48, 48, 48] = 4096 ∧ hexValue [50, 65] = 42
    ∧ (sam_ba_monitor_loop demoBuild demoGeometry 16 [49, 48, 48, 48, 44, 50, 65, 87]
        demoMonitor).map (fun r => (r.2.command, r.2.ptr_data, r.2.current_number))
      = some (87, 4096, 0)
    ∧ (sam_ba_monitor_loop demoBuild demoGeometry 16 [49, 48, 48, 48, 44, 50, 65, 87, 35]
        demoMonitor).map (fun r => readBytes r.2.hw.mem 4096 4) = some [0, 0, 0, 0]
    ∧ (sam_ba_monitor_loop demoBuild demoGeometry 16 [87, 49, 48, 48, 48, 44, 50, 65, 35]
        demoMonitor).map (fun r => readBytes r.2.hw.mem 4096 4) = some [42, 0, 0, 0] := by
  decide

/-- C18 (amended): for every command letter `L` and hexadecimal fields `A` and `B`, a unit
written with the letter before the fields (`L`, `A,B`, `#`, as in `W1000,2A#`) runs the
terminator branch, hence the dispatch of `L`, with pointer `A` and operand `B`, each taken
modulo 2^32 and exact for up to 8 digits, sending nothing before; written with the fields
before the letter (`A,B`, `L`, `#`) from operand 0, it dispatches `L` with pointer `A` and
operand 0. -/
theorem command_unit_letter_first (b : Build) (g : Geometry) (s : Monitor) (L : Nat)
    (A B post : List Nat) (fuel : Nat) (hL : isCommandByte L) (hA : ∀ c ∈ A, isHexByte c)
    (hB : ∀ c ∈ B, isHexByte c) (hlen : A.length + B.length + post.length + 3 < 4294967296) :
    (∃ sd : Monitor, sd.command = L
        ∧ sd.ptr_data = hexValue A % 4294967296 ∧ sd.current_number = hexValue B % 4294967296
        ∧ (A.length ≤ 8 → sd.ptr_data = hexValue A)
        ∧ (B.length ≤ 8 → sd.current_number = hexValue B)
        ∧ sd.hw = s.hw ∧ sd.b_terminal_mode = s.b_terminal_mode
        ∧ sam_ba_monitor_loop b g (fuel + 1 + (A.length + B.length + 2))
            (L :: (A ++ 44 :: B) ++ 35 :: post) s
          = ((terminator b g (L :: (A ++ 44 :: B) ++ 35 :: post) sd).bind fun s1 =>
              forLoop b g (L :: (A ++ 44 :: B) ++ 35 :: post) fuel
                { s1 with i := u32 (s1.i + 1), ptr := s1.ptr.add 1 }).map fun r => (true, r))
    ∧ (s.current_number = 0 →
        ∃ sd : Monitor, sd.command = L
          ∧ sd.ptr_data = hexValue A % 4294967296 ∧ sd.current_number = 0
          ∧ sd.hw = s.hw ∧ sd.b_terminal_mode = s.b_terminal_mode
          ∧ sam_ba_monitor_loop b g (fuel + 1 + (A.length + B.length + 2))
              ((A ++ 44 :: (B ++ [L])) ++ 35 :: post) s
            = ((terminator b g ((A ++ 44 :: (B ++ [L])) ++ 35 :: post) sd).bind fun s1 =>
                forLoop b g ((A ++ 44 :: (B ++ [L])) ++ 35 :: post) fuel
                  { s1 with i := u32 (s1.i + 1), ptr := s1.ptr.add 1 }).map
                fun r => (true, r)) := by
  constructor
  · have hl : (L :: (A ++ 44 :: B)).length = A.length + B.length + 2 := by
      simp; omega
    have hne : ∀ c ∈ L :: (A ++ 44 :: B), c % 256 ≠ 35 := by
      intro c hc
      simp only [List.mem_cons, List.mem_append] at hc
      rcases hc with rfl | h | rfl | h
      · exact command_not_terminator _ hL
      · exact hex_not_terminator _ (hA c h)
      · decide
      · exact hex_not_terminator _ (hB c h)
    have hloop := monitor_loop_unit b g s (L :: (A ++ 44 :: B)) post fuel hne
      (by simp; omega)
    rw [hl] at hloop
    generalize hs0 : loopEntry s (L :: (A ++ 44 :: B) ++ 35 :: post) = s0 at hloop
    obtain ⟨f1, f2, f3⟩ := feedLoop_letter_first L A B s0 hL hA hB
    have hfr := feedLoop_frame (L :: (A ++ 44 :: B)) s0 (by rw [← hs0, hl]; show 0 + _ < _; omega)
    refine ⟨feedLoop (L :: (A ++ 44 :: B)) s0, f1, f2, f3, ?_, ?_, ?_, ?_, hloop⟩
    · intro h8; rw [f2]; exact (u32_hexValue A).1 h8
    · intro h8; rw [f3]; exact (u32_hexValue B).1 h8
    · rw [hfr.1, ← hs0]; rfl
    · rw [hfr.2.1, ← hs0]; rfl
  · intro hz
    have hl : (A ++ 44 :: (B ++ [L])).length = A.length + B.length + 2 := by
      simp; omega
    have hne : ∀ c ∈ A ++ 44 :: (B ++ [L]), c % 256 ≠ 35 := by
      intro c hc
      simp only [List.mem_cons, List.mem_append, List.mem_singleton, List.not_mem_nil,
        or_false] at hc
      rcases hc with h | rfl | h | rfl
      · exact hex_not_terminator _ (hA c h)
      · decide
      · exact hex_not_terminator _ (hB c h)
      · exact command_not_terminator _ hL
    have hloop := monitor_loop_unit b g s (A ++ 44 :: (B ++ [L])) post fuel hne
      (by simp; omega)
    rw [hl] at hloop
    generalize hs0 : loopEntry s ((A ++ 44 :: (B ++ [L])) ++ 35 :: post) = s0 at hloop
    obtain ⟨f1, f2, f3⟩ := feedLoop_fields_first L A B s0 hL hA hB (by rw [← hs0]; exact hz)
    have hfr := feedLoop_frame (A ++ 44 :: (B ++ [L])) s0
      (by rw [← hs0, hl]; show 0 + _ < _; omega)
    refine ⟨feedLoop (A ++ 44 :: (B ++ [L])) s0, f1, f2, f3, ?_, ?_, hloop⟩
    · rw [hfr.1, ← hs0]; rfl
    · rw [hfr.2.1, ← hs0]; rfl

/-- The unit theorem applied to `W`, `1000` and `2A`, the unit `W1000,2A#`. -/
theorem command_unit_letter_first_witness :
    (isCommandByte 87 ∧ (∀ c ∈ [49, 48, 48, 48], isHexByte c) ∧ (∀ c ∈ [50, 65], isHexByte c)
      ∧ [49, 48, 48, 48].length + [50, 65].length + ([] : List Nat).length + 3 < 4294967296) ∧
    ((∃ sd : Monitor, sd.command = 87
        ∧ sd.ptr_data = hexValue [49, 48, 48, 48] % 4294967296 ∧ sd.current_number = hexValue [50, 65] % 4294967296
        ∧ ([49, 48, 48, 48].length ≤ 8 → sd.ptr_data = hexValue [49, 48, 48, 48])
        ∧ ([50, 65].length ≤ 8 → sd.current_number = hexValue [50, 65])
        ∧ sd.hw = demoMonitor.hw ∧ sd.b_terminal_mode = demoMonitor.b_terminal_mode
        ∧ sam_ba_monitor_loop demoBuild demoGeometry (0 + 1 + ([49, 48, 48, 48].length + [50, 65].length + 2))
            (87 :: ([49, 48, 48, 48] ++ 44 :: [50, 65]) ++ 35 :: []) demoMonitor
          = ((terminator demoBuild demoGeometry (87 :: ([49, 48, 48, 48] ++ 44 :: [50, 65]) ++ 35 :: []) sd).bind fun s1 =>
              forLoop demoBuild demoGeometry (87 :: ([49, 48, 48, 48] ++ 44 :: [50, 65]) ++ 35 :: []) 0
                { s1 with i := u32 (s1.i + 1), ptr := s1.ptr.add 1 }).map fun r => (true, r))
    ∧ (demoMonitor.current_number = 0 →
        ∃ sd : Monitor, sd.command = 87
          ∧ sd.ptr_data = hexValue [49, 48, 48, 48] % 4294967296 ∧ sd.current_number = 0
          ∧ sd.hw = demoMonitor.hw ∧ sd.b_terminal_mode = demoMonitor.b_terminal_mode
          ∧ sam_ba_monitor_loop demoBuild demoGeometry (0 + 1 + ([49, 48, 48, 48].length + [50, 65].length + 2))
              (([49, 48, 48, 48] ++ 44 :: ([50, 65] ++ [87])) ++ 35 :: []) demoMonitor
            = ((terminator demoBuild demoGeometry (([49, 48, 48, 48] ++ 44 :: ([50, 65] ++ [87])) ++ 35 :: []) sd).bind fun s1 =>
                forLoop demoBuild demoGeometry (([49, 48, 48, 48] ++ 44 :: ([50, 65] ++ [87])) ++ 35 :: []) 0
                  { s1 with i := u32 (s1.i + 1), ptr := s1.ptr.add 1 }).map
                fun r => (true, r))) :=
  ⟨⟨by decide, by decide, by decide, by decide⟩,
    command_unit_letter_first demoBuild demoGeometry demoMonitor 87 [49, 48, 48, 48] [50, 65] []
      0 (by decide) (by decide) (by decide) (by decide)⟩

/-! ### Terminal mode (C19) -/

theorem read16_lt (m : Mem) (p : Nat) : read16 m p < 65536 := by
  unfold read16 read8
  omega

theorem read32_lt (m : Mem) (p : Nat) : read32 m p < 4294967296 := by
  unfold read32 read8
  omega

theorem leBytes_read (m : Mem) (p : Nat) :
    leBytes 1 (read8 m p) = readBytes m p 1 ∧ leBytes 2 (read16 m p) = readBytes m p 2
      ∧ leBytes 4 (read32 m p) = readBytes m p 4 := by
  refine ⟨?_, ?_, ?_⟩ <;>
    simp [leBytes, readBytes, List.range_succ, read8, read16, read32] <;> omega

theorem reads_formatted (b : Build) (g : Geometry) (data : List Nat) (t : Monitor)
    (h : t.b_terminal_mode = true) : readsFormatted b g data t := by
  intro k p hk
  rcases hk with rfl | rfl | rfl
  · refine ⟨_, read8 t.hw.mem p, dispatch_o_read b g data _ rfl, ?_, (leBytes_read _ _).1, ?_, ?_⟩
    · unfold read8; omega
    · have e := termBuf1 (readBytes t.hw.mem p 1)
      have e2 : (readBytes t.hw.mem p 1).getD 0 0 % 256 = read8 t.hw.mem p := by
        simp [readBytes, read8]
      rw [e2] at e
      simp [sam_ba_putdata_term, h, sam_ba_putdata, World.log, e]
    · simp [sam_ba_putdata_term, h, sam_ba_putdata]
  · refine ⟨_, read16 t.hw.mem p, dispatch_h_read b g data _ rfl, ?_, (leBytes_read _ _).2.1,
      ?_, ?_⟩
    · simpa using read16_lt t.hw.mem p
    · have e := termBuf2 (read16 t.hw.mem p)
      rw [Nat.mod_eq_of_lt (read16_lt _ _)] at e
      simp [sam_ba_putdata_term, h, sam_ba_putdata, World.log, e]
    · simp [sam_ba_putdata_term, h, sam_ba_putdata]
  · refine ⟨_, read32 t.hw.mem p, dispatch_w_read b g data _ rfl, ?_, (leBytes_read _ _).2.2,
      ?_, ?_⟩
    · simpa using read32_lt t.hw.mem p
    · have e := termBuf4 (read32 t.hw.mem p)
      rw [Nat.mod_eq_of_lt (read32_lt _ _)] at e
      simp [sam_ba_putdata_term, h, sam_ba_putdata, World.log, e]
    · simp [sam_ba_putdata_term, h, sam_ba_putdata]

theorem reads_raw (b : Build) (g : Geometry) (data : List Nat) (t : Monitor)
    (h : t.b_terminal_mode = false) : readsRaw b g data t := by
  intro k p hk
  rcases hk with rfl | rfl | rfl
  · refine ⟨_, dispatch_o_read b g data _ rfl, ?_, ?_⟩
    · simp [sam_ba_putdata_term, h, sam_ba_putdata, World.log, readBytes]
    · simp [sam_ba_putdata_term, h, sam_ba_putdata]
  · refine ⟨_, dispatch_h_read b g data _ rfl, ?_, ?_⟩
    · have e := (leBytes_read t.hw.mem p).2.1
      simp [sam_ba_putdata_term, h, sam_ba_putdata, World.log, ← e, bytes32, leBytes,
        List.range_succ]
    · simp [sam_ba_putdata_term, h, sam_ba_putdata]
  · refine ⟨_, dispatch_w_read b g data _ rfl, ?_, ?_⟩
    · have e := (leBytes_read t.hw.mem p).2.2
      simp [sam_ba_putdata_term, h, sam_ba_putdata, World.log, ← e, bytes32, leBytes,
        List.range_succ]
    · simp [sam_ba_putdata_term, h, sam_ba_putdata]

/-- C19: from any state, the `T` branch turns the terminal mode on, and the reads `o`/`h`/`w`
then send the hex text of the value with its line break; the `N` branch after it turns the
mode off, and the reads then send the raw bytes; `T` again makes them formatted again.  The `N`
branch itself sends a line break exactly when the mode was already off (whereas the whole unit
`N#` ends up sending one line break in either mode, the terminator sending its own before the
dispatch when the mode is on).  Evaluated on the stream `T# w1000,# N# w1000,# T# o1000,#`. -/
theorem terminal_mode_toggles (b : Build) (g : Geometry) (data : List Nat) (s : Monitor) :
    (∃ s1 s2 s3 : Monitor,
      dispatch b g data { s with command := 84 } = some s1
      ∧ s1.b_terminal_mode = true ∧ readsFormatted b g data s1
      ∧ dispatch b g data { s1 with command := 78 } = some s2
      ∧ s2.b_terminal_mode = false ∧ readsRaw b g data s2
      ∧ dispatch b g data { s2 with command := 84 } = some s3
      ∧ s3.b_terminal_mode = true ∧ readsFormatted b g data s3)
    ∧ (∀ t : Monitor, ∃ r, dispatch b g data { t with command := 78 } = some r
        ∧ r.b_terminal_mode = false
        ∧ (t.b_terminal_mode = false → r.hw.trace = t.hw.trace ++ [Event.putdata lineBreak])
        ∧ (t.b_terminal_mode = true → r.hw.trace = t.hw.trace)
        ∧ (r.hw.trace = t.hw.trace ++ [Event.putdata lineBreak] ↔ t.b_terminal_mode = false))
    ∧ (∀ t : Monitor, (t.b_terminal_mode = true → readsFormatted b g data t)
        ∧ (t.b_terminal_mode = false → readsRaw b g data t))
    ∧ (∀ t : Monitor, ∃ r, terminator b g data { t with command := 78 } = some r
        ∧ r.b_terminal_mode = false
        ∧ r.hw.trace = t.hw.trace ++ [Event.putdata lineBreak])
    ∧ (sam_ba_monitor_loop demoBuild demoGeometry 64
          [84, 35, 119, 49, 48, 48, 48, 44, 35, 78, 35, 119, 49, 48, 48, 48, 44, 35, 84, 35,
            111, 49, 48, 48, 48, 44, 35] demoMonitor).map (fun r => output r.2.hw.trace)
        = some [10, 13, 62, 10, 13, 48, 120, 53, 51, 53, 50, 53, 49, 53, 48, 10, 13, 62,
            10, 13, 80, 81, 82, 83, 10, 13, 62, 10, 13, 48, 120, 53, 48, 10, 13, 62] := by
  have hT : ∀ t : Monitor, dispatch b g data { t with command := 84 }
      = some (sam_ba_putdata { t with command := 84, b_terminal_mode := true } lineBreak) :=
    fun t => dispatch_T b g data _ rfl
  have hN : ∀ t : Monitor, dispatch b g data { t with command := 78 }
      = some { (if t.b_terminal_mode = false
          then sam_ba_putdata { t with command := 78 } lineBreak
          else { t with command := 78 }) with b_terminal_mode := false } :=
    fun t => dispatch_N b g data _ rfl
  refine ⟨⟨_, _, _, hT s, rfl, reads_formatted b g data _ rfl, hN _, rfl,
    reads_raw b g data _ rfl, hT _, rfl, reads_formatted b g data _ rfl⟩, ?_, ?_, ?_, by decide⟩
  · intro t
    refine ⟨_, hN t, rfl, ?_, ?_, ?_⟩
    · intro h; simp [h, sam_ba_putdata, World.log]
    · intro h; simp [h]
    · cases h : t.b_terminal_mode <;> simp [sam_ba_putdata, World.log]
  · intro t
    exact ⟨reads_formatted b g data t, reads_raw b g data t⟩
  · intro t
    cases h : t.b_terminal_mode <;>
      simp [terminator, dispatch, h, sam_ba_putdata, World.log]

/-! ### The transport binding (C20) -/

/-- C20, the claim as stated fails: with both serial interfaces compiled in, the call
`sam_ba_monitor_init(USART)` binds the UART table, and a later call with the USB CDC identity
replaces it by the USB CDC table and changes `com_interface`; the flag set by the first call
stays. -/
theorem later_init_rebinds :
    (sam_ba_monitor_init demoInit 1 Binding.startup)
        = { com_interface := 1, ptr_monitor_if := some MonitorIf.uart_if,
            b_sam_ba_interface_usart := true }
    ∧ (sam_ba_monitor_init demoInit 0 (sam_ba_monitor_init demoInit 1 Binding.startup))
        = { com_interface := 0, ptr_monitor_if := some MonitorIf.usbcdc_if,
            b_sam_ba_interface_usart := true }
    ∧ (sam_ba_monitor_init demoInit 2 (sam_ba_monitor_init demoInit 1 Binding.startup))
        = { com_interface := 2, ptr_monitor_if := some MonitorIf.uart_if,
            b_sam_ba_interface_usart := true } := by
  decide

/-- C20 (amended): after any call of `sam_ba_monitor_init`, a later call with the same identity
or with an identity no guard recognises leaves the binding unchanged; a later call with a
recognised identity sets `com_interface` to it whatever was bound before, and for a serial
identity sets the capability table pointer to that interface's table (the USB CDC table when
its guard accepts the identity, else the UART table), the network identity keeping the table;
the pointer holds at most one table at a time. -/
theorem monitor_init_binding (c : InitCfg) (ci : Nat) (s : Binding) :
    (¬ c.recognises ci → sam_ba_monitor_init c ci s = s)
    ∧ sam_ba_monitor_init c ci (sam_ba_monitor_init c ci s) = sam_ba_monitor_init c ci s
    ∧ (c.recognises ci → (sam_ba_monitor_init c ci s).com_interface = ci)
    ∧ (c.usbBlock ∧ ci = c.SAM_BA_INTERFACE_USBCDC →
        (sam_ba_monitor_init c ci s).ptr_monitor_if = some MonitorIf.usbcdc_if)
    ∧ (c.uartBlock ∧ ci = c.SAM_BA_INTERFACE_USART →
        ¬ (c.usbBlock ∧ ci = c.SAM_BA_INTERFACE_USBCDC) →
        (sam_ba_monitor_init c ci s).ptr_monitor_if = some MonitorIf.uart_if
          ∧ (sam_ba_monitor_init c ci s).b_sam_ba_interface_usart = true)
    ∧ (¬ (c.uartBlock ∧ ci = c.SAM_BA_INTERFACE_USART) →
        ¬ (c.usbBlock ∧ ci = c.SAM_BA_INTERFACE_USBCDC) →
        (sam_ba_monitor_init c ci s).ptr_monitor_if = s.ptr_monitor_if
          ∧ (sam_ba_monitor_init c ci s).b_sam_ba_interface_usart = s.b_sam_ba_interface_usart)
    ∧ (∀ cis : List Nat, (∀ x ∈ cis, ¬ c.recognises x) →
        cis.foldl (fun t x => sam_ba_monitor_init c x t) s = s) := by
  have hun : ∀ (x : Nat) (t : Binding), ¬ c.recognises x → sam_ba_monitor_init c x t = t := by
    intro x t h
    unfold InitCfg.recognises at h
    unfold sam_ba_monitor_init
    simp only [not_or] at h
    simp only [if_neg h.1, if_neg h.2.1, if_neg h.2.2]
  refine ⟨hun ci s, ?_, ?_, ?_, ?_, ?_, ?_⟩
  · unfold sam_ba_monitor_init
    dsimp only
    split_ifs <;> rfl
  · intro h
    unfold InitCfg.recognises at h
    unfold sam_ba_monitor_init
    dsimp only
    split_ifs <;> first | rfl | tauto
  · intro h2
    unfold sam_ba_monitor_init
    dsimp only
    rw [if_pos h2]
    split_ifs <;> rfl
  · intro h1 h2
    unfold sam_ba_monitor_init
    dsimp only
    rw [if_pos h1, if_neg h2]
    split_ifs <;> exact ⟨rfl, rfl⟩
  · intro h1 h2
    unfold sam_ba_monitor_init
    dsimp only
    rw [if_neg h1, if_neg h2]
    split_ifs <;> exact ⟨rfl, rfl⟩
  · intro cis
    induction cis with
    | nil => intro _; rfl
    | cons x cis ih =>
      intro h
      rw [List.foldl_cons, hun x s (h x (by simp))]
      exact ih (fun y hy => h y (List.mem_cons_of_mem _ hy))

/-! ### Polls and the byte stream (C21) -/

theorem setLocals_setLocals (a l : Nat) (p : Ptr) (a2 l2 : Nat) (p2 : Ptr) (s : Monitor) :
    setLocals a2 l2 p2 (setLocals a l p s) = setLocals a2 l2 p2 s := rfl

theorem setLocals_self (s : Monitor) : setLocals s.i s.length s.ptr s = s := rfl

theorem sessionOf_setLocals (a l : Nat) (p : Ptr) (s : Monitor) :
    sessionOf (setLocals a l p s) = sessionOf s := rfl

theorem accumulate_setLocals (c a l : Nat) (p : Ptr) (s : Monitor) :
    accumulate c (setLocals a l p s) = setLocals a l p (accumulate c s) := by
  unfold accumulate setLocals
  split_ifs <;> rfl

theorem putdata_term_setLocals (a l : Nat) (p : Ptr) (s : Monitor) (d : List Nat) (k : Nat) :
    sam_ba_putdata_term (setLocals a l p s) d k = setLocals a l p (sam_ba_putdata_term s d k) := by
  unfold sam_ba_putdata_term setLocals sam_ba_putdata
  split_ifs <;> rfl

/-- Apart from `S` and `V`, no branch of the dispatch reads or assigns the loop's index,
length and pointer, or reads the receive buffer. -/
theorem dispatch_setLocals (b : Build) (g : Geometry) (d d2 : List Nat) (a l : Nat) (p : Ptr)
    (s : Monitor) (hS : s.command ≠ 83) (hV : s.command ≠ 86) :
    dispatch b g d (setLocals a l p s) = (dispatch b g d2 s).map (setLocals a l p) := by
  by_cases hm : s.command ∈ [79, 72, 87, 111, 104, 119, 83, 82, 71, 84, 78, 86, 88, 89, 90]
  · simp only [List.mem_cons, List.mem_singleton, List.not_mem_nil, or_false] at hm
    rcases hm with c | c | c | c | c | c | c | c | c | c | c | c | c | c | c
    · rw [dispatch_O b g d (setLocals a l p s) c, dispatch_O b g d2 s c]; rfl
    · rw [dispatch_H b g d (setLocals a l p s) c, dispatch_H b g d2 s c]; rfl
    · rw [dispatch_W b g d (setLocals a l p s) c, dispatch_W b g d2 s c]; rfl
    · rw [dispatch_o_read b g d (setLocals a l p s) c, dispatch_o_read b g d2 s c, Option.map_some']
      exact congrArg some (putdata_term_setLocals a l p s _ 1)
    · rw [dispatch_h_read b g d (setLocals a l p s) c, dispatch_h_read b g d2 s c, Option.map_some']
      exact congrArg some (putdata_term_setLocals a l p
        { s with current_number := read16 s.hw.mem s.ptr_data }
        (bytes32 (read16 s.hw.mem s.ptr_data)) 2)
    · rw [dispatch_w_read b g d (setLocals a l p s) c, dispatch_w_read b g d2 s c, Option.map_some']
      exact congrArg some (putdata_term_setLocals a l p
        { s with current_number := read32 s.hw.mem s.ptr_data }
        (bytes32 (read32 s.hw.mem s.ptr_data)) 4)
    · exact absurd c hS
    · rw [dispatch_R b g d (setLocals a l p s) c, dispatch_R b g d2 s c]; rfl
    · rw [dispatch_G b g d (setLocals a l p s) c, dispatch_G b g d2 s c, Option.map_some']
      cases h : s.b_sam_ba_interface_usart <;>
        simp [setLocals, call_applet, h, World.log]
    · rw [dispatch_T b g d (setLocals a l p s) c, dispatch_T b g d2 s c]; rfl
    · rw [dispatch_N b g d (setLocals a l p s) c, dispatch_N b g d2 s c, Option.map_some']
      cases h : s.b_terminal_mode <;>
        simp [setLocals, sam_ba_putdata, h, World.log]
    · exact absurd c hV
    · rw [dispatch_X b g d (setLocals a l p s) c, dispatch_X b g d2 s c]
      show Option.map _ (sam_ba_eraseflash g s.current_number s.hw) = _
      cases sam_ba_eraseflash g s.current_number s.hw <;> rfl
    · rw [dispatch_Y b g d (setLocals a l p s) c, dispatch_Y b g d2 s c]
      unfold cmdY
      show Option.map _ (if s.current_number = 0 then _ else _) = _
      split_ifs
      · rfl
      · show Option.map _ (Option.map _ (sam_ba_writetoflash g (memWords s.src_buff_addr)
          s.ptr_data (s.current_number / 4) s.hw)) = _
        cases sam_ba_writetoflash g (memWords s.src_buff_addr) s.ptr_data
          (s.current_number / 4) s.hw <;> rfl
    · rw [dispatch_Z b g d (setLocals a l p s) c, dispatch_Z b g d2 s c]; rfl
  · rw [dispatch_other b g d (setLocals a l p s) hm, dispatch_other b g d2 s hm]; rfl

theorem terminator_setLocals (b : Build) (g : Geometry) (d d2 : List Nat) (a l : Nat) (p : Ptr)
    (s : Monitor) (hS : s.command ≠ 83) (hV : s.command ≠ 86) :
    terminator b g d (setLocals a l p s) = (terminator b g d2 s).map (setLocals a l p) := by
  have hpre : (if (setLocals a l p s).b_terminal_mode = true
        then sam_ba_putdata (setLocals a l p s) lineBreak else setLocals a l p s)
      = setLocals a l p (if s.b_terminal_mode = true then sam_ba_putdata s lineBreak else s) := by
    show (if s.b_terminal_mode = true then _ else _) = _
    split_ifs <;> rfl
  have hc : (if s.b_terminal_mode = true then sam_ba_putdata s lineBreak else s).command
      = s.command := by
    split_ifs <;> rfl
  unfold terminator
  dsimp only
  rw [hpre, dispatch_setLocals b g d d2 a l p _ (by rw [hc]; exact hS) (by rw [hc]; exact hV),
    Option.map_map, Option.map_map]
  congr 1
  funext r
  show (if r.b_terminal_mode = true then _ else _) = setLocals a l p (if r.b_terminal_mode = true
    then _ else _)
  split_ifs <;> rfl

/-- Whatever was pending, the terminator branch leaves the no-op pending. -/
theorem terminator_command (b : Build) (g : Geometry) (d : List Nat) (s r : Monitor)
    (h : terminator b g d s = some r) : r.command = 122 := by
  unfold terminator at h
  dsimp only at h
  obtain ⟨x, _, hx⟩ := Option.map_eq_some'.mp h
  rw [← hx]
  split_ifs <;> rfl

theorem terminator_data (b : Build) (g : Geometry) (d d2 : List Nat) (s : Monitor)
    (hS : s.command ≠ 83) (hV : s.command ≠ 86) :
    terminator b g d s = terminator b g d2 s := by
  have h1 := terminator_setLocals b g d d2 s.i s.length s.ptr s hS hV
  have h2 := terminator_setLocals b g d2 d2 s.i s.length s.ptr s hS hV
  rw [setLocals_self] at h1 h2
  rw [h1, ← h2]

theorem byteStep_setLocals (b : Build) (g : Geometry) (c a l : Nat) (p : Ptr) (s : Monitor)
    (hS : s.command ≠ 83) (hV : s.command ≠ 86) :
    byteStep b g c (setLocals a l p s) = (byteStep b g c s).map (setLocals a l p) := by
  unfold byteStep
  split_ifs
  · rfl
  · exact terminator_setLocals b g [] [] a l p s hS hV
  · rw [accumulate_setLocals]; rfl

theorem byteStep_command (b : Build) (g : Geometry) (c : Nat) (s r : Monitor)
    (h : byteStep b g c s = some r) (hc : notSV c) (hS : s.command ≠ 83) (hV : s.command ≠ 86) :
    r.command ≠ 83 ∧ r.command ≠ 86 := by
  unfold byteStep at h
  split_ifs at h
  · rw [← Option.some.inj h]; exact ⟨hS, hV⟩
  · rw [terminator_command b g [] s r h]; decide
  · rw [← Option.some.inj h]
    unfold accumulate
    split_ifs
    · exact ⟨hS, hV⟩
    · exact ⟨hS, hV⟩
    · exact ⟨hS, hV⟩
    · exact ⟨hS, hV⟩
    · exact hc

theorem byteStep_locals (b : Build) (g : Geometry) (c : Nat) (s r : Monitor)
    (h : byteStep b g c s = some r) (hS : s.command ≠ 83) (hV : s.command ≠ 86) :
    r.i = s.i ∧ r.length = s.length ∧ r.ptr = s.ptr := by
  have h1 := byteStep_setLocals b g c s.i s.length s.ptr s hS hV
  rw [setLocals_self, h, Option.map_some'] at h1
  have h2 := Option.some.inj h1
  refine ⟨?_, ?_, ?_⟩
  · rw [h2]; rfl
  · rw [h2]; rfl
  · rw [h2]; rfl

theorem interp_setLocals (b : Build) (g : Geometry) (a l : Nat) (p : Ptr) (cs : List Nat) :
    ∀ (s : Monitor), (∀ c ∈ cs, notSV c) → s.command ≠ 83 → s.command ≠ 86 →
      interp b g cs (setLocals a l p s) = (interp b g cs s).map (setLocals a l p) := by
  induction cs with
  | nil => intro s _ _ _; rfl
  | cons c cs ih =>
    intro s hcs hS hV
    rw [interp, interp, byteStep_setLocals b g c a l p s hS hV]
    cases hb : byteStep b g c s with
    | none => rfl
    | some s1 =>
      obtain ⟨k1, k2⟩ := byteStep_command b g c s s1 hb (hcs c (by simp)) hS hV
      exact ih s1 (fun x hx => hcs x (List.mem_cons_of_mem _ hx)) k1 k2

theorem interp_command (b : Build) (g : Geometry) (cs : List Nat) :
    ∀ (s r : Monitor), interp b g cs s = some r → (∀ c ∈ cs, notSV c) →
      s.command ≠ 83 → s.command ≠ 86 → r.command ≠ 83 ∧ r.command ≠ 86 := by
  induction cs with
  | nil =>
    intro s r h _ hS hV
    rw [← Option.some.inj h]
    exact ⟨hS, hV⟩
  | cons c cs ih =>
    intro s r h hcs hS hV
    rw [interp] at h
    cases hb : byteStep b g c s with
    | none => rw [hb] at h; exact Option.noConfusion h
    | some s1 =>
      rw [hb] at h
      obtain ⟨k1, k2⟩ := byteStep_command b g c s s1 hb (hcs c (by simp)) hS hV
      exact ih s1 r h (fun x hx => hcs x (List.mem_cons_of_mem _ hx)) k1 k2

theorem interp_append (b : Build) (g : Geometry) (as cs : List Nat) :
    ∀ (s : Monitor), interp b g (as ++ cs) s = (interp b g as s).bind (interp b g cs) := by
  induction as with
  | nil => intro s; rfl
  | cons a as ih =>
    intro s
    rw [List.cons_append, interp, interp]
    cases byteStep b g a s with
    | none => rfl
    | some s1 => exact ih s1

/-- With neither `S` nor `V` pending, the loop body on a buffer byte is `byteStep`. -/
theorem body_eq_byteStep (b : Build) (g : Geometry) (data : List Nat) (s : Monitor) (k : Nat)
    (hptr : s.ptr = Ptr.data k) (hS : s.command ≠ 83) (hV : s.command ≠ 86) :
    body b g data s = byteStep b g (data.getD k 0) s := by
  unfold body byteStep
  simp only [hptr, deref]
  rw [terminator_data b g data [] s hS hV]

/-- With neither `S` nor `V` around, the `for` loop over the rest `cs` of the buffer is the
byte-stream interpreter on `cs`, the loop's index and pointer ending behind the buffer. -/
theorem forLoop_interp (b : Build) (g : Geometry) (data : List Nat) :
    ∀ (cs : List Nat) (fuel k : Nat) (s : Monitor),
      s.ptr = Ptr.data k → s.i + cs.length = s.length → s.length < 4294967296 →
      (∀ j, j < cs.length → data.getD (k + j) 0 = cs.getD j 0) →
      (∀ c ∈ cs, notSV c) → s.command ≠ 83 → s.command ≠ 86 → cs.length ≤ fuel →
      forLoop b g data fuel s
        = (interp b g cs s).map (setLocals s.length s.length (Ptr.data (k + cs.length))) := by
  intro cs
  induction cs with
  | nil =>
    intro fuel k s hptr hi _ _ _ _ _ _
    simp only [List.length_nil, Nat.add_zero] at hi ⊢
    have e : setLocals s.length s.length (Ptr.data k) s = setLocals s.i s.length s.ptr s := by
      rw [hptr, hi]
    rw [forLoop_done b g data fuel s (by omega)]
    show some s = some (setLocals s.length s.length (Ptr.data k) s)
    rw [e, setLocals_self]
  | cons c cs ih =>
    intro fuel k s hptr hi hL hdata hcs hS hV hf
    have hlen : (c :: cs).length = cs.length + 1 := rfl
    rw [hlen] at hi hf
    obtain ⟨f, rfl⟩ : ∃ f, fuel = f + 1 := ⟨fuel - 1, by omega⟩
    have h0 : data.getD k 0 = c := by simpa using hdata 0 (by simp)
    rw [forLoop, if_pos (by omega), body_eq_byteStep b g data s k hptr hS hV, h0, interp]
    cases hb : byteStep b g c s with
    | none => rfl
    | some s1 =>
      obtain ⟨k1, k2⟩ := byteStep_command b g c s s1 hb (hcs c (by simp)) hS hV
      obtain ⟨l1, l2, l3⟩ := byteStep_locals b g c s s1 hb hS hV
      have hu : u32 (s1.i + 1) = s.i + 1 := by
        rw [l1]; exact Nat.mod_eq_of_lt (by omega)
      have hs' : ({ s1 with i := u32 (s1.i + 1), ptr := s1.ptr.add 1 } : Monitor)
          = setLocals (s.i + 1) s.length (Ptr.data (k + 1)) s1 := by
        rw [hu, l3, hptr]
        show _ = setLocals (s.i + 1) s.length (Ptr.data (k + 1)) s1
        rw [← l2]
        rfl
      show forLoop b g data f { s1 with i := u32 (s1.i + 1), ptr := s1.ptr.add 1 } = _
      have hcs' : ∀ x ∈ cs, notSV x := fun x hx => hcs x (List.mem_cons_of_mem _ hx)
      rw [hs', ih f (k + 1) (setLocals (s.i + 1) s.length (Ptr.data (k + 1)) s1) rfl
        (by show s.i + 1 + cs.length = s.length; omega) hL
        (by
          intro j hj
          have := hdata (j + 1) (by simp; omega)
          rw [List.getD_cons_succ] at this
          rw [← this]
          congr 1
          omega)
        hcs' k1 k2 (by omega),
        interp_setLocals b g _ _ _ cs s1 hcs' k1 k2, Option.map_map]
      show _ = Option.map _ (interp b g cs s1)
      congr 1
      funext r
      show setLocals s.length s.length (Ptr.data (k + 1 + cs.length)) r
        = setLocals s.length s.length (Ptr.data (k + (cs.length + 1))) r
      rw [Nat.add_assoc, Nat.add_comm 1]

/-- A poll on a buffer without `S` and `V`, with neither pending, leaves the session that the
byte-stream interpreter computes. -/
theorem poll_session (b : Build) (g : Geometry) (fuel : Nat) (data : List Nat) (s : Monitor)
    (hne : ∀ c ∈ data, notSV c) (hS : s.command ≠ 83) (hV : s.command ≠ 86)
    (hlen : data.length < 4294967296) (hf : data.length ≤ fuel) :
    (sam_ba_monitor_loop b g fuel data s).map (fun r => sessionOf r.2)
      = (interp b g data s).map sessionOf := by
  unfold sam_ba_monitor_loop
  show Option.map _ (Option.map _ (forLoop b g data fuel
    (setLocals 0 data.length (Ptr.data 0) s))) = _
  rw [forLoop_interp b g data data fuel 0 (setLocals 0 data.length (Ptr.data 0) s) rfl
    (by show 0 + data.length = data.length; omega) hlen
    (by intro j _; rw [Nat.zero_add]) hne hS hV hf,
    interp_setLocals b g _ _ _ data s hne hS hV, Option.map_map, Option.map_map, Option.map_map]
  rfl

/-- Polls on buffers without `S` and `V` compose: one poll on `a ++ c` leaves the session of a
poll on `a` followed by a poll on `c`. -/
theorem polls_compose (b : Build) (g : Geometry) (fuel : Nat) (a c : List Nat) (s : Monitor)
    (ha : ∀ x ∈ a, notSV x) (hc : ∀ x ∈ c, notSV x) (hS : s.command ≠ 83) (hV : s.command ≠ 86)
    (hlen : a.length + c.length < 4294967296) (hf : a.length + c.length ≤ fuel) :
    (sam_ba_monitor_loop b g fuel (a ++ c) s).map (fun r => sessionOf r.2)
      = (twoPolls b g fuel a c s).map (fun r => sessionOf r.2) := by
  have hac : ∀ x ∈ a ++ c, notSV x := by
    intro x hx
    rcases List.mem_append.mp hx with h | h
    · exact ha x h
    · exact hc x h
  rw [poll_session b g fuel (a ++ c) s hac hS hV (by simp; omega) (by simp; omega),
    interp_append]
  have h1 := poll_session b g fuel a s ha hS hV (by omega) (by omega)
  unfold twoPolls
  cases hl : sam_ba_monitor_loop b g fuel a s with
  | none =>
    rw [hl] at h1
    cases hi : interp b g a s with
    | none => rfl
    | some r => rw [hi] at h1; exact Option.noConfusion h1
  | some q =>
    rw [hl] at h1
    cases hi : interp b g a s with
    | none => rw [hi] at h1; exact Option.noConfusion h1
    | some r =>
      rw [hi] at h1
      have hq : sessionOf q.2 = sessionOf r := Option.some.inj h1
      obtain ⟨k1, k2⟩ := interp_command b g a s r hi ha hS hV
      have e1 : sam_ba_monitor_loop b g fuel c q.2 = sam_ba_monitor_loop b g fuel c r := by
        show sam_ba_monitor_loop b g fuel c (sessionOf q.2) = sam_ba_monitor_loop b g fuel c
          (sessionOf r)
        rw [hq]
      show Option.map sessionOf (interp b g c r)
        = Option.map _ (sam_ba_monitor_loop b g fuel c q.2)
      rw [e1, poll_session b g fuel c r hc k1 k2 (by omega) (by omega)]

/-- The `V` branch assigns the loop's index and pointer: it returns with `i` the length of the
`__TIME__` string and `ptr` behind the terminating NUL of that literal, whatever they were. -/
theorem terminator_V (b : Build) (g : Geometry) (d : List Nat) (s : Monitor)
    (hc : s.command = 86) :
    ∃ r, terminator b g d s = some r ∧ r.i = strlen b.TIME
      ∧ r.ptr = Ptr.time (strlen b.TIME + 1) ∧ r.length = s.length ∧ r.command = 122 := by
  have hcmd : (if s.b_terminal_mode = true then sam_ba_putdata s lineBreak else s).command
      = 86 := by
    split_ifs <;> exact hc
  unfold terminator
  dsimp only
  rw [dispatch_V b g d _ hcmd, Option.map_some']
  refine ⟨_, rfl, ?_, ?_, ?_, ?_⟩
  · cases h : s.b_terminal_mode <;> simp [cmdV, sam_ba_putdata, h]
  · cases h : s.b_terminal_mode <;> simp [cmdV, sam_ba_putdata, h]
  · cases h : s.b_terminal_mode <;> simp [cmdV, sam_ba_putdata, h]
  · cases h : s.b_terminal_mode <;> simp [cmdV, sam_ba_putdata, h]

/-- The session the `V` branch leaves does not depend on the loop's index, length and pointer
before it, nor on the receive buffer. -/
theorem terminator_V_session (b : Build) (g : Geometry) (d d2 : List Nat) (a l : Nat) (p : Ptr)
    (s : Monitor) (hc : s.command = 86) :
    (terminator b g d (setLocals a l p s)).map sessionOf
      = (terminator b g d2 s).map sessionOf := by
  have hcmd : (if s.b_terminal_mode = true then sam_ba_putdata s lineBreak else s).command
      = 86 := by
    split_ifs <;> exact hc
  have hcmd2 : (if (setLocals a l p s).b_terminal_mode = true
      then sam_ba_putdata (setLocals a l p s) lineBreak else setLocals a l p s).command = 86 := by
    split_ifs <;> exact hc
  unfold terminator
  dsimp only
  rw [dispatch_V b g d _ hcmd2, dispatch_V b g d2 _ hcmd]
  cases h : s.b_terminal_mode <;>
    simp [setLocals, sessionOf, cmdV, sam_ba_putdata, World.log, h]

/-- A poll on a buffer that starts with `V#` and is no longer than the `__TIME__` string plus
one: the loop ends with the `V` branch, and the bytes behind `V#` are not looked at. -/
theorem poll_V_first (b : Build) (g : Geometry) (fuel : Nat) (rest : List Nat) (s : Monitor)
    (hlen : rest.length + 2 ≤ strlen b.TIME + 1) (hT : strlen b.TIME + 1 < 4294967296) :
    (sam_ba_monitor_loop b g (fuel + 2) (86 :: 35 :: rest) s).map (fun r => sessionOf r.2)
      = (terminator b g [] { s with command := 86, current_number := 0 }).map sessionOf := by
  have hunit := monitor_loop_unit b g s [86] rest fuel (by decide)
    (by simp only [List.length_append, List.length_cons, List.length_nil]; omega)
  have hfeed : feedLoop [86] (loopEntry s ([86] ++ 35 :: rest))
      = setLocals 1 (rest.length + 2) (Ptr.data 1)
          { s with command := 86, current_number := 0 } := rfl
  rw [hfeed] at hunit
  show Option.map _ (sam_ba_monitor_loop b g (fuel + 1 + [86].length) ([86] ++ 35 :: rest) s) = _
  rw [hunit, ← terminator_V_session b g ([86] ++ 35 :: rest) [] 1 (rest.length + 2) (Ptr.data 1)
    { s with command := 86, current_number := 0 } rfl]
  obtain ⟨r, hr, h1, _, h3, _⟩ := terminator_V b g ([86] ++ 35 :: rest)
    (setLocals 1 (rest.length + 2) (Ptr.data 1) { s with command := 86, current_number := 0 })
    rfl
  rw [hr, Option.some_bind, forLoop_done]
  · rfl
  · show ¬ u32 (r.i + 1) < r.length
    rw [h1, h3]
    have : u32 (strlen b.TIME + 1) = strlen b.TIME + 1 := Nat.mod_eq_of_lt hT
    rw [this]
    show ¬ strlen b.TIME + 1 < rest.length + 2
    omega

/-- Two polls, the first receiving `V#`: the second poll interprets its bytes. -/
theorem twoPolls_V_first (b : Build) (g : Geometry) (fuel : Nat) (rest : List Nat) (s : Monitor)
    (hrest : ∀ c ∈ rest, notSV c) (hlen : rest.length < 4294967296)
    (hf : rest.length ≤ fuel + 2) (hT0 : 1 ≤ strlen b.TIME)
    (hT : strlen b.TIME + 1 < 4294967296) :
    (twoPolls b g (fuel + 2) [86, 35] rest s).map (fun r => sessionOf r.2)
      = ((terminator b g [] { s with command := 86, current_number := 0 }).bind
          (interp b g rest)).map sessionOf := by
  have h1 := poll_V_first b g fuel [] s (by simp; omega) hT
  obtain ⟨r, hr, _, _, _, hcmd⟩ := terminator_V b g []
    { s with command := 86, current_number := 0 } rfl
  rw [hr] at h1 ⊢
  unfold twoPolls
  cases hl : sam_ba_monitor_loop b g (fuel + 2) [86, 35] s with
  | none => rw [hl] at h1; exact Option.noConfusion h1
  | some q =>
    rw [hl] at h1
    have hq : sessionOf q.2 = sessionOf r := Option.some.inj h1
    have e1 : sam_ba_monitor_loop b g (fuel + 2) rest q.2
        = sam_ba_monitor_loop b g (fuel + 2) rest r := by
      show sam_ba_monitor_loop b g (fuel + 2) rest (sessionOf q.2)
        = sam_ba_monitor_loop b g (fuel + 2) rest (sessionOf r)
      rw [hq]
    show Option.map _ (sam_ba_monitor_loop b g (fuel + 2) rest q.2)
      = Option.map sessionOf (interp b g rest r)
    rw [e1, poll_session b g (fuel + 2) rest r hrest (by rw [hcmd]; decide)
      (by rw [hcmd]; decide) hlen hf]

/-- C21: poll-boundary independence holds for byte sequences without `S` and `V` in a state
where neither is pending (one poll on `a ++ c` leaves the session, memory and output of a poll
on `a` followed by a poll on `c`), but not for `V`: its branch assigns the loop's own index
and pointer, so a poll on `V#` followed by further bytes ends with the `V` reply when the
buffer has at most 9 bytes, and the further bytes are never interpreted, whereas in a second
poll they are.  Evaluated: `V#T#` in one poll sends the version reply only and leaves the
terminal mode off, in two polls `T` is run; `V#O10,7#` in one poll leaves address 0x10 as it
was, in two polls stores 7; on a 12-byte buffer the loop goes on with the bytes stored behind
the `__TIME__` literal (zeros in the sample, which leave the command 0 pending). -/
theorem V_branch_breaks_poll_independence :
    ((sam_ba_monitor_loop demoBuild demoGeometry 16 [86, 35, 84, 35] demoMonitor).map
        (fun r => (output r.2.hw.trace, r.2.b_terminal_mode))
      = some (demoVersionReply, false))
    ∧ ((twoPolls demoBuild demoGeometry 16 [86, 35] [84, 35] demoMonitor).map
        (fun r => (output r.2.hw.trace, r.2.b_terminal_mode))
      = some (demoVersionReply ++ [10, 13, 62], true))
    ∧ ((sam_ba_monitor_loop demoBuild demoGeometry 16 [86, 35, 79, 49, 48, 44, 55, 35]
          demoMonitor).map (fun r => (output r.2.hw.trace, readBytes r.2.hw.mem 16 1))
      = some (demoVersionReply, [16]))
    ∧ ((twoPolls demoBuild demoGeometry 16 [86, 35] [79, 49, 48, 44, 55, 35] demoMonitor).map
        (fun r => (output r.2.hw.trace, readBytes r.2.hw.mem 16 1))
      = some (demoVersionReply, [7]))
    ∧ ((sam_ba_monitor_loop demoBuild demoGeometry 16
          [86, 35, 79, 49, 48, 44, 55, 35, 84, 35, 84, 35] demoMonitor).map
        (fun r => (output r.2.hw.trace, r.2.b_terminal_mode, readBytes r.2.hw.mem 16 1,
          r.2.command, r.2.ptr))
      = some (demoVersionReply, false, [16], 0, Ptr.time 13))
    ∧ (∀ (b : Build) (g : Geometry) (fuel : Nat) (rest : List Nat) (s : Monitor),
        rest.length + 2 ≤ strlen b.TIME + 1 → strlen b.TIME + 1 < 4294967296 →
        (sam_ba_monitor_loop b g (fuel + 2) (86 :: 35 :: rest) s).map (fun r => sessionOf r.2)
          = (terminator b g [] { s with command := 86, current_number := 0 }).map sessionOf)
    ∧ (∀ (b : Build) (g : Geometry) (fuel : Nat) (rest : List Nat) (s : Monitor),
        (∀ c ∈ rest, notSV c) → rest.length < 4294967296 → rest.length ≤ fuel + 2 →
        1 ≤ strlen b.TIME → strlen b.TIME + 1 < 4294967296 →
        (twoPolls b g (fuel + 2) [86, 35] rest s).map (fun r => sessionOf r.2)
          = ((terminator b g [] { s with command := 86, current_number := 0 }).bind
              (interp b g rest)).map sessionOf)
    ∧ (∀ (b : Build) (g : Geometry) (fuel : Nat) (a c : List Nat) (s : Monitor),
        (∀ x ∈ a, notSV x) → (∀ x ∈ c, notSV x) → s.command ≠ 83 → s.command ≠ 86 →
        a.length + c.length < 4294967296 → a.length + c.length ≤ fuel →
        (sam_ba_monitor_loop b g fuel (a ++ c) s).map (fun r => sessionOf r.2)
            = (twoPolls b g fuel a c s).map (fun r => sessionOf r.2)
          ∧ (sam_ba_monitor_loop b g fuel (a ++ c) s).map (fun r => sessionOf r.2)
            = (interp b g (a ++ c) s).map sessionOf)
    ∧ ((sam_ba_monitor_loop demoBuild demoGeometry 16
          ([87, 49, 48] ++ [48, 48, 44, 50, 65, 35, 119, 49, 48, 48, 48, 44, 35])
          demoMonitor).map (fun r => (output r.2.hw.trace, readBytes r.2.hw.mem 4096 4))
      = some ([42, 0, 0, 0], [42, 0, 0, 0]))
    ∧ ((twoPolls demoBuild demoGeometry 16 [87, 49, 48]
          [48, 48, 44, 50, 65, 35, 119, 49, 48, 48, 48, 44, 35] demoMonitor).map
        (fun r => (output r.2.hw.trace, readBytes r.2.hw.mem 4096 4))
      = some ([42, 0, 0, 0], [42, 0, 0, 0])) := by
  refine ⟨by decide, by decide, by decide, by decide, by decide, ?_, ?_, ?_, by decide,
    by decide⟩
  · intro b g fuel rest s h1 h2
    exact poll_V_first b g fuel rest s h1 h2
  · intro b g fuel rest s h1 h2 h3 h4 h5
    exact twoPolls_V_first b g fuel rest s h1 h2 h3 h4 h5
  · intro b g fuel a c s ha hc hS hV hlen hf
    refine ⟨polls_compose b g fuel a c s ha hc hS hV hlen hf, ?_⟩
    refine poll_session b g fuel (a ++ c) s ?_ hS hV (by simp; omega) (by simp; omega)
    intro x hx
    rcases List.mem_append.mp hx with h | h
    · exact ha x h
    · exact hc x h

end SamBa
